import Mathlib

/-!
# Trade ERP back office: sequence allocator and transaction orchestrator

A shallow embedding of the numbering and transaction-processing core of the
repository:

* `models/modules/sequenceModel.js`  (`Sequence.getNext`)
* `controllers/sequenceController.js` (`exports.preview`)
* `services/orderPurchase/transactionService.js` (`TransactionService`)
* `models/modules/DebitLog.js`, `models/modules/CreditLog.js` (the ledger schemas)
* `client/helpers/orderPayload.js` (`buildOrderPayload`, `validateManualNumber`)

Stateful code is written as explicit state passing.  MongoDB is the external
collaborator: a collection is a list of documents, a single-document
operation is one atomic function on that list.
-/

namespace TradeErp

/-! ## JavaScript string helpers -/

/-- `String.prototype.padStart(targetLength, c)` for a one-character pad string
(the source only ever pads with the character 0). -/
def padStart (s : String) (targetLength : Nat) (c : Char) : String :=
  String.mk (List.replicate (targetLength - s.length) c ++ s.data)

/-- `s.slice(lo, hi)` for `0 ≤ lo ≤ hi`. -/
def jsSlice (s : String) (lo hi : Nat) : String :=
  String.mk ((s.data.drop lo).take (hi - lo))

/-- Value of a run of decimal digits, read left to right from accumulator `acc`;
stops at the first character that is not a digit, as `parseInt` does. -/
def digitsValue : List Char → Nat → Nat
  | [], acc => acc
  | c :: cs, acc => if c.isDigit then digitsValue cs (acc * 10 + (c.toNat - 48)) else acc

/-- White space skipped by `parseInt` (the ASCII part of it). -/
def jsIsBlank (c : Char) : Bool :=
  c = ' ' || c = '\t' || c = '\n' || c = '\r' || c.toNat = 11 || c.toNat = 12

/-- `parseInt(s, 10)`: leading blanks, an optional sign, then the longest run
of digits; `none` stands for `NaN` (no digit where one is expected). -/
def jsParseInt10 (s : String) : Option Int :=
  match s.data.dropWhile jsIsBlank with
  | [] => none
  | c :: cs =>
    if c = '-' then
      match cs with
      | [] => none
      | d :: _ => if d.isDigit then some (-(digitsValue cs 0 : Int)) else none
    else if c = '+' then
      match cs with
      | [] => none
      | d :: _ => if d.isDigit then some (digitsValue cs 0 : Int) else none
    else if c.isDigit then some (digitsValue (c :: cs) 0 : Int)
    else none

/-- `s.toUpperCase()` on ASCII letters. -/
def jsToUpperCase (s : String) : String :=
  String.mk (s.data.map Char.toUpper)

/-- `String(n)` for the result of `parseInt`. -/
def jsNumberToString : Option Int → String
  | none => "NaN"
  | some i => toString i

/-! ## Sequence collection (sequenceModel.js) -/

/-- A document of the Sequence collection (`sequenceSchema`).  The schema field
`prefix` is called `pfx` here. -/
structure SequenceDoc where
  year : Option String
  type : String
  pfx : String
  current : Nat
  padding : Nat
deriving DecidableEq, Repr

/-- What one call to the store answers: the document, `null`, or a thrown error
with its `code` and `message`. -/
inductive DbReply where
  | doc (d : SequenceDoc)
  | null
  | error (code : Nat) (message : String)
deriving DecidableEq, Repr

/-- The two store calls `getNext` makes, as state transformers on a store of
type `σ`.  Nothing is assumed about what they answer. -/
structure SequenceStore (σ : Type) where
  /-- The call `findOneAndUpdate({type, year}, {$inc: {current: 1}}, {new: true, upsert: false})`. -/
  incExisting : String → Option String → σ → DbReply × σ
  /-- The call `findOneAndUpdate({type, year}, {$inc: {current: 1}, $setOnInsert: {prefix, padding, year}}, {new: true, upsert: true})`. -/
  incUpsert : String → Option String → String → Nat → σ → DbReply × σ

/-- The options object of `getNext`, with its destructuring defaults. -/
structure GetNextOpts where
  year : Option String := none
  pfx : String := ""
  padding : Nat := 4
deriving DecidableEq, Repr

/-- The returned string: `${doc.prefix || prefix}${String(doc.current).padStart(doc.padding || padding, "0")}`. -/
def formatNumber (doc : SequenceDoc) (opts : GetNextOpts) : String :=
  let number := padStart (toString doc.current)
    (if doc.padding ≠ 0 then doc.padding else opts.padding) '0'
  (if doc.pfx ≠ "" then doc.pfx else opts.pfx) ++ number

/-- The constant `maxRetries`. -/
def maxRetries : Nat := 10

/-- The delay `Math.min(100 * Math.pow(2, attempt), 2000)` in milliseconds. -/
def backoff (attempt : Nat) : Nat := min (100 * 2 ^ attempt) 2000

/-- What a run of `getNext` did: the value returned or the error thrown, the
document the returned value was formatted from, the store afterwards, the
number of loop iterations entered and the waits made, each with the attempt
index it belongs to. -/
structure GetNextRun (σ : Type) where
  result : Except String String
  issued : Option SequenceDoc
  store : σ
  attempts : Nat
  waits : List (Nat × Nat)

/-- The final `throw new Error(...)` of `getNext`. -/
def exhaustedMessage (lastError : Option String) : String :=
  "Failed to generate next sequence number after " ++ toString maxRetries ++
    " retries. Last error: " ++ lastError.getD "undefined"

/-- The `for (let attempt = 0; attempt < maxRetries; attempt++)` loop of
`getNext`, with `remaining = maxRetries - attempt` iterations left. -/
def getNextLoop {σ : Type} (S : SequenceStore σ) (type : String) (opts : GetNextOpts) :
    Nat → Nat → Option String → List (Nat × Nat) → σ → GetNextRun σ
  | 0, attempt, lastError, waits, s =>
    { result := .error (exhaustedMessage lastError), issued := none, store := s,
      attempts := attempt, waits := waits }
  | remaining + 1, attempt, lastError, waits, s =>
    match S.incExisting type opts.year s with
    | (.doc d, s1) =>
      { result := .ok (formatNumber d opts), issued := some d, store := s1,
        attempts := attempt + 1, waits := waits }
    | (.error code msg, s1) =>
      if code = 11000 then
        getNextLoop S type opts remaining (attempt + 1) (some msg)
          (waits ++ [(attempt, backoff attempt)]) s1
      else
        { result := .error (exhaustedMessage (some msg)), issued := none, store := s1,
          attempts := attempt + 1, waits := waits }
    | (.null, s1) =>
      match S.incUpsert type opts.year opts.pfx opts.padding s1 with
      | (.doc d, s2) =>
        { result := .ok (formatNumber d opts), issued := some d, store := s2,
          attempts := attempt + 1, waits := waits }
      | (.null, s2) =>
        getNextLoop S type opts remaining (attempt + 1) lastError
          (waits ++ [(attempt, backoff attempt)]) s2
      | (.error code msg, s2) =>
        if code = 11000 then
          getNextLoop S type opts remaining (attempt + 1) lastError waits s2
        else
          { result := .error (exhaustedMessage (some msg)), issued := none, store := s2,
            attempts := attempt + 1, waits := waits }

/-- The static `sequenceSchema.statics.getNext(type, opts)`. -/
def getNext {σ : Type} (S : SequenceStore σ) (type : String) (opts : GetNextOpts) (s : σ) :
    GetNextRun σ :=
  getNextLoop S type opts maxRetries 0 none [] s

/-! ### The collection as a list of rows -/

/-- The filter `{type, year}`; a `null` year matches a row without one. -/
def rowMatches (type : String) (year : Option String) (d : SequenceDoc) : Bool :=
  d.type = type && d.year = year

/-- The read `Sequence.findOne({type, year})`. -/
def findOne (type : String) (year : Option String) (rows : List SequenceDoc) :
    Option SequenceDoc :=
  rows.find? (rowMatches type year)

/-- Atomic `$inc: {current: 1}` on the first matching row, returning the
updated document (`new: true`) and the rows afterwards. -/
def findOneAndInc (type : String) (year : Option String) :
    List SequenceDoc → Option (SequenceDoc × List SequenceDoc)
  | [] => none
  | d :: rest =>
    if rowMatches type year d then
      some ({ d with current := d.current + 1 }, { d with current := d.current + 1 } :: rest)
    else
      match findOneAndInc type year rest with
      | some (u, rest1) => some (u, d :: rest1)
      | none => none

/-- The row an upsert inserts: `$inc` on an absent counter gives 1, and
`$setOnInsert` stores the caller's prefix, padding and year. -/
def insertedRow (type : String) (year : Option String) (pfx : String) (padding : Nat) :
    SequenceDoc :=
  { year := year, type := type, pfx := pfx, current := 1, padding := padding }

/-- The Sequence collection held in memory, with no other writer. -/
def memStore : SequenceStore (List SequenceDoc) where
  incExisting := fun type year rows =>
    match findOneAndInc type year rows with
    | some (d, rows1) => (.doc d, rows1)
    | none => (.null, rows)
  incUpsert := fun type year pfx padding rows =>
    match findOneAndInc type year rows with
    | some (d, rows1) => (.doc d, rows1)
    | none => (.doc (insertedRow type year pfx padding),
               rows ++ [insertedRow type year pfx padding])

/-- The stored counter of the (type, year) row, 0 when there is no row. -/
def storedCounter (type : String) (year : Option String) (rows : List SequenceDoc) : Nat :=
  match findOne type year rows with
  | some d => d.current
  | none => 0

/-- `n` calls of `getNext` one after the other on the in-memory collection:
the runs in call order. -/
def getNextTimes (type : String) (opts : GetNextOpts) :
    Nat → List SequenceDoc → List (GetNextRun (List SequenceDoc))
  | 0, _ => []
  | n + 1, rows =>
    getNext memStore type opts rows ::
      getNextTimes type opts n (getNext memStore type opts rows).store

/-- The rows after `n` calls of `getNext` one after the other. -/
def rowsAfter (type : String) (opts : GetNextOpts) : Nat → List SequenceDoc → List SequenceDoc
  | 0, rows => rows
  | n + 1, rows => rowsAfter type opts n (getNext memStore type opts rows).store

/-- Whether the attempt that starts in store state `s` meets a duplicate-key
conflict (error code 11000): on the first call, or, that call finding no row,
on the upsert. -/
def meetsDuplicateKey {σ : Type} (S : SequenceStore σ) (type : String) (opts : GetNextOpts)
    (s : σ) : Bool :=
  match S.incExisting type opts.year s with
  | (.error code _, _) => code = 11000
  | (.doc _, _) => false
  | (.null, s1) =>
    match S.incUpsert type opts.year opts.pfx opts.padding s1 with
    | (.error code _, _) => code = 11000
    | _ => false

/-- A store every call of which fails on the unique index. -/
def alwaysDuplicate : SequenceStore Unit where
  incExisting := fun _ _ s => (.error 11000 "E11000 duplicate key error", s)
  incUpsert := fun _ _ _ _ s => (.error 11000 "E11000 duplicate key error", s)

/-! ## Preview (sequenceController.js) -/

/-- An `AppError(message, statusCode)`. -/
structure AppError where
  message : String
  statusCode : Nat
deriving DecidableEq, Repr

/-- The reading of `new Date()` the preview uses: `getFullYear()` and the
zero-based `getMonth()`. -/
structure Clock where
  fullYear : Nat
  month : Nat
deriving DecidableEq, Repr

/-- An entry of the `mapping` table of the preview. -/
structure SeqMapping where
  seqType : String
  pfx : String
deriving DecidableEq, Repr

/-- The own keys of the `mapping` object literal of the preview. -/
def previewMapping (key : String) : Option SeqMapping :=
  if key = "PO" then some ⟨"purchase_order", "PO"⟩
  else if key = "SO" then some ⟨"sales_order", "SO"⟩
  else if key = "SI" then some ⟨"sales_invoice", ""⟩
  else if key = "PI" then some ⟨"purchase_invoice", ""⟩
  else if key = "purchase_order" then some ⟨"purchase_order", "PO"⟩
  else if key = "sales_order" then some ⟨"sales_order", "SO"⟩
  else if key = "sales_invoice" then some ⟨"sales_invoice", ""⟩
  else if key = "purchase_invoice" then some ⟨"purchase_invoice", ""⟩
  else none

/-- The year string and the month string of the preview: from the `date` query
parameter when it is given (`YYYYMM` or `YYYY`), from the clock otherwise. -/
def previewPeriod (now : Clock) (date : Option String) : Except AppError (String × String) :=
  let month := padStart (toString (now.month + 1)) 2 '0'
  match date with
  | none => .ok (toString now.fullYear, month)
  | some s =>
    if s = "" then .ok (toString now.fullYear, month)
    else if s.length = 6 then .ok (jsNumberToString (jsParseInt10 (jsSlice s 0 4)), jsSlice s 4 6)
    else if s.length = 4 then .ok (jsNumberToString (jsParseInt10 s), month)
    else .error ⟨"Invalid date format. Use YYYYMM or YYYY", 400⟩

/-- What a preview request did: the `next` field of the JSON answer or the error
handed to `next(err)`, and the Sequence rows afterwards. -/
structure PreviewRun where
  response : Except AppError String
  store : List SequenceDoc

/-- The handler `exports.preview`, with the query parameters `type` and `date`
as optional strings.  `toUpperCase` is taken on ASCII letters, and only the own
keys of `mapping` are looked up. -/
def preview (rows : List SequenceDoc) (now : Clock) (type date : Option String) : PreviewRun :=
  match type with
  | none => ⟨.error ⟨"Missing query parameter: type", 400⟩, rows⟩
  | some type =>
    if type = "" then ⟨.error ⟨"Missing query parameter: type", 400⟩, rows⟩
    else
      match (previewMapping (jsToUpperCase type)).orElse (fun _ => previewMapping type) with
      | none => ⟨.error ⟨"Unsupported sequence type: " ++ type, 400⟩, rows⟩
      | some map =>
        match previewPeriod now date with
        | .error e => ⟨.error e, rows⟩
        | .ok (yearStr, month) =>
          if map.seqType = "sales_invoice" then
            let current := match findOne map.seqType none rows with
              | some seqDoc => seqDoc.current
              | none => 0
            ⟨.ok (padStart (toString (current + 1)) 5 '0'), rows⟩
          else
            let yyyymm := yearStr ++ month
            let pfx := if map.pfx ≠ "" then map.pfx ++ yyyymm ++ "-" else ""
            let current := match findOne map.seqType (some yearStr) rows with
              | some seqDoc => seqDoc.current
              | none => 0
            ⟨.ok (pfx ++ padStart (toString (current + 1)) 5 '0'), rows⟩

/-- The answers of `n` preview requests one after the other, each on the rows
the one before left. -/
def previewTimes (now : Clock) (type date : Option String) :
    Nat → List SequenceDoc → List (Except AppError String)
  | 0, _ => []
  | n + 1, rows =>
    (preview rows now type date).response ::
      previewTimes now type date n (preview rows now type date).store

/-! ## Transaction service (transactionService.js)

Numbers are doubles, each kept as the rational it stands for, and the
arithmetic operators round as IEEE 754 does; ids are strings, a `Date` is kept to the day, and the `createdAt` and
`updatedAt` stamps are left out.  The Transaction, StockPurchaseLog,
InventoryMovement, VATReport, Stock, Vendor and Customer schemas are not part
of the sources: their documents carry the fields the service reads and writes,
and a write to them is taken to pass schema validation. -/

/-- A `Date`, to the day; `month` is the zero-based `getMonth()`. -/
structure JsDate where
  year : Nat
  month : Nat
  day : Nat
deriving DecidableEq, Repr

/-- An error thrown inside the service: an `AppError(message, statusCode)`, a
Mongoose validation error, a duplicate-key error (code 11000) of the store, or
a `TypeError` of the runtime. -/
inductive ServiceError where
  | app (message : String) (statusCode : Nat)
  | validation (message : String)
  | duplicateKey (message : String)
  | typeError (message : String)
deriving DecidableEq, Repr

/-! ### JavaScript numbers

A number is the rational it stands for: every finite double is one.  The
operators `+`, `-`, `*` and `/` round their exact result to the nearest double
(IEEE 754 binary64, ties to even); negation and `Math.abs` are exact.  The
infinities and `NaN` have no rational, so a result of magnitude 2^1024 or more
and a division by zero are outside the model; the service divides by a
quantity it has tested first. -/

/-- The floor of the base-2 logarithm of `n`, 0 for 0; `fuel` bounds the
halvings. -/
def log2Floor : Nat → Nat → Nat
  | 0, _ => 0
  | fuel + 1, n => if 2 ≤ n then log2Floor fuel (n / 2) + 1 else 0

/-- The floor of the base-2 logarithm of the positive fraction `n / d`. -/
def fractionLog2 (n d : Nat) : Int :=
  let guess : Int := (log2Floor n n : Int) - (log2Floor d d : Int)
  let reached : Bool :=
    if 0 ≤ guess then d * 2 ^ guess.toNat ≤ n else d ≤ n * 2 ^ (-guess).toNat
  if reached then guess else guess - 1

/-- The integer nearest to `n / d`, the even one of two nearest. -/
def roundHalfEven (n d : Nat) : Nat :=
  let q := n / d
  let r := n % d
  if 2 * r < d then q
  else if d < 2 * r then q + 1
  else if q % 2 = 0 then q else q + 1

/-- The double nearest to a rational: a significand of 53 bits, or of fewer
bits at the least exponent -1074, ties to the even significand. -/
def roundDouble (x : ℚ) : ℚ :=
  if x = 0 then 0
  else
    let n := x.num.natAbs
    let d := x.den
    let e : Int := max (fractionLog2 n d - 52) (-1074)
    let magnitude : ℚ :=
      if 0 ≤ e then ((roundHalfEven n (d * 2 ^ e.toNat) * 2 ^ e.toNat : Nat) : ℚ)
      else ((roundHalfEven (n * 2 ^ (-e).toNat) d : Nat) : ℚ) / ((2 ^ (-e).toNat : Nat) : ℚ)
    if x < 0 then -magnitude else magnitude

/-- The operator `a + b` on numbers. -/
def jsAdd (a b : ℚ) : ℚ := roundDouble (a + b)

/-- The operator `a - b` on numbers. -/
def jsSub (a b : ℚ) : ℚ := roundDouble (a - b)

/-- The operator `a * b` on numbers. -/
def jsMul (a b : ℚ) : ℚ := roundDouble (a * b)

/-- The operator `a / b` on numbers, for a divisor that is not zero. -/
def jsDiv (a b : ℚ) : ℚ := roundDouble (a / b)

/-- `+x.toFixed(2)`: `toFixed` writes the decimal with two fraction digits
nearest to the exact value of `x`, the larger in magnitude of two nearest (and
writes `x` itself from 10^21 on), and the unary plus reads it back as a
number. -/
def toFixed2 (x : ℚ) : ℚ :=
  if (10 : ℚ) ^ 21 ≤ |x| then x
  else if 0 ≤ x then roundDouble ((⌊x * 100 + 1 / 2⌋ : ℚ) / 100)
  else -(roundDouble ((⌊-x * 100 + 1 / 2⌋ : ℚ) / 100))

/-- The characters `String.prototype.trim` removes: the WhiteSpace and
LineTerminator code points of ECMAScript. -/
def jsIsWhiteSpace (c : Char) : Bool :=
  c.toNat = 9 || c.toNat = 10 || c.toNat = 11 || c.toNat = 12 || c.toNat = 13 ||
    c.toNat = 32 || c.toNat = 160 || c.toNat = 5760 ||
    (8192 ≤ c.toNat && c.toNat ≤ 8202) || c.toNat = 8232 || c.toNat = 8233 ||
    c.toNat = 8239 || c.toNat = 8287 || c.toNat = 12288 || c.toNat = 65279

/-- `s.trim()`. -/
def jsTrim (s : String) : String :=
  String.mk (((s.data.dropWhile jsIsWhiteSpace).reverse.dropWhile jsIsWhiteSpace).reverse)

/-- A line item as a request carries it. -/
structure ItemInput where
  itemId : String
  description : String
  qty : ℚ
  rate : Option ℚ
  price : Option ℚ
  vatPercent : Option ℚ
  itemCode : Option String
  code : Option String
  sku : Option String
  grandTotal : Option ℚ
  package : Option ℚ
deriving DecidableEq, Repr

/-- A line item as `calculateItems` returns it and a transaction stores it. -/
structure Item where
  itemId : String
  description : String
  qty : ℚ
  rate : Option ℚ
  price : Option ℚ
  vatPercent : Option ℚ
  itemCode : String
  package : ℚ
  vatAmount : ℚ
  lineTotal : ℚ
  grandTotal : ℚ
deriving DecidableEq, Repr

/-- A Transaction document.  `orderNumber`, `invoiceNumber` and `numberManual`
are its numbering fields (numberingFlow.test.js); the service neither reads
nor writes them, so a document it creates has none. -/
structure Transaction where
  _id : String
  transactionNo : String
  type : String
  partyId : String
  partyType : String
  partyTypeRef : String
  items : List Item
  totalAmount : ℚ
  vendorReference : Option String
  status : String
  createdBy : String
  date : JsDate
  deliveryDate : JsDate
  terms : String
  notes : String
  priority : String
  docno : Option String
  lpono : Option String
  discount : ℚ
  grnGenerated : Option Bool
  invoiceGenerated : Option Bool
  creditNoteIssued : Option Bool
  orderNumber : Option String := none
  invoiceNumber : Option String := none
  numberManual : Bool := false
deriving DecidableEq, Repr

/-- A line of a StockPurchaseLog document. -/
structure PurchaseLogItem where
  itemId : String
  description : String
  qty : ℚ
  rate : Option ℚ
  vatPercent : ℚ
  price : ℚ
deriving DecidableEq, Repr

/-- A StockPurchaseLog document, the companion record of a purchase order. -/
structure StockPurchaseLog where
  transactionNo : String
  type : String
  partyId : String
  partyType : String
  partyTypeRef : String
  date : JsDate
  deliveryDate : JsDate
  items : List PurchaseLogItem
  terms : String
  notes : String
  priority : String
  status : Option String
  totalAmount : Option ℚ
deriving DecidableEq, Repr

/-- A Stock document, as `StockService.getStockByItemId` returns it. -/
structure Stock where
  _id : String
  itemId : String
  currentStock : ℚ
  purchasePrice : ℚ
  batchNumber : Option String
  expiryDate : Option JsDate
deriving DecidableEq, Repr

/-- An InventoryMovement document. -/
structure InventoryMovement where
  _id : String
  stockId : String
  quantity : ℚ
  previousStock : ℚ
  newStock : ℚ
  eventType : Option String
  referenceType : String
  referenceId : String
  referenceNumber : String
  unitCost : ℚ
  totalValue : ℚ
  notes : String
  createdBy : String
  batchNumber : Option String
  expiryDate : Option JsDate
  isReversed : Bool
  reversalReference : Option String
deriving DecidableEq, Repr

/-- A Vendor or Customer document: its id, its `vendorName` or `customerName`
and its `cashBalance`. -/
structure Party where
  _id : String
  name : Option String
  cashBalance : ℚ
deriving DecidableEq, Repr

/-- A DebitLog or CreditLog document; `partyId` is its `vendorId` or
`customerId`. -/
structure LedgerEntry where
  partyId : String
  type : String
  date : JsDate
  invNo : String
  amount : ℚ
  paid : ℚ
  balance : ℚ
  ref : String
  status : String
  createdBy : String
deriving DecidableEq, Repr

/-- A line of a VAT report. -/
structure VATItem where
  transactionId : String
  transactionNo : String
  itemId : String
  itemCode : String
  description : String
  qty : ℚ
  rate : Option ℚ
  lineTotal : ℚ
  vatAmount : ℚ
  vatRate : ℚ
  partyId : String
  partyName : String
  partyType : String
  date : JsDate
deriving DecidableEq, Repr

/-- A VATReport document; its period, the calendar month from `periodStart` to
`periodEnd`, is kept as the year and the zero-based month. -/
structure VATReport where
  _id : String
  periodYear : Nat
  periodMonth : Nat
  status : String
  generatedBy : String
  totalVATOutput : ℚ
  totalVATInput : ℚ
  netVATPayable : ℚ
  items : List VATItem
deriving DecidableEq, Repr

/-- The stored state: the collections the service reads and writes, and the
counter fresh document ids are drawn from. -/
structure Db where
  transactions : List Transaction
  purchaseLogs : List StockPurchaseLog
  stocks : List Stock
  movements : List InventoryMovement
  vendors : List Party
  customers : List Party
  debitLogs : List LedgerEntry
  creditLogs : List LedgerEntry
  vatReports : List VATReport
  nextId : Nat
deriving DecidableEq, Repr

/-! ### Helpers -/

/-- The function `generateTransactionNo(type)`; `rnd` is the value of
`Math.floor(Math.random() * 999)`. -/
def generateTransactionNo (type : String) (rnd : Nat) : String :=
  let pfx :=
    if type = "purchase_order" then "PO"
    else if type = "sales_order" then "SO"
    else if type = "purchase_return" then "PR"
    else if type = "sales_return" then "SR"
    else "undefined"
  pfx ++ padStart (toString (rnd + 1)) 3 '0'

/-- The `||` of two optional strings: the first that is present and not empty. -/
def orString (a : Option String) (b : Option String) : Option String :=
  match a with
  | some s => if s ≠ "" then some s else b
  | none => b

/-- One step of `calculateItems`. -/
def calculateItem (item : ItemInput) : Item :=
  let unitPrice : ℚ := (item.price.orElse (fun _ => item.rate)).getD 0
  let qty : ℚ := item.qty
  let lineValue := jsMul qty unitPrice
  let vatPct : ℚ := item.vatPercent.getD 0
  let vatAmount := jsDiv (jsMul lineValue vatPct) 100
  let lineTotal := toFixed2 (jsAdd lineValue vatAmount)
  let itemCode :=
    (orString item.itemCode (orString item.code (orString item.sku
      (if item.itemId ≠ "" then some item.itemId else none)))).getD ""
  { itemId := item.itemId, description := item.description, qty := item.qty,
    rate := item.rate, price := item.price, vatPercent := item.vatPercent,
    itemCode := itemCode, package := item.package.getD 0,
    vatAmount := toFixed2 vatAmount, lineTotal := lineTotal,
    grandTotal := item.grandTotal.getD lineTotal }

/-- The function `calculateItems(items)`. -/
def calculateItems (items : List ItemInput) : List Item :=
  items.map calculateItem

/-- The wrapper `withTransactionSession(fn)`: `fn` runs on a working copy of
the stored state (the session); the copy replaces the stored state on
`commitTransaction` when `fn` returns, and is dropped on `abortTransaction`
when `fn` throws, the error being thrown on.  The first argument of `fn` is
the committed state, which is what a read made outside the session sees. -/
def withTransactionSession {α : Type} (fn : Db → Db → Except ServiceError (α × Db))
    (db : Db) : Except ServiceError α × Db :=
  match fn db db with
  | .ok (result, working) => (.ok result, working)
  | .error err => (.error err, db)

/-! ### Inventory effect -/

/-- Modelled from the spec: `StockService.getStockByItemId(itemId)` is not part
of the sources.  It is the stock lookup of the spec, which answers with the
stock document of the item and fails with a not-found error when there is
none.  The service calls it without the session, so it reads the committed
state. -/
def getStockByItemId (committed : Db) (itemId : String) : Except ServiceError Stock :=
  match committed.stocks.find? (fun s => s.itemId = itemId) with
  | some stock => .ok stock
  | none => .error (.app "Stock item not found" 404)

/-- The static `getQuantityChange(type, qty)`. -/
def getQuantityChange (type : String) (qty : ℚ) : ℚ :=
  if type = "purchase_order" then qty
  else if type = "sales_order" then -qty
  else if type = "purchase_return" then -qty
  else if type = "sales_return" then qty
  else 0

/-- The static `getEventType(type)`; `none` is `undefined`. -/
def getEventType (type : String) : Option String :=
  if type = "purchase_order" then some "PURCHASE_RECEIVE"
  else if type = "sales_order" then some "SALES_DISPATCH"
  else if type = "purchase_return" then some "PURCHASE_RETURN"
  else if type = "sales_return" then some "SALES_RETURN"
  else none

/-- An update of the first document that matches a filter, as `findOneAndUpdate`,
`findByIdAndUpdate` and `save` make it; without a match nothing changes. -/
def updateFirst {α : Type} (p : α → Bool) (update : α → α) : List α → List α
  | [] => []
  | x :: xs => if p x then update x :: xs else x :: updateFirst p update xs

/-- The call `findByIdAndUpdate(id, update, {session})` on the Stock collection. -/
def updateStockById (db : Db) (id : String) (update : Stock → Stock) : Db :=
  { db with stocks := updateFirst (fun s => s._id = id) update db.stocks }

/-- The static `createInventoryMovement(movementData, session)`: the movement
is stored under a fresh id and returned. -/
def createInventoryMovement (movementData : InventoryMovement) (db : Db) :
    InventoryMovement × Db :=
  let movement := { movementData with _id := toString db.nextId }
  (movement, { db with movements := db.movements ++ [movement], nextId := db.nextId + 1 })

/-- The statement `purchaseLog.status = status; await purchaseLog.save({session})`
on the first purchase log with the transaction number, when there is one. -/
def setPurchaseLogStatus (db : Db) (transactionNo : String) (status : String) : Db :=
  { db with purchaseLogs :=
      (updateFirst (fun l => l.transactionNo = transactionNo)
        (fun l => { l with status := some status }) db.purchaseLogs) }

/-- The body of the `for (const item of items)` loop of
`processTransactionStock` for one item. -/
def processItemStock (committed : Db) (transactionId type transactionNo createdBy : String)
    (item : Item) (db : Db) : Except ServiceError Db :=
  match getStockByItemId committed item.itemId with
  | .error err => .error err
  | .ok stock =>
    let quantityChange := getQuantityChange type item.qty
    let newStock := jsAdd stock.currentStock quantityChange
    let unitPrice : ℚ :=
      match item.rate with
      | some rate =>
        if rate ≠ 0 then jsDiv rate (if item.qty ≠ 0 then item.qty else 1) else 0
      | none => 0
    let newPurchasePrice : ℚ :=
      if type = "purchase_order" then
        let currentValue := jsMul stock.purchasePrice stock.currentStock
        let newValue := item.rate.getD 0
        let totalQuantity := jsAdd stock.currentStock item.qty
        if totalQuantity > 0 then jsDiv (jsAdd currentValue newValue) totalQuantity
        else stock.purchasePrice
      else stock.purchasePrice
    let db1 := updateStockById db stock._id
      (fun s => { s with currentStock := newStock, purchasePrice := toFixed2 newPurchasePrice })
    let created := createInventoryMovement
      { _id := "", stockId := stock.itemId, quantity := quantityChange,
        previousStock := stock.currentStock, newStock := newStock,
        eventType := getEventType type, referenceType := "Transaction",
        referenceId := transactionId, referenceNumber := transactionNo,
        unitCost := unitPrice, totalValue := jsMul |quantityChange| unitPrice,
        notes := (getEventType type).getD "undefined" ++ " - " ++ item.description,
        createdBy := createdBy, batchNumber := stock.batchNumber,
        expiryDate := stock.expiryDate, isReversed := false, reversalReference := none } db1
    .ok created.2

/-- The loop of `processTransactionStock` over the line items. -/
def processItemsStock (committed : Db) (transactionId type transactionNo createdBy : String) :
    List Item → Db → Except ServiceError Db
  | [], db => .ok db
  | item :: rest, db =>
    match processItemStock committed transactionId type transactionNo createdBy item db with
    | .error err => .error err
    | .ok db1 => processItemsStock committed transactionId type transactionNo createdBy rest db1

/-- The static `processTransactionStock(transactionId, transaction, createdBy,
session)`; the list of stock updates it returns is not used by its caller and
is left out. -/
def processTransactionStock (committed : Db) (transactionId : String)
    (transaction : Transaction) (createdBy : String) (db : Db) : Except ServiceError Db :=
  processItemsStock committed transactionId transaction.type transaction.transactionNo
    createdBy transaction.items db

/-- The body of the `for (const movement of existingMovements)` loop of
`reverseTransactionStock` for one movement. -/
def reverseMovement (committed : Db) (transactionId : String) (transaction : Transaction)
    (createdBy : String) (movement : InventoryMovement) (db : Db) : Except ServiceError Db :=
  match getStockByItemId committed movement.stockId with
  | .error err => .error err
  | .ok stock =>
    let reversalQuantity := -movement.quantity
    let newStock := jsAdd stock.currentStock reversalQuantity
    let db1 := updateStockById db stock._id (fun s => { s with currentStock := newStock })
    let created := createInventoryMovement
      { _id := "", stockId := stock.itemId, quantity := reversalQuantity,
        previousStock := stock.currentStock, newStock := newStock,
        eventType := movement.eventType, referenceType := "Transaction",
        referenceId := transactionId,
        referenceNumber := "REV-" ++ transaction.transactionNo,
        unitCost := movement.unitCost,
        totalValue := jsMul |reversalQuantity| movement.unitCost,
        notes := "Reversal of " ++ movement.notes,
        createdBy := createdBy, batchNumber := movement.batchNumber,
        expiryDate := movement.expiryDate, isReversed := false, reversalReference := none } db1
    .ok { created.2 with movements :=
            (updateFirst (fun m => m._id = movement._id)
              (fun m => { m with isReversed := true, reversalReference := some created.1._id })
              created.2.movements) }

/-- The loop of `reverseTransactionStock` over the movements found. -/
def reverseMovements (committed : Db) (transactionId : String) (transaction : Transaction)
    (createdBy : String) : List InventoryMovement → Db → Except ServiceError Db
  | [], db => .ok db
  | movement :: rest, db =>
    match reverseMovement committed transactionId transaction createdBy movement db with
    | .error err => .error err
    | .ok db1 => reverseMovements committed transactionId transaction createdBy rest db1

/-- The static `reverseTransactionStock(transactionId, transaction, createdBy,
session)`. -/
def reverseTransactionStock (committed : Db) (transactionId : String)
    (transaction : Transaction) (createdBy : String) (db : Db) : Except ServiceError Db :=
  let existingMovements := db.movements.filter (fun m =>
    m.referenceId = transactionId && m.referenceType = "Transaction" && !m.isReversed)
  match reverseMovements committed transactionId transaction createdBy existingMovements db with
  | .error err => .error err
  | .ok db1 =>
    if transaction.type = "purchase_order" then
      .ok (setPurchaseLogStatus db1 transaction.transactionNo "REVERSED")
    else .ok db1

/-- The read of a stock document by its id. -/
def findStockById (db : Db) (id : String) : Option Stock :=
  db.stocks.find? (fun s => s._id = id)

/-- The value `newPurchasePrice` of `processTransactionStock` for a line item
and the stock document looked up for it. -/
def newPurchasePrice (type : String) (stock : Stock) (item : Item) : ℚ :=
  if type = "purchase_order" then
    if jsAdd stock.currentStock item.qty > 0 then
      jsDiv (jsAdd (jsMul stock.purchasePrice stock.currentStock) (item.rate.getD 0))
        (jsAdd stock.currentStock item.qty)
    else stock.purchasePrice
  else stock.purchasePrice

/-- The value `unitPrice` of `processTransactionStock` for a line item. -/
def unitPriceOf (item : Item) : ℚ :=
  match item.rate with
  | some rate => if rate ≠ 0 then jsDiv rate (if item.qty ≠ 0 then item.qty else 1) else 0
  | none => 0

/-- The movement `processTransactionStock` records for a line item and the
stock document looked up for it, stored under the id `id`. -/
def approvalMovement (transactionId type transactionNo createdBy : String) (item : Item)
    (stock : Stock) (id : String) : InventoryMovement :=
  { _id := id, stockId := stock.itemId, quantity := getQuantityChange type item.qty,
    previousStock := stock.currentStock,
    newStock := jsAdd stock.currentStock (getQuantityChange type item.qty),
    eventType := getEventType type, referenceType := "Transaction",
    referenceId := transactionId, referenceNumber := transactionNo,
    unitCost := unitPriceOf item,
    totalValue := jsMul |getQuantityChange type item.qty| (unitPriceOf item),
    notes := (getEventType type).getD "undefined" ++ " - " ++ item.description,
    createdBy := createdBy, batchNumber := stock.batchNumber,
    expiryDate := stock.expiryDate, isReversed := false, reversalReference := none }

/-- The offsetting movement `reverseTransactionStock` records for a movement
and the stock document looked up for it, stored under the id `id`. -/
def reversalMovement (transactionId : String) (transaction : Transaction) (createdBy : String)
    (movement : InventoryMovement) (stock : Stock) (id : String) : InventoryMovement :=
  { _id := id, stockId := stock.itemId, quantity := -movement.quantity,
    previousStock := stock.currentStock,
    newStock := jsAdd stock.currentStock (-movement.quantity),
    eventType := movement.eventType, referenceType := "Transaction",
    referenceId := transactionId,
    referenceNumber := "REV-" ++ transaction.transactionNo,
    unitCost := movement.unitCost,
    totalValue := jsMul |-movement.quantity| movement.unitCost,
    notes := "Reversal of " ++ movement.notes,
    createdBy := createdBy, batchNumber := movement.batchNumber,
    expiryDate := movement.expiryDate, isReversed := false, reversalReference := none }

/-- The `currentStock` of the stock document with the given id, when there is
one. -/
def stockLevel (db : Db) (id : String) : Option ℚ :=
  (findStockById db id).map (fun s => s.currentStock)

/-- The level a sequence of stock writes leaves on the document `id` whose
level was `current`: a write `(stockId, level)` replaces the level of its
document, so the last write to `id` stands. -/
def levelAfter (writes : List (String × ℚ)) (id : String) (current : ℚ) : ℚ :=
  writes.foldl (fun cur w => if id = w.1 then w.2 else cur) current

/-- The stock writes of a run of `processTransactionStock` over the lines and
the stock documents looked up for them. -/
def approvalWrites (type : String) (pairs : List (Item × Stock)) : List (String × ℚ) :=
  pairs.map (fun p => (p.2._id, jsAdd p.2.currentStock (getQuantityChange type p.1.qty)))

/-- The stock writes of a run of `reverseTransactionStock` over the movements
and the stock documents looked up for them. -/
def reversalWrites (pairs : List (InventoryMovement × Stock)) : List (String × ℚ) :=
  pairs.map (fun p => (p.2._id, jsAdd p.2.currentStock (-p.1.quantity)))

/-- The movements a run of `processTransactionStock` appends for the lines and
the stock documents looked up for them, the first one stored under the id `n`. -/
def approvalMovements (transactionId type transactionNo createdBy : String) :
    Nat → List (Item × Stock) → List InventoryMovement
  | _, [] => []
  | n, p :: rest =>
    approvalMovement transactionId type transactionNo createdBy p.1 p.2 (toString n) ::
      approvalMovements transactionId type transactionNo createdBy (n + 1) rest

/-- The offsetting movements a run of `reverseTransactionStock` appends for the
movements and the stock documents looked up for them, the first one stored
under the id `n`. -/
def reversalMovements (transactionId : String) (transaction : Transaction)
    (createdBy : String) : Nat → List (InventoryMovement × Stock) → List InventoryMovement
  | _, [] => []
  | n, p :: rest =>
    reversalMovement transactionId transaction createdBy p.1 p.2 (toString n) ::
      reversalMovements transactionId transaction createdBy (n + 1) rest

/-- A movement flagged as reversed by the offsetting movement `offset`. -/
def flagReversed (movement offset : InventoryMovement) : InventoryMovement :=
  { movement with isReversed := true, reversalReference := some offset._id }

/-! ### Party ledger -/

/-- The validation `DebitLog.create` runs (DebitLog.js): the enumerated `type`
and `status`, and the required `vendorId`, `invNo` and `createdBy`. -/
def validDebitLog (e : LedgerEntry) : Bool :=
  (e.type = "purchase_order" || e.type = "purchase_return" ||
    e.type = "payment_received" || e.type = "adjustment") &&
  (e.status = "UNPAID" || e.status = "PARTIAL" || e.status = "PAID") &&
  e.partyId ≠ "" && e.invNo ≠ "" && e.createdBy ≠ ""

/-- The validation `CreditLog.create` runs (CreditLog.js): the enumerated `type`
and `status`, and the required `customerId`, `invNo` and `createdBy`. -/
def validCreditLog (e : LedgerEntry) : Bool :=
  (e.type = "sales_order" || e.type = "sales_return" ||
    e.type = "payment_made" || e.type = "adjustment") &&
  (e.status = "UNPAID" || e.status = "PARTIAL" || e.status = "PAID") &&
  e.partyId ≠ "" && e.invNo ≠ "" && e.createdBy ≠ ""

/-- The call `LogModel.create([entry], {session})`, where `LogModel` is the
DebitLog for a vendor and the CreditLog for a customer. -/
def createLog (isVendor : Bool) (entry : LedgerEntry) (db : Db) : Except ServiceError Db :=
  if isVendor then
    if validDebitLog entry then .ok { db with debitLogs := db.debitLogs ++ [entry] }
    else .error (.validation "DebitLog validation failed")
  else
    if validCreditLog entry then .ok { db with creditLogs := db.creditLogs ++ [entry] }
    else .error (.validation "CreditLog validation failed")

/-- The read `Model.findById(partyId).session(session)` on the Vendor or the
Customer collection. -/
def findParty (isVendor : Bool) (partyId : String) (db : Db) : Option Party :=
  (if isVendor then db.vendors else db.customers).find? (fun p => p._id = partyId)

/-- The call `Model.findByIdAndUpdate(partyId, {cashBalance: newBalance}, {session})`. -/
def setCashBalance (isVendor : Bool) (partyId : String) (newBalance : ℚ) (db : Db) : Db :=
  if isVendor then
    { db with vendors := (updateFirst (fun p => p._id = partyId)
        (fun p => { p with cashBalance := newBalance }) db.vendors) }
  else
    { db with customers := (updateFirst (fun p => p._id = partyId)
        (fun p => { p with cashBalance := newBalance }) db.customers) }

/-- The table `balanceEffect` of `updatePartyBalanceAndLog`; `none` is
`undefined`. -/
def balanceEffect (type : String) (totalAmount : ℚ) : Option ℚ :=
  if type = "purchase_order" then some totalAmount
  else if type = "purchase_return" then some (-totalAmount)
  else if type = "sales_order" then some (-totalAmount)
  else if type = "sales_return" then some totalAmount
  else none

/-- The table `reverseEffect` of `reversePartyBalanceAndLog`; `none` is
`undefined`. -/
def reverseEffect (type : String) (totalAmount : ℚ) : Option ℚ :=
  if type = "purchase_order" then some (-totalAmount)
  else if type = "purchase_return" then some totalAmount
  else if type = "sales_order" then some (-totalAmount)
  else if type = "sales_return" then some totalAmount
  else none

/-- The static `updatePartyBalanceAndLog(transaction, createdBy, session)`. -/
def updatePartyBalanceAndLog (transaction : Transaction) (createdBy : String) (db : Db) :
    Except ServiceError Db :=
  let isVendor : Bool := transaction.partyType = "Vendor"
  match balanceEffect transaction.type transaction.totalAmount with
  | none => .ok db
  | some effect =>
    match findParty isVendor transaction.partyId db with
    | none => .error (.app (transaction.partyType ++ " not found") 404)
    | some party =>
      let previousBalance := party.cashBalance
      let newBalance := jsAdd previousBalance effect
      let db1 := setCashBalance isVendor transaction.partyId newBalance db
      createLog isVendor
        { partyId := transaction.partyId, type := transaction.type, date := transaction.date,
          invNo := transaction.transactionNo, amount := effect, paid := 0,
          balance := newBalance, ref := transaction._id, status := "UNPAID",
          createdBy := createdBy } db1

/-- The static `reversePartyBalanceAndLog(transaction, createdBy, session)`;
`now` is the `new Date()` of the reversal entry. -/
def reversePartyBalanceAndLog (now : JsDate) (transaction : Transaction) (createdBy : String)
    (db : Db) : Except ServiceError Db :=
  let isVendor : Bool := transaction.partyType = "Vendor"
  match reverseEffect transaction.type transaction.totalAmount with
  | none => .ok db
  | some effect =>
    match findParty isVendor transaction.partyId db with
    | none => .ok db
    | some party =>
      let newBalance := jsAdd party.cashBalance effect
      let db1 := setCashBalance isVendor transaction.partyId newBalance db
      createLog isVendor
        { partyId := transaction.partyId, type := transaction.type ++ "_reversed", date := now,
          invNo := transaction.transactionNo, amount := |transaction.totalAmount|, paid := 0,
          balance := newBalance, ref := "REV-" ++ transaction._id, status := "REVERSED",
          createdBy := createdBy } db1

/-- The entry `updatePartyBalanceAndLog` hands to `LogModel.create` for the
balance effect `effect` that leads to the balance `newBalance`. -/
def approvalLogEntry (transaction : Transaction) (createdBy : String) (effect newBalance : ℚ) :
    LedgerEntry :=
  { partyId := transaction.partyId, type := transaction.type, date := transaction.date,
    invNo := transaction.transactionNo, amount := effect, paid := 0,
    balance := newBalance, ref := transaction._id, status := "UNPAID",
    createdBy := createdBy }

/-- The entry `reversePartyBalanceAndLog` hands to `LogModel.create` when the
reversal leads to the balance `newBalance`. -/
def reversalLogEntry (now : JsDate) (transaction : Transaction) (createdBy : String)
    (newBalance : ℚ) : LedgerEntry :=
  { partyId := transaction.partyId, type := transaction.type ++ "_reversed", date := now,
    invNo := transaction.transactionNo, amount := |transaction.totalAmount|, paid := 0,
    balance := newBalance, ref := "REV-" ++ transaction._id, status := "REVERSED",
    createdBy := createdBy }

/-- The ledger a party's entries go to: the DebitLog of a vendor, the CreditLog
of a customer. -/
def ledgerOf (isVendor : Bool) (db : Db) : List LedgerEntry :=
  if isVendor then db.debitLogs else db.creditLogs

/-! ### VAT report -/

/-- The VAT line `createVATReportItems` builds from a transaction item. -/
def vatItemOf (transaction : Transaction) (partyName : String) (item : Item) : VATItem :=
  { transactionId := transaction._id, transactionNo := transaction.transactionNo,
    itemId := item.itemId, itemCode := item.itemCode, description := item.description,
    qty := item.qty,
    rate := (match item.rate with
      | some r => if r ≠ 0 then some r else item.price
      | none => item.price),
    lineTotal := item.lineTotal, vatAmount := item.vatAmount,
    vatRate := item.vatPercent.getD 0,
    partyId := transaction.partyId, partyName := partyName,
    partyType := transaction.partyType, date := transaction.date }

/-- The static `createVATReportItems(transaction, createdBy, session)`.  A
report created here is taken to get the status `DRAFT` from its schema. -/
def createVATReportItems (transaction : Transaction) (createdBy : String) (db : Db) :
    Except ServiceError Db :=
  let isOutputVAT : Bool :=
    transaction.type = "sales_order" || transaction.type = "purchase_return"
  let isInputVAT : Bool :=
    transaction.type = "purchase_order" || transaction.type = "sales_return"
  if !isOutputVAT && !isInputVAT then .ok db
  else
    let found : Option Party :=
      if transaction.partyType = "Customer" then findParty false transaction.partyId db
      else if transaction.partyType = "Vendor" then findParty true transaction.partyId db
      else none
    let partyName : String := (orString (found.bind (fun p => p.name)) none).getD "Unknown"
    let vatItems := (transaction.items.filter (fun item => item.vatAmount > 0)).map
      (vatItemOf transaction partyName)
    if vatItems.isEmpty then .ok db
    else
      let isOpen : VATReport → Bool := fun r =>
        r.periodYear = transaction.date.year && r.periodMonth = transaction.date.month &&
          r.status = "DRAFT"
      let extend : VATReport → VATReport := fun r =>
        let totalVATOutput :=
          if isOutputVAT then
            vatItems.foldl (fun total vi => jsAdd total vi.vatAmount) r.totalVATOutput
          else r.totalVATOutput
        let totalVATInput :=
          if isOutputVAT then r.totalVATInput
          else if isInputVAT then
            vatItems.foldl (fun total vi => jsAdd total vi.vatAmount) r.totalVATInput
          else r.totalVATInput
        { r with items := r.items ++ vatItems, totalVATOutput := totalVATOutput,
                 totalVATInput := totalVATInput,
                 netVATPayable := jsSub totalVATOutput totalVATInput }
      match db.vatReports.find? isOpen with
      | some _ => .ok { db with vatReports := updateFirst isOpen extend db.vatReports }
      | none =>
        .ok { db with
          vatReports := db.vatReports ++
            [extend { _id := toString db.nextId, periodYear := transaction.date.year,
                      periodMonth := transaction.date.month, status := "DRAFT",
                      generatedBy := createdBy, totalVATOutput := 0, totalVATInput := 0,
                      netVATPayable := 0, items := [] }],
          nextId := db.nextId + 1 }

/-! ### Status and validation -/

/-- The static `isProcessed(status)`. -/
def isProcessed (status : String) : Bool :=
  status = "APPROVED" || status = "REJECTED" || status = "CANCELLED" ||
    status = "PAID" || status = "PARTIAL"

/-- The static `validateAction(type, action, status)`: it throws or returns
nothing. -/
def validateAction (_type : String) (action : String) (status : String) :
    Except ServiceError Unit :=
  if !(action = "approve" || action = "reject" || action = "cancel") then
    .error (.app ("Invalid action '" ++ action ++ "'") 400)
  else if isProcessed status then
    .error (.app ("Transaction already processed with status '" ++ status ++ "'") 400)
  else .ok ()

/-- The static `updateTransactionStatus(transaction, action)`: `Object.assign`
with the entry of `statusMap`; a flag assigned `undefined` is `none`. -/
def updateTransactionStatus (transaction : Transaction) (action : String) : Transaction :=
  if action = "approve" then
    { transaction with
      status := "APPROVED",
      grnGenerated := if transaction.type = "purchase_order" then some true else none,
      invoiceGenerated := if transaction.type = "sales_order" then some true else none,
      creditNoteIssued := if transaction.type = "sales_return" then some true else none }
  else if action = "reject" then { transaction with status := "REJECTED" }
  else if action = "cancel" then { transaction with status := "CANCELLED" }
  else transaction

/-- The read `Transaction.findById(id).session(session)`. -/
def findTransactionById (db : Db) (id : String) : Option Transaction :=
  db.transactions.find? (fun t => t._id = id)

/-- The call `transaction.save({session})` of a loaded transaction. -/
def saveTransaction (transaction : Transaction) (db : Db) : Db :=
  { db with transactions :=
      (updateFirst (fun t => t._id = transaction._id) (fun _ => transaction) db.transactions) }

/-! ### The service operations -/

/-- The `if (action === "approve")` block of `processTransaction`. -/
def approveEffects (committed : Db) (id : String) (transaction : Transaction)
    (createdBy : String) (db : Db) : Except ServiceError Db :=
  match processTransactionStock committed id transaction createdBy db with
  | .error err => .error err
  | .ok db1 =>
    match createVATReportItems transaction createdBy db1 with
    | .error err => .error err
    | .ok db2 =>
      match updatePartyBalanceAndLog transaction createdBy db2 with
      | .error err => .error err
      | .ok db3 =>
        if transaction.type = "purchase_order" then
          .ok (setPurchaseLogStatus db3 transaction.transactionNo "APPROVED")
        else .ok db3

/-- The `if (action === "cancel")` block of `processTransaction`. -/
def cancelEffects (committed : Db) (now : JsDate) (id : String) (transaction : Transaction)
    (wasApproved : Bool) (createdBy : String) (db : Db) : Except ServiceError Db :=
  let reversed : Except ServiceError Db :=
    if wasApproved then
      match reverseTransactionStock committed id transaction createdBy db with
      | .error err => .error err
      | .ok db1 => reversePartyBalanceAndLog now transaction createdBy db1
    else .ok db
  match reversed with
  | .error err => .error err
  | .ok db2 =>
    if transaction.type = "purchase_order" then
      .ok (setPurchaseLogStatus db2 transaction.transactionNo "CANCELLED")
    else .ok db2

/-- The function `processTransaction` wraps: `async (id, action, createdBy,
session) => ...`. -/
def processTransactionBody (now : JsDate) (id action createdBy : String)
    (committed : Db) (db : Db) : Except ServiceError (Transaction × Db) :=
  match findTransactionById db id with
  | none => .error (.app "Transaction not found" 404)
  | some transaction =>
    match validateAction transaction.type action transaction.status with
    | .error err => .error err
    | .ok _ =>
      let wasApproved : Bool := transaction.status = "APPROVED"
      let approved : Except ServiceError Db :=
        if action = "approve" then approveEffects committed id transaction createdBy db
        else .ok db
      match approved with
      | .error err => .error err
      | .ok db1 =>
        let db2 :=
          if action = "reject" ∧ transaction.type = "purchase_order" then
            setPurchaseLogStatus db1 transaction.transactionNo "REJECTED"
          else db1
        let cancelled : Except ServiceError Db :=
          if action = "cancel" then
            cancelEffects committed now id transaction wasApproved createdBy db2
          else .ok db2
        match cancelled with
        | .error err => .error err
        | .ok db3 =>
          let updated := updateTransactionStatus transaction action
          .ok (updated, saveTransaction updated db3)

/-- The static `TransactionService.processTransaction(id, action, createdBy)`;
`now` is the clock. -/
def processTransaction (now : JsDate) (id action createdBy : String) (db : Db) :
    Except ServiceError Transaction × Db :=
  withTransactionSession (processTransactionBody now id action createdBy) db

/-- The function `deleteTransaction` wraps: `async (id, createdBy, session) => ...`. -/
def deleteTransactionBody (now : JsDate) (id createdBy : String)
    (committed : Db) (db : Db) : Except ServiceError (Unit × Db) :=
  match findTransactionById db id with
  | none => .error (.app "Transaction not found" 404)
  | some transaction =>
    let wasApproved : Bool := transaction.status = "APPROVED"
    let reversed : Except ServiceError Db :=
      if wasApproved then
        match reverseTransactionStock committed id transaction createdBy db with
        | .error err => .error err
        | .ok db1 => reversePartyBalanceAndLog now transaction createdBy db1
      else .ok db
    match reversed with
    | .error err => .error err
    | .ok db2 =>
      let db3 :=
        if transaction.type = "purchase_order" then
          { db2 with purchaseLogs :=
              db2.purchaseLogs.eraseP (fun l => l.transactionNo = transaction.transactionNo) }
        else db2
      .ok ((), { db3 with transactions := db3.transactions.eraseP (fun t => t._id = id) })

/-- The static `TransactionService.deleteTransaction(id, createdBy)`. -/
def deleteTransaction (now : JsDate) (id createdBy : String) (db : Db) :
    Except ServiceError Unit × Db :=
  withTransactionSession (deleteTransactionBody now id createdBy) db

/-- The `data` argument of `createTransaction`.  A required string that is
missing is the empty string (both are falsy), a missing item list is the empty
list. -/
structure CreateData where
  transactionNo : Option String
  type : String
  partyId : String
  partyType : String
  vendorReference : Option String
  items : List ItemInput
  date : Option JsDate
  deliveryDate : Option JsDate
  terms : Option String
  notes : Option String
  priority : Option String
  status : Option String
  totalAmount : Option ℚ
  docno : Option String
  lpono : Option String
  discount : Option ℚ
deriving DecidableEq, Repr

/-- The loop of `createTransaction` that fetches the stock of every item
"to ensure item exists". -/
def ensureItemsExist (committed : Db) : List ItemInput → Except ServiceError Unit
  | [] => .ok ()
  | item :: rest =>
    match getStockByItemId committed item.itemId with
    | .error err => .error err
    | .ok _ => ensureItemsExist committed rest

/-- The call `Transaction.create([transactionData], {session})`: the document
gets a fresh id; the unique index on `transactionNo`
(scripts/fix-transactionNo-sparse-index.js) refuses a number already stored. -/
def insertTransaction (transactionData : Transaction) (db : Db) :
    Except ServiceError (Transaction × Db) :=
  if db.transactions.any (fun t => t.transactionNo = transactionData.transactionNo) then
    .error (.duplicateKey "E11000 duplicate key error collection: transactions")
  else
    let created := { transactionData with _id := toString db.nextId }
    .ok (created, { db with transactions := db.transactions ++ [created],
                            nextId := db.nextId + 1 })

/-- The companion StockPurchaseLog `createTransaction` writes for a purchase
order. -/
def purchaseLogOf (newTransaction : Transaction) : StockPurchaseLog :=
  { transactionNo := newTransaction.transactionNo, type := "purchase_order",
    partyId := newTransaction.partyId, partyType := "Vendor", partyTypeRef := "Vendor",
    date := newTransaction.date, deliveryDate := newTransaction.deliveryDate,
    items := newTransaction.items.map (fun item =>
      { itemId := item.itemId, description := item.description, qty := item.qty,
        rate := item.rate, vatPercent := item.vatPercent.getD 0, price := item.lineTotal }),
    terms := newTransaction.terms, notes := newTransaction.notes,
    priority := newTransaction.priority, status := none, totalAmount := none }

/-- The function `createTransaction` wraps: `async (data, createdBy, session) =>
...`; `now` is the clock and `rnd` the value of `Math.floor(Math.random() * 999)`. -/
def createTransactionBody (now : JsDate) (rnd : Nat) (data : CreateData) (createdBy : String)
    (committed : Db) (db : Db) : Except ServiceError (Transaction × Db) :=
  if data.type = "" ∨ data.partyId = "" ∨ data.partyType = "" then
    .error (.app "Missing required fields" 400)
  else if data.items.isEmpty then .error (.app "Items are required" 400)
  else
    let trimmed : String := (data.transactionNo.map jsTrim).getD ""
    let resolved : Except ServiceError String :=
      if trimmed = "" then .ok (generateTransactionNo data.type rnd)
      else if db.transactions.any (fun t => t.transactionNo = trimmed) then
        .error (.app ("Transaction number " ++ trimmed ++ " already exists") 400)
      else .ok trimmed
    match resolved with
    | .error err => .error err
    | .ok finalTransactionNo =>
      match ensureItemsExist committed data.items with
      | .error err => .error err
      | .ok _ =>
        let processedItems := calculateItems data.items
        let calculatedTotal : ℚ :=
          processedItems.foldl (fun sum i => jsAdd sum i.lineTotal) 0
        let finalTotalAmount := data.totalAmount.getD calculatedTotal
        let partyType := if data.partyType = "Vendor" then "Vendor" else "Customer"
        let transactionData : Transaction :=
          { _id := "", transactionNo := finalTransactionNo, type := data.type,
            partyId := data.partyId, partyType := partyType, partyTypeRef := partyType,
            items := processedItems, totalAmount := finalTotalAmount,
            vendorReference := data.vendorReference,
            status := (orString data.status none).getD "DRAFT",
            createdBy := createdBy,
            date := data.date.getD now, deliveryDate := data.deliveryDate.getD now,
            terms := (orString data.terms none).getD "",
            notes := (orString data.notes none).getD "",
            priority := (orString data.priority none).getD "Medium",
            docno := orString data.docno none, lpono := orString data.lpono none,
            discount := data.discount.getD 0,
            grnGenerated := none, invoiceGenerated := none, creditNoteIssued := none }
        match insertTransaction transactionData db with
        | .error err => .error err
        | .ok (newTransaction, db1) =>
          if data.type = "purchase_order" then
            .ok (newTransaction,
              { db1 with purchaseLogs := db1.purchaseLogs ++ [purchaseLogOf newTransaction] })
          else .ok (newTransaction, db1)

/-- The static `TransactionService.createTransaction(data, createdBy)`. -/
def createTransaction (now : JsDate) (rnd : Nat) (data : CreateData) (createdBy : String)
    (db : Db) : Except ServiceError Transaction × Db :=
  withTransactionSession (createTransactionBody now rnd data createdBy) db

/-! ### The parts of the VAT step -/

/-- The test `isOutputVAT` of `createVATReportItems`. -/
def isOutputVAT (type : String) : Bool :=
  type = "sales_order" || type = "purchase_return"

/-- The test `isInputVAT` of `createVATReportItems`. -/
def isInputVAT (type : String) : Bool :=
  type = "purchase_order" || type = "sales_return"

/-- The value `partyName` of `createVATReportItems`. -/
def vatPartyName (transaction : Transaction) (db : Db) : String :=
  (orString
    ((if transaction.partyType = "Customer" then findParty false transaction.partyId db
      else if transaction.partyType = "Vendor" then findParty true transaction.partyId db
      else none).bind (fun p => p.name)) none).getD "Unknown"

/-- The list `vatItems` of `createVATReportItems`: a line for every item of
the transaction whose `vatAmount` is positive. -/
def vatItemsOf (transaction : Transaction) (db : Db) : List VATItem :=
  (transaction.items.filter (fun item => item.vatAmount > 0)).map
    (vatItemOf transaction (vatPartyName transaction db))

/-- The filter of the `VATReport.findOne` of `createVATReportItems`: the draft
report of the calendar month of the transaction. -/
def isOpenReport (transaction : Transaction) (r : VATReport) : Bool :=
  r.periodYear = transaction.date.year && r.periodMonth = transaction.date.month &&
    r.status = "DRAFT"

/-- The report `createVATReportItems` creates when the month has no draft yet. -/
def freshReport (transaction : Transaction) (createdBy : String) (id : String) : VATReport :=
  { _id := id, periodYear := transaction.date.year, periodMonth := transaction.date.month,
    status := "DRAFT", generatedBy := createdBy, totalVATOutput := 0, totalVATInput := 0,
    netVATPayable := 0, items := [] }

/-- What `createVATReportItems` does to the report it found or created: the
lines are pushed, their VAT amounts are added one after the other to the total
of the side of the transaction type, and the net amount is recomputed. -/
def extendReport (type : String) (vatItems : List VATItem) (r : VATReport) : VATReport :=
  let totalVATOutput :=
    if isOutputVAT type then
      vatItems.foldl (fun total vi => jsAdd total vi.vatAmount) r.totalVATOutput
    else r.totalVATOutput
  let totalVATInput :=
    if isOutputVAT type then r.totalVATInput
    else if isInputVAT type then
      vatItems.foldl (fun total vi => jsAdd total vi.vatAmount) r.totalVATInput
    else r.totalVATInput
  { r with items := r.items ++ vatItems, totalVATOutput := totalVATOutput,
           totalVATInput := totalVATInput,
           netVATPayable := jsSub totalVATOutput totalVATInput }

/-- The report `createVATReportItems` works on: the draft report of the month
when the store has one, a fresh report otherwise. -/
def openReport (transaction : Transaction) (createdBy : String) (db : Db) : VATReport :=
  (db.vatReports.find? (isOpenReport transaction)).getD
    (freshReport transaction createdBy (toString db.nextId))

/-! ### Update -/

/-- The `data` argument of `updateTransaction`: the fields of a request, each
of them present or absent. -/
structure UpdateData where
  transactionNo : Option String
  type : Option String
  partyId : Option String
  partyType : Option String
  vendorReference : Option String
  items : Option (List ItemInput)
  date : Option JsDate
  deliveryDate : Option JsDate
  terms : Option String
  notes : Option String
  priority : Option String
  status : Option String
  totalAmount : Option ℚ
  docno : Option String
  lpono : Option String
  discount : Option ℚ
deriving DecidableEq, Repr

/-- The call `Object.assign(transaction, data, ...)` of `updateTransaction`:
every field the request carries replaces the field of the transaction; `items`
and `totalAmount` are the recalculated ones when the request carries items. -/
def assignTransaction (transaction : Transaction) (data : UpdateData)
    (items : Option (List Item)) (totalAmount : Option ℚ) : Transaction :=
  { transaction with
    transactionNo := data.transactionNo.getD transaction.transactionNo,
    type := data.type.getD transaction.type,
    partyId := data.partyId.getD transaction.partyId,
    partyType := data.partyType.getD transaction.partyType,
    vendorReference := data.vendorReference.orElse (fun _ => transaction.vendorReference),
    items := items.getD transaction.items,
    date := data.date.getD transaction.date,
    deliveryDate := data.deliveryDate.getD transaction.deliveryDate,
    terms := data.terms.getD transaction.terms,
    notes := data.notes.getD transaction.notes,
    priority := data.priority.getD transaction.priority,
    status := data.status.getD transaction.status,
    totalAmount := totalAmount.getD transaction.totalAmount,
    docno := data.docno.orElse (fun _ => transaction.docno),
    lpono := data.lpono.orElse (fun _ => transaction.lpono),
    discount := data.discount.getD transaction.discount }

/-- The rewrite of the companion purchase log in `updateTransaction`. -/
def assignPurchaseLog (log : StockPurchaseLog) (data : UpdateData) (items : List Item)
    (totalAmount : ℚ) : StockPurchaseLog :=
  { log with
    items := items.map (fun item =>
      { itemId := item.itemId, description := item.description, qty := item.qty,
        rate := item.rate, vatPercent := item.vatPercent.getD 0, price := item.lineTotal }),
    totalAmount := some totalAmount,
    terms := (orString data.terms (some log.terms)).getD log.terms,
    notes := (orString data.notes (some log.notes)).getD log.notes,
    priority := (orString data.priority (some log.priority)).getD log.priority }

/-- The function `updateTransaction` wraps: `async (id, data, createdBy,
session) => ...`.  The save of the transaction goes through the unique index on
`transactionNo`, as an insert does. -/
def updateTransactionBody (id : String) (data : UpdateData) (_createdBy : String)
    (_committed : Db) (db : Db) : Except ServiceError (Transaction × Db) :=
  match findTransactionById db id with
  | none => .error (.app "Transaction not found" 404)
  | some transaction =>
    if isProcessed transaction.status then
      .error (.app "Cannot edit processed transactions" 400)
    else
      let items : Option (List Item) := data.items.map calculateItems
      let totalAmount : Option ℚ :=
        match items with
        | some processed => some (processed.foldl (fun sum i => jsAdd sum i.lineTotal) 0)
        | none => data.totalAmount
      let logged : Except ServiceError Db :=
        match items with
        | some processed =>
          if transaction.type = "purchase_order" then
            match db.purchaseLogs.find?
                (fun l => l.transactionNo = transaction.transactionNo) with
            | none => .error (.app "Purchase log not found" 404)
            | some _ =>
              .ok { db with purchaseLogs :=
                (updateFirst (fun l => l.transactionNo = transaction.transactionNo)
                  (fun l => assignPurchaseLog l data processed
                    (processed.foldl (fun sum i => jsAdd sum i.lineTotal) 0)) db.purchaseLogs) }
          else .ok db
        | none => .ok db
      match logged with
      | .error err => .error err
      | .ok db1 =>
        let updated := assignTransaction transaction data items totalAmount
        if db1.transactions.any
            (fun t => t._id ≠ updated._id && t.transactionNo = updated.transactionNo) then
          .error (.duplicateKey "E11000 duplicate key error collection: transactions")
        else .ok (updated, saveTransaction updated db1)

/-- The static `TransactionService.updateTransaction(id, data, createdBy)`. -/
def updateTransaction (id : String) (data : UpdateData) (createdBy : String) (db : Db) :
    Except ServiceError Transaction × Db :=
  withTransactionSession (updateTransactionBody id data createdBy) db

/-- A request that changes the notes only. -/
def sampleUpdateData : UpdateData :=
  { transactionNo := none, type := none, partyId := none, partyType := none,
    vendorReference := none, items := none, date := none, deliveryDate := none,
    terms := none, notes := some "call first", priority := none, status := none,
    totalAmount := none, docno := none, lpono := none, discount := none }

/-! ### Client helpers (client/helpers/orderPayload.js) -/

/-- A primitive JavaScript value, as a form field holds it.  A `number` is an
integer of magnitude below 10^21, which `String` writes in decimal digits;
`nan` is `NaN`. -/
inductive JsValue where
  | undefined
  | null
  | bool (b : Bool)
  | number (n : Int)
  | nan
  | string (s : String)
deriving DecidableEq, Repr

/-- The truthiness of a value, as `!value` and `if (value)` test it. -/
def jsTruthy : JsValue → Bool
  | .undefined => false
  | .null => false
  | .bool b => b
  | .number n => n ≠ 0
  | .nan => false
  | .string s => s ≠ ""

/-- The conversion `String(value)`. -/
def jsString : JsValue → String
  | .undefined => "undefined"
  | .null => "null"
  | .bool b => if b then "true" else "false"
  | .number n => toString n
  | .nan => "NaN"
  | .string s => s

/-- The class `[A-Z0-9-]` under the flag `i`: an ASCII letter of either case,
a digit or a dash. -/
def manualNumberChar (c : Char) : Bool :=
  c.isUpper || c.isLower || c.isDigit || c = '-'

/-- The test of the pattern `/^[A-Z0-9-]+$/i` on a string: one or more
characters, all of the class. -/
def manualNumberPattern (s : String) : Bool :=
  !s.data.isEmpty && s.data.all manualNumberChar

/-- The function `validateManualNumber(value)`. -/
def validateManualNumber (value : JsValue) : Bool :=
  if !jsTruthy value || jsTrim (jsString value) = "" then false
  else manualNumberPattern (jsTrim (jsString value))

/-- The value of a property of a payload: a primitive value, or an object or
array, which the helper passes on by reference. -/
inductive FieldValue where
  | primitive (v : JsValue)
  | reference (handle : Nat)
deriving DecidableEq, Repr

/-- A plain object: its own properties, in order. -/
abbrev JsObject := List (String × FieldValue)

/-- The read `object[key]`; `none` is `undefined`, the key being absent. -/
def getField (object : JsObject) (key : String) : Option FieldValue :=
  (object.find? (fun p => p.1 = key)).map (fun p => p.2)

/-- The assignment `object[key] = value`: the property is replaced when the
object has it and added otherwise. -/
def setField (object : JsObject) (key : String) (value : FieldValue) : JsObject :=
  if object.any (fun p => p.1 = key) then
    object.map (fun p => if p.1 = key then (key, value) else p)
  else object ++ [(key, value)]

/-- The spread `{ ...object, ...other }`: the properties of `other` are
assigned in order. -/
def spreadFields (object other : JsObject) : JsObject :=
  other.foldl (fun acc p => setField acc p.1 p.2) object

/-- The `formState` argument of `buildOrderPayload`; a property that is absent
is `undefined`. -/
structure FormState where
  manual : JsValue
  orderNumber : JsValue
  transactionNo : JsValue
deriving DecidableEq, Repr

/-- The function `buildOrderPayload(type, formState, otherFields)`. -/
def buildOrderPayload (type : String) (formState : FormState) (otherFields : JsObject) :
    JsObject :=
  let payload := spreadFields [("type", .primitive (.string type))] otherFields
  if type = "sales_order" then
    if jsTruthy formState.manual then
      if jsTruthy formState.orderNumber then
        setField payload "orderNumber"
          (.primitive (.string (jsTrim (jsString formState.orderNumber))))
      else payload
    else payload
  else if type = "purchase_order" then
    if jsTruthy formState.manual then
      if jsTruthy formState.transactionNo then
        setField payload "transactionNo"
          (.primitive (.string (jsTrim (jsString formState.transactionNo))))
      else payload
    else payload
  else payload

/-- The figures of a movement: all its fields but the reversal flag and the
reference to the offsetting movement. -/
def movementFigures (m : InventoryMovement) :
    String × String × ℚ × ℚ × ℚ × ℚ × ℚ :=
  (m._id, m.stockId, m.quantity, m.previousStock, m.newStock, m.unitCost, m.totalValue)

/-- A movement whose figures agree: the new stock is the previous stock plus
the quantity, and the total value is the size of the quantity times the unit
cost, the sum and the product being those of the numbers of the code. -/
def movementBalanced (m : InventoryMovement) : Prop :=
  m.newStock = jsAdd m.previousStock m.quantity ∧
    m.totalValue = jsMul |m.quantity| m.unitCost

/-! ### Sample data -/

/-- A day in January 2025. -/
def sampleDate : JsDate := ⟨2025, 0, 15⟩

/-- A stored line: 10 widgets, line value 50, 5% VAT. -/
def sampleItem : Item :=
  { itemId := "i1", description := "widget", qty := 10, rate := some 50, price := none,
    vatPercent := some 5, itemCode := "i1", package := 0, vatAmount := 5 / 2,
    lineTotal := 105 / 2, grandTotal := 105 / 2 }

/-- A purchase order of vendor `v1` in the given status. -/
def sampleOrder (status : String) : Transaction :=
  { _id := "t1", transactionNo := "PO001", type := "purchase_order", partyId := "v1",
    partyType := "Vendor", partyTypeRef := "Vendor", items := [sampleItem],
    totalAmount := 105 / 2, vendorReference := none, status := status, createdBy := "u",
    date := sampleDate, deliveryDate := sampleDate, terms := "", notes := "",
    priority := "Medium", docno := none, lpono := none, discount := 0,
    grnGenerated := none, invoiceGenerated := none, creditNoteIssued := none }

/-- A store holding the sample order in the given status, its purchase log, the
stock of its item and the given vendors. -/
def sampleDb (status : String) (vendors : List Party) : Db :=
  { transactions := [sampleOrder status], purchaseLogs := [purchaseLogOf (sampleOrder status)],
    stocks := [⟨"s1", "i1", 0, 4, none, none⟩], movements := [], vendors := vendors,
    customers := [], debitLogs := [], creditLogs := [], vatReports := [], nextId := 7 }

/-- The vendor of the sample order. -/
def sampleVendor : Party := ⟨"v1", some "Vendor One", 100⟩

/-- A sales order of customer `c1` in status DRAFT with the given numbering
fields: 10 widgets, total 100. -/
def sampleSalesOrder (numberManual : Bool) (orderNumber invoiceNumber : Option String) :
    Transaction :=
  { _id := "t2", transactionNo := "0000", type := "sales_order", partyId := "c1",
    partyType := "Customer", partyTypeRef := "Customer",
    items := [{ sampleItem with vatPercent := none, vatAmount := 0, lineTotal := 100,
                                rate := some 100, grandTotal := 100 }],
    totalAmount := 100, vendorReference := none, status := "DRAFT", createdBy := "u",
    date := sampleDate, deliveryDate := sampleDate, terms := "", notes := "",
    priority := "Medium", docno := none, lpono := none, discount := 0,
    grnGenerated := none, invoiceGenerated := none, creditNoteIssued := none,
    orderNumber := orderNumber, invoiceNumber := invoiceNumber,
    numberManual := numberManual }

/-- The customer of the sample sales order, with balance 0. -/
def sampleCustomer : Party := ⟨"c1", some "Customer One", 0⟩

/-- A store holding the given sales order, 25 widgets in stock and the sample
customer. -/
def sampleSalesDb (order : Transaction) : Db :=
  { transactions := [order], purchaseLogs := [],
    stocks := [⟨"s1", "i1", 25, 4, none, none⟩], movements := [], vendors := [],
    customers := [sampleCustomer], debitLogs := [], creditLogs := [], vatReports := [],
    nextId := 7 }

/-- The sample store with the stock of the item oversold: level -12, cost 4. -/
def sampleOversoldDb : Db :=
  { sampleDb "DRAFT" [sampleVendor] with stocks := [⟨"s1", "i1", -12, 4, none, none⟩] }

/-- A request line for 10 widgets at unit price 5. -/
def sampleItemInput : ItemInput :=
  { itemId := "i1", description := "widget", qty := 10, rate := none, price := some 5,
    vatPercent := none, itemCode := none, code := none, sku := none, grandTotal := none,
    package := none }

/-- A create request of the given type for party `p1` with one line, carrying
the given transaction number. -/
def sampleCreateData (transactionNo : Option String) (type partyType : String) : CreateData :=
  { transactionNo := transactionNo, type := type, partyId := "p1", partyType := partyType,
    vendorReference := none, items := [sampleItemInput], date := none, deliveryDate := none,
    terms := none, notes := none, priority := none, status := none, totalAmount := none,
    docno := none, lpono := none, discount := none }

/-- A store with the stock of the sample item and no transaction. -/
def sampleEmptyDb : Db :=
  { transactions := [], purchaseLogs := [], stocks := [⟨"s1", "i1", 0, 4, none, none⟩],
    movements := [], vendors := [], customers := [], debitLogs := [], creditLogs := [],
    vatReports := [], nextId := 7 }

/-- The sample purchase order request without its items. -/
def sampleCreateDataNoItems : CreateData :=
  { sampleCreateData none "purchase_order" "Vendor" with items := [] }

/-- The sample sales order request carrying the given status. -/
def sampleCreateDataWithStatus (status : String) : CreateData :=
  { sampleCreateData none "sales_order" "Customer" with status := some status }

/-- The double 0.1. -/
def sampleTenth : ℚ := roundDouble (1 / 10)

/-- The double 0.2. -/
def sampleFifth : ℚ := roundDouble (1 / 5)

/-- The sample purchase order with a single line of 0.2 widgets. -/
def sampleFractionOrder : Transaction :=
  { sampleOrder "DRAFT" with items := [{ sampleItem with qty := sampleFifth }] }

/-- A store holding the order of 0.2 widgets and 0.1 widgets in stock. -/
def sampleFractionDb : Db :=
  { sampleDb "DRAFT" [sampleVendor] with
    transactions := [sampleFractionOrder],
    stocks := [⟨"s1", "i1", sampleTenth, 4, none, none⟩] }

/-- The sample line with a VAT amount of -2.5, as a line of negative value
has. -/
def sampleCreditItem : Item := { sampleItem with vatAmount := -(5 / 2) }

/-- The sample purchase order with the line of negative VAT only. -/
def sampleCreditOrder : Transaction :=
  { sampleOrder "DRAFT" with items := [sampleCreditItem] }

/-- The sample purchase order with three lines whose VAT amounts are the
doubles 0.1, 0.2 and 0.3. -/
def sampleVatOrder : Transaction :=
  { sampleOrder "DRAFT" with
    items := [{ sampleItem with vatAmount := roundDouble (1 / 10) },
      { sampleItem with vatAmount := roundDouble (1 / 5) },
      { sampleItem with vatAmount := roundDouble (3 / 10) }] }

/-- The two deletions that end `deleteTransaction`: `StockPurchaseLog.deleteOne`
by transaction number for a purchase order, and
`Transaction.findByIdAndDelete(id)`. -/
def deleteRecords (id : String) (transaction : Transaction) (db : Db) : Db :=
  let db3 :=
    if transaction.type = "purchase_order" then
      { db with purchaseLogs :=
          db.purchaseLogs.eraseP (fun l => l.transactionNo = transaction.transactionNo) }
    else db
  { db3 with transactions := db3.transactions.eraseP (fun t => t._id = id) }

/-- The value `data.transactionNo?.trim()` of `createTransaction`, the empty
string when no number was given. -/
def trimmedTransactionNo (data : CreateData) : String :=
  (data.transactionNo.map jsTrim).getD ""

/-- The number `createTransaction` stores: the trimmed number of the payload, or
a generated one when that is empty. -/
def finalTransactionNo (data : CreateData) (rnd : Nat) : String :=
  if trimmedTransactionNo data = "" then generateTransactionNo data.type rnd
  else trimmedTransactionNo data

/-! ### Concurrent callers of `getNext`

A call of `getNext` talks to the collection only through its store calls, and
the store answers each call atomically.  Callers that run at the same time are
therefore an interleaving of their store calls: a schedule names, move after
move, the caller that makes its next store call. -/

/-- Where a call of `getNext` stands between two store calls: at the head of an
iteration of the loop with `remaining` iterations left, between the first call
of an iteration and its upsert, or finished with the value returned or the
error thrown. -/
inductive CallerState where
  | first (remaining attempt : Nat) (lastError : Option String) (waits : List (Nat × Nat))
  | upsert (remaining attempt : Nat) (lastError : Option String) (waits : List (Nat × Nat))
  | finished (result : Except String String) (issued : Option SequenceDoc) (attempts : Nat)
      (waits : List (Nat × Nat))

/-- A caller that has just entered `getNext`. -/
def callerStart : CallerState := .first maxRetries 0 none []

/-- The next move of a call of `getNext`: it makes its next store call and goes
on from the answer as the loop of `getNext` does; at the head of the loop with
no iteration left it throws. -/
def callerStep {σ : Type} (S : SequenceStore σ) (type : String) (opts : GetNextOpts) :
    CallerState → σ → CallerState × σ
  | .first 0 attempt lastError waits, s =>
    (.finished (.error (exhaustedMessage lastError)) none attempt waits, s)
  | .first (remaining + 1) attempt lastError waits, s =>
    match S.incExisting type opts.year s with
    | (.doc d, s1) => (.finished (.ok (formatNumber d opts)) (some d) (attempt + 1) waits, s1)
    | (.error code msg, s1) =>
      if code = 11000 then
        (.first remaining (attempt + 1) (some msg) (waits ++ [(attempt, backoff attempt)]), s1)
      else (.finished (.error (exhaustedMessage (some msg))) none (attempt + 1) waits, s1)
    | (.null, s1) => (.upsert remaining attempt lastError waits, s1)
  | .upsert remaining attempt lastError waits, s =>
    match S.incUpsert type opts.year opts.pfx opts.padding s with
    | (.doc d, s2) => (.finished (.ok (formatNumber d opts)) (some d) (attempt + 1) waits, s2)
    | (.null, s2) =>
      (.first remaining (attempt + 1) lastError (waits ++ [(attempt, backoff attempt)]), s2)
    | (.error code msg, s2) =>
      if code = 11000 then (.first remaining (attempt + 1) lastError waits, s2)
      else (.finished (.error (exhaustedMessage (some msg))) none (attempt + 1) waits, s2)
  | .finished result issued attempts waits, s => (.finished result issued attempts waits, s)

/-- A caller on its own: `n` moves one after the other. -/
def callerRun {σ : Type} (S : SequenceStore σ) (type : String) (opts : GetNextOpts) :
    Nat → CallerState → σ → CallerState × σ
  | 0, st, s => (st, s)
  | n + 1, st, s =>
    callerRun S type opts n (callerStep S type opts st s).1 (callerStep S type opts st s).2

/-- The document a finished caller got its number from. -/
def issuedBy : CallerState → Option SequenceDoc
  | .finished _ issued _ _ => issued
  | _ => none

/-- Whether the caller has returned or thrown. -/
def isFinished : CallerState → Bool
  | .finished _ _ _ _ => true
  | _ => false

/-- Callers of `getNext` for one (type, year) at work on one store, and the
documents issued so far in the order in which the store issued them. -/
structure Contention (σ : Type) where
  callers : List CallerState
  store : σ
  issued : List SequenceDoc

/-- One move of the schedule: caller `i` makes its next move on the store as it
stands; a number it is handed by this move goes to the end of the record. -/
def scheduleStep {σ : Type} (S : SequenceStore σ) (type : String) (opts : GetNextOpts)
    (c : Contention σ) (i : Nat) : Contention σ :=
  match c.callers[i]? with
  | none => c
  | some st =>
    { callers := c.callers.set i (callerStep S type opts st c.store).1,
      store := (callerStep S type opts st c.store).2,
      issued := c.issued ++
        (if isFinished st then []
          else (issuedBy (callerStep S type opts st c.store).1).toList) }

/-- The moves of a schedule one after the other. -/
def runSchedule {σ : Type} (S : SequenceStore σ) (type : String) (opts : GetNextOpts)
    (schedule : List Nat) (c : Contention σ) : Contention σ :=
  schedule.foldl (scheduleStep S type opts) c

/-- The start of `k` callers on the rows `rows`. -/
def contentionStart (k : Nat) (rows : List SequenceDoc) : Contention (List SequenceDoc) :=
  { callers := List.replicate k callerStart, store := rows, issued := [] }

/-- What makes a store a counter for the bucket of `type` and `opts.year`: a
call that answers with a document has raised the counter by one and answers
with the new counter, and a call that answers `null` or throws has left the
counter as it was. -/
def countsAtomically {σ : Type} (S : SequenceStore σ) (type : String) (opts : GetNextOpts)
    (counter : σ → Nat) : Prop :=
  ∀ s,
    (match S.incExisting type opts.year s with
      | (.doc d, s1) => d.current = counter s + 1 ∧ counter s1 = counter s + 1
      | (_, s1) => counter s1 = counter s) ∧
    (match S.incUpsert type opts.year opts.pfx opts.padding s with
      | (.doc d, s1) => d.current = counter s + 1 ∧ counter s1 = counter s + 1
      | (_, s1) => counter s1 = counter s)

/-- Where a caller stands on the in-memory collection after `n` moves: at the
start after none, at its upsert or finished with a number after one, finished
with a number, at its first attempt, after more. -/
def callerAfter (opts : GetNextOpts) (n : Nat) (st : CallerState) : Prop :=
  (n = 0 ∧ st = callerStart) ∨
    (n = 1 ∧ st = .upsert (maxRetries - 1) 0 none []) ∨
    (1 ≤ n ∧ ∃ d, st = .finished (.ok (formatNumber d opts)) (some d) 1 [])

end TradeErp

/-! # Theorems -/

namespace TradeErp

/-! ## Sequence allocator -/

theorem rowMatches_bump (t : String) (y : Option String) (d : SequenceDoc) :
    rowMatches t y { d with current := d.current + 1 } = rowMatches t y d := rfl

theorem findOneAndInc_of_findOne_none {type : String} {year : Option String}
    {rows : List SequenceDoc} (h : findOne type year rows = none) :
    findOneAndInc type year rows = none := by
  induction rows with
  | nil => rfl
  | cons d rest ih =>
    by_cases hm : rowMatches type year d = true
    · simp [findOne, List.find?, hm] at h
    · have hrest : findOne type year rest = none := by
        simpa [findOne, List.find?, hm] using h
      simp [findOneAndInc, hm, ih hrest]

theorem findOneAndInc_of_findOne_some {type : String} {year : Option String}
    {rows : List SequenceDoc} {d : SequenceDoc} (h : findOne type year rows = some d) :
    ∃ rows1, findOneAndInc type year rows = some ({ d with current := d.current + 1 }, rows1) ∧
      findOne type year rows1 = some { d with current := d.current + 1 } ∧
      ∀ t y, (t ≠ type ∨ y ≠ year) → findOne t y rows1 = findOne t y rows := by
  induction rows with
  | nil => simp [findOne] at h
  | cons e rest ih =>
    by_cases hm : rowMatches type year e = true
    · have hed : e = d := by simpa [findOne, List.find?, hm] using h
      subst hed
      refine ⟨{ e with current := e.current + 1 } :: rest, ?_, ?_, ?_⟩
      · simp [findOneAndInc, hm]
      · simp [findOne, List.find?, rowMatches_bump, hm]
      · intro t y hty
        have hne : rowMatches t y e = false := by
          simp only [rowMatches, Bool.and_eq_true, decide_eq_true_eq] at hm
          rcases hty with ht | hy
          · simp [rowMatches, hm.1, Ne.symm ht]
          · simp [rowMatches, hm.2, Ne.symm hy]
        simp [findOne, List.find?, rowMatches_bump, hne]
    · have hrest : findOne type year rest = some d := by
        simpa [findOne, List.find?, hm] using h
      obtain ⟨rows1, h1, h2, h3⟩ := ih hrest
      refine ⟨e :: rows1, ?_, ?_, ?_⟩
      · simp [findOneAndInc, hm, h1]
      · simpa [findOne, List.find?, hm] using h2
      · intro t y hty
        have h3ty := h3 t y hty
        by_cases hte : rowMatches t y e = true
        · simp [findOne, List.find?, hte]
        · simpa [findOne, List.find?, hte] using h3ty

theorem findOne_append_inserted {type : String} {year : Option String}
    {rows : List SequenceDoc} (pfx : String) (padding : Nat)
    (h : findOne type year rows = none) :
    findOne type year (rows ++ [insertedRow type year pfx padding]) =
        some (insertedRow type year pfx padding) ∧
      ∀ t y, (t ≠ type ∨ y ≠ year) →
        findOne t y (rows ++ [insertedRow type year pfx padding]) = findOne t y rows := by
  constructor
  · have h0 : List.find? (rowMatches type year) rows = none := h
    simp [findOne, List.find?_append, h0, List.find?, rowMatches, insertedRow]
  · intro t y hty
    have hne : rowMatches t y (insertedRow type year pfx padding) = false := by
      rcases hty with ht | hy
      · simp [rowMatches, insertedRow, Ne.symm ht]
      · simp [rowMatches, insertedRow, Ne.symm hy]
    cases hf : List.find? (rowMatches t y) rows with
    | none => simp [findOne, List.find?_append, hf, List.find?, hne]
    | some r => simp [findOne, List.find?_append, hf]

/-- One call of `getNext` on the in-memory collection when the row exists. -/
theorem getNext_memStore_existing {type : String} {opts : GetNextOpts}
    {rows : List SequenceDoc} {d : SequenceDoc} (h : findOne type opts.year rows = some d) :
    ∃ rows1, getNext memStore type opts rows =
        { result := .ok (formatNumber { d with current := d.current + 1 } opts),
          issued := some { d with current := d.current + 1 },
          store := rows1, attempts := 1, waits := [] } ∧
      findOne type opts.year rows1 = some { d with current := d.current + 1 } ∧
      ∀ t y, (t ≠ type ∨ y ≠ opts.year) → findOne t y rows1 = findOne t y rows := by
  obtain ⟨rows1, h1, h2, h3⟩ := findOneAndInc_of_findOne_some h
  exact ⟨rows1, by simp [getNext, maxRetries, getNextLoop, memStore, h1], h2, h3⟩

/-- One call of `getNext` on the in-memory collection when the row is absent. -/
theorem getNext_memStore_absent {type : String} {opts : GetNextOpts}
    {rows : List SequenceDoc} (h : findOne type opts.year rows = none) :
    getNext memStore type opts rows =
      { result := .ok (formatNumber (insertedRow type opts.year opts.pfx opts.padding) opts),
        issued := some (insertedRow type opts.year opts.pfx opts.padding),
        store := rows ++ [insertedRow type opts.year opts.pfx opts.padding],
        attempts := 1, waits := [] } := by
  simp [getNext, maxRetries, getNextLoop, memStore, findOneAndInc_of_findOne_none h]

/-- Summary of one call on the in-memory collection: it succeeds at the first
attempt, the issued row carries the old counter plus one, it is the row stored
afterwards, and no other bucket is touched. -/
theorem getNext_memStore_step (type : String) (opts : GetNextOpts) (rows : List SequenceDoc) :
    ∃ d, (getNext memStore type opts rows).result = .ok (formatNumber d opts) ∧
      (getNext memStore type opts rows).issued = some d ∧
      (getNext memStore type opts rows).attempts = 1 ∧
      d.current = storedCounter type opts.year rows + 1 ∧
      findOne type opts.year (getNext memStore type opts rows).store = some d ∧
      ∀ t y, (t ≠ type ∨ y ≠ opts.year) →
        findOne t y (getNext memStore type opts rows).store = findOne t y rows := by
  cases h : findOne type opts.year rows with
  | none =>
    have hins := findOne_append_inserted opts.pfx opts.padding h
    refine ⟨insertedRow type opts.year opts.pfx opts.padding, ?_⟩
    rw [getNext_memStore_absent h]
    exact ⟨rfl, rfl, rfl, by simp [storedCounter, h, insertedRow], hins.1, hins.2⟩
  | some d0 =>
    obtain ⟨rows1, h1, h2, h3⟩ := getNext_memStore_existing h
    refine ⟨{ d0 with current := d0.current + 1 }, ?_⟩
    rw [h1]
    exact ⟨rfl, rfl, rfl, by simp [storedCounter, h], h2, h3⟩

theorem storedCounter_getNext (type : String) (opts : GetNextOpts) (rows : List SequenceDoc) :
    storedCounter type opts.year (getNext memStore type opts rows).store
      = storedCounter type opts.year rows + 1 := by
  obtain ⟨d, _, _, _, hc, hf, _⟩ := getNext_memStore_step type opts rows
  simp [storedCounter, hf, hc]

/-- C1, as the claim states it, fails: a `sales_invoice` row that carries the
schema defaults (padding 4, counter 0) answers `getNext('sales_invoice',
{padding: 5})` with the stored width, `0001`, not with the option width. -/
theorem getNext_option_padding_counterexample :
    (getNext memStore "sales_invoice" { padding := 5 }
        [{ year := none, type := "sales_invoice", pfx := "", current := 0, padding := 4 }]).result
      = .ok "0001" ∧
    (.ok "0001" : Except String String) ≠ .ok ("" ++ padStart (toString (0 + 1)) 5 '0') := by
  refine ⟨rfl, ?_⟩
  intro h
  injection h with h
  exact absurd h (by decide)

/-- C1 (amended): on the in-memory collection a call of `getNext` succeeds,
raises the stored counter of the (type, year) bucket by exactly one, leaves the
counter of every other bucket alone, and returns the stored prefix (the option
prefix when the stored one is empty) followed by the new counter padded with
zeros to the stored width (the option width when the stored one is 0); when no
row exists the counter issued is 1 under the option prefix and width, so
`getNext('sales_invoice', {padding: 5})` on an empty collection gives `00001`. -/
theorem getNext_increments_and_formats (type : String) (opts : GetNextOpts)
    (rows : List SequenceDoc) :
    storedCounter type opts.year (getNext memStore type opts rows).store
        = storedCounter type opts.year rows + 1 ∧
    (∀ t y, (t ≠ type ∨ y ≠ opts.year) →
      storedCounter t y (getNext memStore type opts rows).store = storedCounter t y rows) ∧
    (getNext memStore type opts rows).result = .ok
      (match findOne type opts.year rows with
       | some d =>
         (if d.pfx ≠ "" then d.pfx else opts.pfx) ++
           padStart (toString (d.current + 1))
             (if d.padding ≠ 0 then d.padding else opts.padding) '0'
       | none => opts.pfx ++ padStart (toString 1) opts.padding '0') ∧
    (getNext memStore "sales_invoice" { padding := 5 } []).result = .ok "00001" := by
  refine ⟨storedCounter_getNext type opts rows, ?_, ?_, rfl⟩
  · intro t y hty
    obtain ⟨d, _, _, _, _, _, hframe⟩ := getNext_memStore_step type opts rows
    simp [storedCounter, hframe t y hty]
  · cases h : findOne type opts.year rows with
    | none =>
      rw [getNext_memStore_absent h]
      simp [formatNumber, insertedRow]
    | some d0 =>
      obtain ⟨rows1, h1, _, _⟩ := getNext_memStore_existing h
      rw [h1]
      simp [formatNumber]

theorem rowsAfter_succ (type : String) (opts : GetNextOpts) (n : Nat) (rows : List SequenceDoc) :
    rowsAfter type opts (n + 1) rows
      = (getNext memStore type opts (rowsAfter type opts n rows)).store := by
  induction n generalizing rows with
  | zero => rfl
  | succ k ih =>
    have := ih (getNext memStore type opts rows).store
    simpa [rowsAfter] using this

theorem storedCounter_rowsAfter (type : String) (opts : GetNextOpts) (n : Nat)
    (rows : List SequenceDoc) :
    storedCounter type opts.year (rowsAfter type opts n rows)
      = storedCounter type opts.year rows + n := by
  induction n with
  | zero => rfl
  | succ k ih =>
    rw [rowsAfter_succ, storedCounter_getNext, ih]
    omega

theorem issued_getNextTimes (type : String) (opts : GetNextOpts) (n : Nat)
    (rows : List SequenceDoc) :
    (getNextTimes type opts n rows).map (fun r => r.issued.map SequenceDoc.current)
      = (List.range n).map (fun k => some (storedCounter type opts.year rows + (k + 1))) := by
  induction n generalizing rows with
  | zero => rfl
  | succ k ih =>
    obtain ⟨d, _, hi, _, hc, _, _⟩ := getNext_memStore_step type opts rows
    have hstore := storedCounter_getNext type opts rows
    rw [getNextTimes, List.map_cons, ih, hstore, hi, List.range_succ_eq_map, List.map_cons,
      List.map_map]
    simp only [Option.map_some', hc, Function.comp_def]
    congr 1
    apply List.map_congr_left
    intro a _
    simp only [Nat.succ_eq_add_one]
    congr 1
    omega

theorem ok_getNextTimes (type : String) (opts : GetNextOpts) (n : Nat)
    (rows : List SequenceDoc) :
    ∀ r ∈ getNextTimes type opts n rows,
      ∃ d, r.issued = some d ∧ r.result = .ok (formatNumber d opts) := by
  induction n generalizing rows with
  | zero => intro r hr; simp [getNextTimes] at hr
  | succ k ih =>
    intro r hr
    rw [getNextTimes, List.mem_cons] at hr
    rcases hr with rfl | hr
    · obtain ⟨d, hres, hi, _⟩ := getNext_memStore_step type opts rows
      exact ⟨d, hi, hres⟩
    · exact ih _ r hr

/-- C2: a run of `n` calls of `getNext` on one (type, year) bucket with no other
writer issues the counters c+1, c+2, ..., c+n in call order, where c is the
stored counter before the run (0 without a row); every call succeeds and
returns the formatted counter it issued; after m calls the stored counter is
c+m, so it never decreases; and no counter is issued twice. -/
theorem getNext_issues_consecutive_counters (type : String) (opts : GetNextOpts)
    (rows : List SequenceDoc) (n : Nat) :
    (getNextTimes type opts n rows).map (fun r => r.issued.map SequenceDoc.current)
        = (List.range n).map (fun k => some (storedCounter type opts.year rows + (k + 1))) ∧
    (∀ r ∈ getNextTimes type opts n rows,
      ∃ d, r.issued = some d ∧ r.result = .ok (formatNumber d opts)) ∧
    (∀ m, storedCounter type opts.year (rowsAfter type opts m rows)
        = storedCounter type opts.year rows + m) ∧
    ((getNextTimes type opts n rows).map (fun r => r.issued.map SequenceDoc.current)).Nodup := by
  refine ⟨issued_getNextTimes type opts n rows, ok_getNextTimes type opts n rows,
    fun m => storedCounter_rowsAfter type opts m rows, ?_⟩
  rw [issued_getNextTimes]
  apply List.Nodup.map _ (List.nodup_range n)
  intro a b hab
  simp only [Option.some.injEq] at hab
  omega

theorem backoff_le (attempt : Nat) : backoff attempt ≤ 2000 := by
  unfold backoff
  exact Nat.min_le_right _ _

/-- Invariant of the retry loop: it enters at most `remaining` further
iterations, makes at most one wait per iteration entered, and every wait is the
capped exponential delay of the attempt it follows. -/
theorem getNextLoop_bounds {σ : Type} (S : SequenceStore σ) (type : String)
    (opts : GetNextOpts) :
    ∀ (remaining attempt : Nat) (lastError : Option String) (waits : List (Nat × Nat)) (s : σ),
      waits.length ≤ attempt →
      (∀ w ∈ waits, w.1 < attempt ∧ w.2 = backoff w.1) →
      (getNextLoop S type opts remaining attempt lastError waits s).attempts
          ≤ attempt + remaining ∧
      (getNextLoop S type opts remaining attempt lastError waits s).waits.length
          ≤ (getNextLoop S type opts remaining attempt lastError waits s).attempts ∧
      ∀ w ∈ (getNextLoop S type opts remaining attempt lastError waits s).waits,
        w.1 < attempt + remaining ∧ w.2 = backoff w.1 := by
  intro remaining
  induction remaining with
  | zero =>
    intro attempt lastError waits s hlen hw
    exact ⟨Nat.le_refl _, hlen, hw⟩
  | succ k ih =>
    intro attempt lastError waits s hlen hw
    have hw1 : ∀ w ∈ waits, w.1 < attempt + (k + 1) ∧ w.2 = backoff w.1 :=
      fun w hmem => ⟨by have := (hw w hmem).1; omega, (hw w hmem).2⟩
    have hlen2 : (waits ++ [(attempt, backoff attempt)]).length ≤ attempt + 1 := by
      simp only [List.length_append, List.length_singleton]; omega
    have hw2 : ∀ w ∈ waits ++ [(attempt, backoff attempt)],
        w.1 < attempt + 1 ∧ w.2 = backoff w.1 := by
      intro w hmem
      rcases List.mem_append.mp hmem with hmem | hmem
      · exact ⟨by have := (hw w hmem).1; omega, (hw w hmem).2⟩
      · have hwe : w = (attempt, backoff attempt) := by simpa using hmem
        subst hwe
        exact ⟨Nat.lt_succ_self _, rfl⟩
    have hw3 : ∀ w ∈ waits, w.1 < attempt + 1 ∧ w.2 = backoff w.1 :=
      fun w hmem => ⟨by have := (hw w hmem).1; omega, (hw w hmem).2⟩
    have hstep : ∀ (le : Option String) (ws : List (Nat × Nat)) (s1 : σ),
        ws.length ≤ attempt + 1 →
        (∀ w ∈ ws, w.1 < attempt + 1 ∧ w.2 = backoff w.1) →
        (getNextLoop S type opts k (attempt + 1) le ws s1).attempts ≤ attempt + (k + 1) ∧
        (getNextLoop S type opts k (attempt + 1) le ws s1).waits.length
          ≤ (getNextLoop S type opts k (attempt + 1) le ws s1).attempts ∧
        ∀ w ∈ (getNextLoop S type opts k (attempt + 1) le ws s1).waits,
          w.1 < attempt + (k + 1) ∧ w.2 = backoff w.1 := by
      intro le ws s1 h1 h2
      have := ih (attempt + 1) le ws s1 h1 h2
      simpa [Nat.add_assoc, Nat.add_comm 1 k] using this
    have hret : attempt + 1 ≤ attempt + (k + 1) ∧ waits.length ≤ attempt + 1 ∧
        ∀ w ∈ waits, w.1 < attempt + (k + 1) ∧ w.2 = backoff w.1 :=
      ⟨by omega, by omega, hw1⟩
    rw [getNextLoop]
    split
    · exact hret
    · split
      · exact hstep _ _ _ hlen2 hw2
      · exact hret
    · split
      · exact hret
      · exact hstep _ _ _ hlen2 hw2
      · split
        · exact hstep _ _ _ (by omega) hw3
        · exact hret

/-- When every attempt meets a duplicate-key conflict the loop runs out of
iterations and throws. -/
theorem getNextLoop_exhausts {σ : Type} (S : SequenceStore σ) (type : String)
    (opts : GetNextOpts) (hdup : ∀ s, meetsDuplicateKey S type opts s = true) :
    ∀ (remaining attempt : Nat) (lastError : Option String) (waits : List (Nat × Nat)) (s : σ),
      ∃ le, (getNextLoop S type opts remaining attempt lastError waits s).result
          = .error (exhaustedMessage le) ∧
        (getNextLoop S type opts remaining attempt lastError waits s).issued = none ∧
        (getNextLoop S type opts remaining attempt lastError waits s).attempts
          = attempt + remaining := by
  intro remaining
  induction remaining with
  | zero =>
    intro attempt lastError waits s
    exact ⟨_, rfl, rfl, rfl⟩
  | succ k ih =>
    intro attempt lastError waits s
    have hstep : ∀ (le : Option String) (ws : List (Nat × Nat)) (s1 : σ),
        ∃ le1, (getNextLoop S type opts k (attempt + 1) le ws s1).result
            = .error (exhaustedMessage le1) ∧
          (getNextLoop S type opts k (attempt + 1) le ws s1).issued = none ∧
          (getNextLoop S type opts k (attempt + 1) le ws s1).attempts = attempt + (k + 1) := by
      intro le ws s1
      obtain ⟨msg, h1, h2, h3⟩ := ih (attempt + 1) le ws s1
      exact ⟨msg, h1, h2, by omega⟩
    have h := hdup s
    unfold meetsDuplicateKey at h
    rw [getNextLoop]
    split
    · rename_i d s1 heq
      simp [heq] at h
    · rename_i code msg s1 heq
      have hc : code = 11000 := by simpa [heq] using h
      simp only [hc, if_true]
      exact hstep _ _ _
    · rename_i s1 heq
      simp only [heq] at h
      split
      · rename_i d s2 heq2
        simp [heq2] at h
      · rename_i s2 heq2
        simp [heq2] at h
      · rename_i code msg s2 heq2
        have hc : code = 11000 := by simpa [heq2] using h
        simp only [hc, if_true]
        exact hstep _ _ _

/-- C4: whatever the store answers, `getNext` enters at most 10 attempts and
makes at most one wait per attempt; every wait it makes is min(100 * 2^attempt,
2000) milliseconds for the attempt it follows, hence at most 2000 ms; and when
every attempt meets a duplicate-key conflict it ends, after the 10 attempts, by
throwing its "Failed to generate next sequence number" error, and no number is
returned. -/
theorem getNext_bounded_retries {σ : Type} (S : SequenceStore σ) (type : String)
    (opts : GetNextOpts) (s : σ) :
    (getNext S type opts s).attempts ≤ 10 ∧
    (getNext S type opts s).waits.length ≤ (getNext S type opts s).attempts ∧
    (∀ w ∈ (getNext S type opts s).waits,
      w.1 < 10 ∧ w.2 = min (100 * 2 ^ w.1) 2000 ∧ w.2 ≤ 2000) ∧
    ((∀ s1, meetsDuplicateKey S type opts s1 = true) →
      ∃ lastError, (getNext S type opts s).result = .error (exhaustedMessage lastError) ∧
        (getNext S type opts s).issued = none ∧ (getNext S type opts s).attempts = 10) := by
  have hb := getNextLoop_bounds S type opts maxRetries 0 none [] s (by simp) (by simp)
  refine ⟨by simpa [getNext, maxRetries] using hb.1, hb.2.1, ?_, ?_⟩
  · intro w hw
    have h := hb.2.2 w hw
    refine ⟨by simpa [maxRetries] using h.1, h.2, ?_⟩
    rw [h.2]
    exact backoff_le _
  · intro hdup
    obtain ⟨msg, h1, h2, h3⟩ := getNextLoop_exhausts S type opts hdup maxRetries 0 none [] s
    exact ⟨msg, h1, h2, by simpa [maxRetries] using h3⟩

/-- Witness for C4: on a store every call of which fails on the unique index,
`getNext` gives up after its 10 attempts with an error. -/
theorem getNext_bounded_retries_witness :
    (∀ s1, meetsDuplicateKey alwaysDuplicate "sales_invoice" { padding := 5 } s1 = true) ∧
    ∃ lastError, (getNext alwaysDuplicate "sales_invoice" { padding := 5 } ()).result
        = .error (exhaustedMessage lastError) ∧
      (getNext alwaysDuplicate "sales_invoice" { padding := 5 } ()).issued = none ∧
      (getNext alwaysDuplicate "sales_invoice" { padding := 5 } ()).attempts = 10 :=
  ⟨fun _ => rfl,
   (getNext_bounded_retries alwaysDuplicate "sales_invoice" { padding := 5 } ()).2.2.2
     (fun _ => rfl)⟩

/-! ## Preview -/

theorem preview_store (rows : List SequenceDoc) (now : Clock) (type date : Option String) :
    (preview rows now type date).store = rows := by
  unfold preview
  repeat' split
  all_goals rfl

theorem previewTimes_eq (now : Clock) (type date : Option String) (n : Nat)
    (rows : List SequenceDoc) :
    previewTimes now type date n rows
      = List.replicate n (preview rows now type date).response := by
  induction n with
  | zero => rfl
  | succ k ih => rw [previewTimes, preview_store, ih, List.replicate_succ]

/-- C5: the preview never changes the store.  For every store state and every
request the Sequence rows after the preview are the rows before it, the stored
counter of every bucket is what it was, and any number of preview requests
with the same type and period, one after the other with no `getNext` in
between, all get the answer of the first. -/
theorem preview_leaves_store_unchanged (rows : List SequenceDoc) (now : Clock)
    (type date : Option String) :
    (preview rows now type date).store = rows ∧
    (∀ t y, storedCounter t y (preview rows now type date).store = storedCounter t y rows) ∧
    ∀ n, previewTimes now type date n rows
      = List.replicate n (preview rows now type date).response := by
  refine ⟨preview_store rows now type date, ?_, fun n => previewTimes_eq now type date n rows⟩
  intro t y
  rw [preview_store]

theorem preview_order (rows : List SequenceDoc) (now : Clock) (date : Option String)
    (yearStr month type seqType code : String)
    (hp : previewPeriod now date = .ok (yearStr, month)) (htype : type ≠ "")
    (hmap : (previewMapping (jsToUpperCase type)).orElse (fun _ => previewMapping type)
      = some ⟨seqType, code⟩)
    (hseq : seqType ≠ "sales_invoice") (hcode : code ≠ "") :
    (preview rows now (some type) date).response
      = .ok (code ++ yearStr ++ month ++ "-" ++
          padStart (toString (storedCounter seqType (some yearStr) rows + 1)) 5 '0') := by
  unfold preview
  simp only [htype, if_false, hmap, hp, hseq, hcode, ne_eq, not_false_eq_true, if_true,
    storedCounter, String.append_assoc]

theorem preview_invoice (rows : List SequenceDoc) (now : Clock) (date : Option String)
    (p : String × String) (type : String)
    (hp : previewPeriod now date = .ok p) (htype : type = "SI" ∨ type = "sales_invoice") :
    (preview rows now (some type) date).response
      = .ok (padStart (toString (storedCounter "sales_invoice" none rows + 1)) 5 '0') := by
  obtain ⟨yearStr, month⟩ := p
  have hmap : (previewMapping (jsToUpperCase type)).orElse (fun _ => previewMapping type)
      = some ⟨"sales_invoice", ""⟩ := by
    rcases htype with rfl | rfl <;> rfl
  have hne : type ≠ "" := by
    rcases htype with rfl | rfl <;> decide
  unfold preview
  simp only [hne, if_false, hmap, hp, if_true, storedCounter]

theorem digitChar_isDigit (m : Nat) (h : m < 10) : (Nat.digitChar m).isDigit = true := by
  interval_cases m <;> rfl

theorem toString_four_digits (n : Nat) (h1 : 1000 ≤ n) (h2 : n ≤ 9999) :
    (toString n).data = [Nat.digitChar (n / 1000 % 10), Nat.digitChar (n / 100 % 10),
      Nat.digitChar (n / 10 % 10), Nat.digitChar (n % 10)] := by
  obtain ⟨k, rfl⟩ : ∃ k, n = k + 3 := ⟨n - 3, by omega⟩
  have e1 : (k + 3) / 10 ≠ 0 := by omega
  have e2 : (k + 3) / 10 / 10 ≠ 0 := by omega
  have e3 : (k + 3) / 10 / 10 / 10 ≠ 0 := by omega
  have e4 : (k + 3) / 10 / 10 / 10 / 10 = 0 := by omega
  have d2 : (k + 3) / 10 / 10 = (k + 3) / 100 := by omega
  have d3 : (k + 3) / 10 / 10 / 10 = (k + 3) / 1000 := by omega
  show (Nat.repr (k + 3)).data = _
  simp only [Nat.repr, Nat.toDigits, Nat.toDigitsCore, e1, e2, e3, e4, if_true, if_false,
    List.asString]
  rw [d3, d2]

theorem monthString_two_digits (m : Nat) (h : m ≤ 11) :
    (padStart (toString (m + 1)) 2 '0').data.length = 2 ∧
      (padStart (toString (m + 1)) 2 '0').data.all Char.isDigit = true := by
  interval_cases m <;> exact ⟨rfl, rfl⟩

theorem previewPeriod_of_clock (now : Clock) (h1 : 1000 ≤ now.fullYear)
    (h2 : now.fullYear ≤ 9999) (h3 : now.month ≤ 11) :
    ∃ y m, previewPeriod now none = .ok (y, m) ∧ (y ++ m).length = 6 ∧
      (y ++ m).data.all Char.isDigit = true := by
  refine ⟨toString now.fullYear, padStart (toString (now.month + 1)) 2 '0', rfl, ?_, ?_⟩
  · rw [String.length_append]
    show (toString now.fullYear).data.length + (padStart _ 2 '0').data.length = 6
    rw [toString_four_digits _ h1 h2, (monthString_two_digits _ h3).1]
    rfl
  · rw [String.data_append, List.all_append, toString_four_digits _ h1 h2,
      (monthString_two_digits _ h3).2]
    have a1 := digitChar_isDigit (now.fullYear / 1000 % 10) (Nat.mod_lt _ (by decide))
    have a2 := digitChar_isDigit (now.fullYear / 100 % 10) (Nat.mod_lt _ (by decide))
    have a3 := digitChar_isDigit (now.fullYear / 10 % 10) (Nat.mod_lt _ (by decide))
    have a4 := digitChar_isDigit (now.fullYear % 10) (Nat.mod_lt _ (by decide))
    simp [a1, a2, a3, a4]

theorem digitChar_of_isDigit (c : Char) (h : c.isDigit = true) :
    c.toNat - 48 < 10 ∧ Nat.digitChar (c.toNat - 48) = c := by
  have hb : 48 ≤ c.toNat ∧ c.toNat ≤ 57 := by
    simp only [Char.isDigit, Bool.and_eq_true, decide_eq_true_eq] at h
    exact ⟨h.1, h.2⟩
  have hc : c = Char.ofNat c.toNat := (Char.ofNat_toNat c).symm
  refine ⟨by omega, ?_⟩
  obtain ⟨k, hk, hk2⟩ : ∃ k, c.toNat = k + 48 ∧ k < 10 := ⟨c.toNat - 48, by omega, by omega⟩
  have hck : c = Char.ofNat (k + 48) := by rw [← hk]; exact hc
  rw [hk, hck]
  interval_cases k <;> rfl

theorem digit_not_special (c : Char) (h : c.isDigit = true) :
    jsIsBlank c = false ∧ c ≠ '-' ∧ c ≠ '+' ∧ (c ≠ '0' → c.toNat - 48 ≠ 0) := by
  have hb : 48 ≤ c.toNat ∧ c.toNat ≤ 57 := by
    simp only [Char.isDigit, Bool.and_eq_true, decide_eq_true_eq] at h
    exact ⟨h.1, h.2⟩
  have hc : c = Char.ofNat c.toNat := (Char.ofNat_toNat c).symm
  obtain ⟨k, hk, hk2⟩ : ∃ k, c.toNat = k + 48 ∧ k < 10 := ⟨c.toNat - 48, by omega, by omega⟩
  have hck : c = Char.ofNat (k + 48) := by rw [← hk]; exact hc
  subst hck
  interval_cases k <;> decide

theorem digitsValue_four (c1 c2 c3 c4 : Char)
    (h1 : c1.isDigit = true) (h2 : c2.isDigit = true) (h3 : c3.isDigit = true)
    (h4 : c4.isDigit = true) :
    digitsValue [c1, c2, c3, c4] 0
      = (c1.toNat - 48) * 1000 + (c2.toNat - 48) * 100 + (c3.toNat - 48) * 10
          + (c4.toNat - 48) := by
  simp only [digitsValue, h1, h2, h3, h4, if_true]
  ring

theorem previewPeriod_of_date (now : Clock) (c1 c2 c3 c4 c5 c6 : Char)
    (h1 : c1.isDigit = true) (h2 : c2.isDigit = true) (h3 : c3.isDigit = true)
    (h4 : c4.isDigit = true) (h0 : c1 ≠ '0') :
    previewPeriod now (some (String.mk [c1, c2, c3, c4, c5, c6]))
      = .ok (String.mk [c1, c2, c3, c4], String.mk [c5, c6]) := by
  obtain ⟨b1, e1⟩ := digitChar_of_isDigit c1 h1
  obtain ⟨b2, e2⟩ := digitChar_of_isDigit c2 h2
  obtain ⟨b3, e3⟩ := digitChar_of_isDigit c3 h3
  obtain ⟨b4, e4⟩ := digitChar_of_isDigit c4 h4
  obtain ⟨n1, n2, n3, n4⟩ := digit_not_special c1 h1
  have hz := n4 h0
  have hparse : jsParseInt10 (String.mk [c1, c2, c3, c4])
      = some ((digitsValue [c1, c2, c3, c4] 0 : Nat) : Int) := by
    simp [jsParseInt10, List.dropWhile, n1, n2, n3, h1]
  have hyear : jsNumberToString (jsParseInt10 (String.mk [c1, c2, c3, c4]))
      = String.mk [c1, c2, c3, c4] := by
    rw [hparse, digitsValue_four c1 c2 c3 c4 h1 h2 h3 h4]
    apply String.ext
    show (toString ((c1.toNat - 48) * 1000 + (c2.toNat - 48) * 100 + (c3.toNat - 48) * 10
          + (c4.toNat - 48))).data = _
    rw [toString_four_digits _ (by omega) (by omega)]
    have q1 : ((c1.toNat - 48) * 1000 + (c2.toNat - 48) * 100 + (c3.toNat - 48) * 10
          + (c4.toNat - 48)) / 1000 % 10 = c1.toNat - 48 := by omega
    have q2 : ((c1.toNat - 48) * 1000 + (c2.toNat - 48) * 100 + (c3.toNat - 48) * 10
          + (c4.toNat - 48)) / 100 % 10 = c2.toNat - 48 := by omega
    have q3 : ((c1.toNat - 48) * 1000 + (c2.toNat - 48) * 100 + (c3.toNat - 48) * 10
          + (c4.toNat - 48)) / 10 % 10 = c3.toNat - 48 := by omega
    have q4 : ((c1.toNat - 48) * 1000 + (c2.toNat - 48) * 100 + (c3.toNat - 48) * 10
          + (c4.toNat - 48)) % 10 = c4.toNat - 48 := by omega
    rw [q1, q2, q3, q4, e1, e2, e3, e4]
  have hne : String.mk [c1, c2, c3, c4, c5, c6] ≠ "" := by
    intro h
    have hl : (String.mk [c1, c2, c3, c4, c5, c6]).length = "".length := congrArg String.length h
    have h6 : (String.mk [c1, c2, c3, c4, c5, c6]).length = 6 := rfl
    have h00 : "".length = 0 := rfl
    omega
  have hlen : (String.mk [c1, c2, c3, c4, c5, c6]).length = 6 := rfl
  have hs1 : jsSlice (String.mk [c1, c2, c3, c4, c5, c6]) 0 4 = String.mk [c1, c2, c3, c4] := rfl
  have hs2 : jsSlice (String.mk [c1, c2, c3, c4, c5, c6]) 4 6 = String.mk [c5, c6] := rfl
  simp only [previewPeriod, hne, if_false, hlen, if_true, hs1, hs2, hyear]

/-- C7, as the claim states it, fails: for a `sales_invoice` row with the
schema's default padding 4 and counter 3 the preview answers `00004` while the
next `getNext('sales_invoice', {padding: 5})` on the same rows returns `0004`. -/
theorem preview_getNext_mismatch_counterexample :
    (preview [⟨none, "sales_invoice", "", 3, 4⟩] ⟨2025, 10⟩ (some "sales_invoice")
        none).response = .ok "00004" ∧
    (getNext memStore "sales_invoice" { padding := 5 }
        [⟨none, "sales_invoice", "", 3, 4⟩]).result = .ok "0004" :=
  ⟨rfl, rfl⟩

/-- C7 (amended): for every store state in which the `sales_invoice` row is
absent or stores an empty prefix and a padding of 5 (or 0), and every request
whose `date` parameter is well formed, the sales invoice preview is the string
the next `getNext('sales_invoice', {padding: 5})` returns on the same store. -/
theorem preview_invoice_agrees_with_getNext (rows : List SequenceDoc) (now : Clock)
    (date : Option String) (p : String × String) (hp : previewPeriod now date = .ok p)
    (hrow : ∀ d, findOne "sales_invoice" none rows = some d →
      d.pfx = "" ∧ (d.padding = 5 ∨ d.padding = 0)) :
    ∃ v, (preview rows now (some "sales_invoice") date).response = .ok v ∧
      (getNext memStore "sales_invoice" { padding := 5 } rows).result = .ok v := by
  refine ⟨_, preview_invoice rows now date p "sales_invoice" hp (Or.inr rfl), ?_⟩
  cases h : findOne "sales_invoice" none rows with
  | none =>
    have h0 : findOne "sales_invoice" ({ padding := 5 } : GetNextOpts).year rows = none := h
    rw [getNext_memStore_absent h0]
    simp [formatNumber, insertedRow, storedCounter, h]
  | some d =>
    have h0 : findOne "sales_invoice" ({ padding := 5 } : GetNextOpts).year rows = some d := h
    obtain ⟨rows1, h1, _, _⟩ := getNext_memStore_existing h0
    obtain ⟨hpfx, hpad⟩ := hrow d h
    rw [h1]
    rcases hpad with hpad | hpad <;> simp [formatNumber, storedCounter, h, hpfx, hpad]

/-- Witness for C7 (amended): a `sales_invoice` row with empty prefix, padding 5
and counter 3; preview and allocation both give `00004`. -/
theorem preview_invoice_agrees_with_getNext_witness :
    ∃ v, (preview [⟨none, "sales_invoice", "", 3, 5⟩] ⟨2025, 10⟩ (some "sales_invoice")
        none).response = .ok v ∧
      (getNext memStore "sales_invoice" { padding := 5 }
        [⟨none, "sales_invoice", "", 3, 5⟩]).result = .ok v :=
  preview_invoice_agrees_with_getNext [⟨none, "sales_invoice", "", 3, 5⟩] ⟨2025, 10⟩ none
    ("2025", "11") rfl (by
      intro d hd
      have hd2 : d = ⟨none, "sales_invoice", "", 3, 5⟩ := by
        have : findOne "sales_invoice" none [⟨none, "sales_invoice", "", 3, 5⟩]
            = some ⟨none, "sales_invoice", "", 3, 5⟩ := rfl
        rw [this] at hd
        exact (Option.some.inj hd).symm
      subst hd2
      exact ⟨rfl, Or.inl rfl⟩)

/-! ## Transaction orchestrator -/

theorem withTransactionSession_error {α : Type} (fn : Db → Db → Except ServiceError (α × Db))
    (db : Db) (err : ServiceError) (h : fn db db = .error err) :
    withTransactionSession fn db = (.error err, db) := by
  simp [withTransactionSession, h]

theorem withTransactionSession_ok {α : Type} (fn : Db → Db → Except ServiceError (α × Db))
    (db : Db) (result : α) (working : Db) (h : fn db db = .ok (result, working)) :
    withTransactionSession fn db = (.ok result, working) := by
  simp [withTransactionSession, h]

theorem withTransactionSession_unchanged {α : Type}
    (fn : Db → Db → Except ServiceError (α × Db)) (db : Db) (err : ServiceError)
    (h : (withTransactionSession fn db).1 = .error err) :
    (withTransactionSession fn db).2 = db ∧ fn db db = .error err := by
  cases hfn : fn db db with
  | error e =>
    rw [withTransactionSession_error fn db e hfn] at h ⊢
    exact ⟨rfl, by simpa using h⟩
  | ok r =>
    rw [withTransactionSession_ok fn db r.1 r.2 hfn] at h
    cases h

theorem isProcessed_iff (status : String) :
    isProcessed status = true ↔
      (status = "APPROVED" ∨ status = "REJECTED" ∨ status = "CANCELLED" ∨
        status = "PAID" ∨ status = "PARTIAL") := by
  simp [isProcessed, or_assoc]

theorem validateAction_error_iff (type action status : String) :
    (∃ e, validateAction type action status = .error e) ↔
      (¬(action = "approve" ∨ action = "reject" ∨ action = "cancel") ∨
        isProcessed status = true) := by
  by_cases ha : action = "approve" ∨ action = "reject" ∨ action = "cancel"
  · by_cases hp : isProcessed status = true
    · rcases ha with rfl | rfl | rfl <;> simp [validateAction, hp]
    · rcases ha with rfl | rfl | rfl <;> simp [validateAction, hp]
  · simp only [not_or] at ha
    simp [validateAction, ha.1, ha.2.1, ha.2.2]

theorem validateAction_ok_iff (type action status : String) :
    validateAction type action status = .ok () ↔
      ((action = "approve" ∨ action = "reject" ∨ action = "cancel") ∧
        isProcessed status = false) := by
  by_cases ha : action = "approve" ∨ action = "reject" ∨ action = "cancel"
  · by_cases hp : isProcessed status = true
    · rcases ha with rfl | rfl | rfl <;> simp [validateAction, hp]
    · rcases ha with rfl | rfl | rfl <;> simp [validateAction, hp]
  · simp only [not_or] at ha
    simp [validateAction, ha.1, ha.2.1, ha.2.2]

theorem processTransactionBody_invalid {now : JsDate} {id action createdBy : String}
    {committed db : Db} {t : Transaction} {e : ServiceError}
    (hfound : findTransactionById db id = some t)
    (hv : validateAction t.type action t.status = .error e) :
    processTransactionBody now id action createdBy committed db = .error e := by
  simp [processTransactionBody, hfound, hv]

theorem processTransactionBody_approve {now : JsDate} {id createdBy : String}
    {committed db : Db} {t : Transaction}
    (hfound : findTransactionById db id = some t)
    (hv : validateAction t.type "approve" t.status = .ok ()) :
    processTransactionBody now id "approve" createdBy committed db =
      match approveEffects committed id t createdBy db with
      | .error err => .error err
      | .ok db1 =>
        .ok (updateTransactionStatus t "approve",
             saveTransaction (updateTransactionStatus t "approve") db1) := by
  simp only [processTransactionBody, hfound, hv]
  cases approveEffects committed id t createdBy db <;> simp

theorem processTransactionBody_reject {now : JsDate} {id createdBy : String}
    {committed db : Db} {t : Transaction}
    (hfound : findTransactionById db id = some t)
    (hv : validateAction t.type "reject" t.status = .ok ()) :
    processTransactionBody now id "reject" createdBy committed db =
      .ok (updateTransactionStatus t "reject",
           saveTransaction (updateTransactionStatus t "reject")
             (if t.type = "purchase_order" then
                setPurchaseLogStatus db t.transactionNo "REJECTED"
              else db)) := by
  simp [processTransactionBody, hfound, hv]

theorem processTransactionBody_cancel {now : JsDate} {id createdBy : String}
    {committed db : Db} {t : Transaction}
    (hfound : findTransactionById db id = some t)
    (hv : validateAction t.type "cancel" t.status = .ok ()) :
    processTransactionBody now id "cancel" createdBy committed db =
      .ok (updateTransactionStatus t "cancel",
           saveTransaction (updateTransactionStatus t "cancel")
             (if t.type = "purchase_order" then
                setPurchaseLogStatus db t.transactionNo "CANCELLED"
              else db)) := by
  have hnp : isProcessed t.status = false := ((validateAction_ok_iff _ _ _).mp hv).2
  have hna : t.status ≠ "APPROVED" := by
    intro h
    rw [h] at hnp
    exact absurd hnp (by decide)
  simp only [processTransactionBody, hfound, hv, cancelEffects]
  by_cases hpo : t.type = "purchase_order" <;> simp [hna, hpo]

theorem processTransaction_of_invalid {now : JsDate} {id action createdBy : String}
    {db : Db} {t : Transaction} {e : ServiceError}
    (hfound : findTransactionById db id = some t)
    (hv : validateAction t.type action t.status = .error e) :
    processTransaction now id action createdBy db = (.error e, db) :=
  withTransactionSession_error _ db e (processTransactionBody_invalid hfound hv)

/-- On a found transaction `processTransaction` fails exactly when the action
or the status is refused, or the action is approve and a step of the approval
fails. -/
theorem processTransaction_error_iff {now : JsDate} {id action createdBy : String}
    {db : Db} {t : Transaction} (hfound : findTransactionById db id = some t) :
    (∃ e, (processTransaction now id action createdBy db).1 = .error e) ↔
      ((∃ e, validateAction t.type action t.status = .error e) ∨
        (action = "approve" ∧ ∃ e, approveEffects db id t createdBy db = .error e)) := by
  cases hv : validateAction t.type action t.status with
  | error e =>
    rw [processTransaction_of_invalid hfound hv]
    exact ⟨fun _ => Or.inl ⟨e, rfl⟩, fun _ => ⟨e, rfl⟩⟩
  | ok u =>
    cases u
    have hvalid := ((validateAction_ok_iff _ _ _).mp hv).1
    have hno : ¬ ∃ e, (Except.ok () : Except ServiceError Unit) = .error e := by
      rintro ⟨e, he⟩
      cases he
    rcases hvalid with rfl | rfl | rfl
    · cases ha : approveEffects db id t createdBy db with
      | error e =>
        have hb : processTransactionBody now id "approve" createdBy db db = .error e := by
          rw [processTransactionBody_approve hfound hv, ha]
        rw [processTransaction, withTransactionSession_error _ db e hb]
        exact ⟨fun _ => Or.inr ⟨rfl, e, rfl⟩, fun _ => ⟨e, rfl⟩⟩
      | ok db1 =>
        have hb : processTransactionBody now id "approve" createdBy db db
            = .ok (updateTransactionStatus t "approve",
                   saveTransaction (updateTransactionStatus t "approve") db1) := by
          rw [processTransactionBody_approve hfound hv, ha]
        rw [processTransaction, withTransactionSession_ok _ db _ _ hb]
        constructor
        · rintro ⟨e, he⟩
          cases he
        · rintro (h | ⟨_, e, he⟩)
          · exact absurd h hno
          · cases he
    · rw [processTransaction,
        withTransactionSession_ok _ db _ _ (processTransactionBody_reject hfound hv)]
      constructor
      · rintro ⟨e, he⟩
        cases he
      · rintro (h | ⟨h, _⟩)
        · exact absurd h hno
        · exact absurd h (by decide)
    · rw [processTransaction,
        withTransactionSession_ok _ db _ _ (processTransactionBody_cancel hfound hv)]
      constructor
      · rintro ⟨e, he⟩
        cases he
      · rintro (h | ⟨h, _⟩)
        · exact absurd h hno
        · exact absurd h (by decide)

/-- C9, as the claim states it, fails: the sample order is in status DRAFT and
the action is approve, so neither the action nor the status is refused, yet
`processTransaction` fails, because the vendor of the order does not exist. -/
theorem processTransaction_fails_on_valid_input_counterexample :
    findTransactionById (sampleDb "DRAFT" []) "t1" = some (sampleOrder "DRAFT") ∧
    validateAction (sampleOrder "DRAFT").type "approve" (sampleOrder "DRAFT").status = .ok () ∧
    isProcessed (sampleOrder "DRAFT").status = false ∧
    (processTransaction sampleDate "t1" "approve" "u" (sampleDb "DRAFT" [])).1
      = .error (.app "Vendor not found" 404) :=
  ⟨rfl, rfl, rfl, by with_unfolding_all rfl⟩

/-- C9 (amended): on a found transaction, `validateAction` refuses exactly when
the action is not one of approve, reject, cancel or the status is one of
APPROVED, REJECTED, CANCELLED, PAID, PARTIAL, and `processTransaction` then
fails with that error; apart from this `processTransaction` fails only when
the action is approve and a step of the approval fails; and whenever it fails
the stored state, with the transaction's status and every stock level, party
balance, ledger entry and movement, is unchanged. -/
theorem processTransaction_failure (now : JsDate) (id action createdBy : String) (db : Db)
    (t : Transaction) (hfound : findTransactionById db id = some t) :
    ((∃ e, validateAction t.type action t.status = .error e) ↔
      (¬(action = "approve" ∨ action = "reject" ∨ action = "cancel") ∨
        (t.status = "APPROVED" ∨ t.status = "REJECTED" ∨ t.status = "CANCELLED" ∨
          t.status = "PAID" ∨ t.status = "PARTIAL"))) ∧
    (∀ e, validateAction t.type action t.status = .error e →
      processTransaction now id action createdBy db = (.error e, db)) ∧
    ((∃ e, (processTransaction now id action createdBy db).1 = .error e) ↔
      ((∃ e, validateAction t.type action t.status = .error e) ∨
        (action = "approve" ∧ ∃ e, approveEffects db id t createdBy db = .error e))) ∧
    (∀ e, (processTransaction now id action createdBy db).1 = .error e →
      (processTransaction now id action createdBy db).2 = db) := by
  refine ⟨?_, fun e hv => processTransaction_of_invalid hfound hv,
    processTransaction_error_iff hfound,
    fun e h => (withTransactionSession_unchanged _ db e h).1⟩
  rw [validateAction_error_iff, isProcessed_iff]

/-- Witness for C9 (amended): approving the sample order once it is APPROVED is
refused, and the store is unchanged. -/
theorem processTransaction_failure_witness :
    findTransactionById (sampleDb "APPROVED" [sampleVendor]) "t1"
      = some (sampleOrder "APPROVED") ∧
    processTransaction sampleDate "t1" "approve" "u" (sampleDb "APPROVED" [sampleVendor])
      = (.error (.app "Transaction already processed with status 'APPROVED'" 400),
         sampleDb "APPROVED" [sampleVendor]) :=
  ⟨rfl, (processTransaction_failure sampleDate "t1" "approve" "u"
    (sampleDb "APPROVED" [sampleVendor]) (sampleOrder "APPROVED") rfl).2.1 _ rfl⟩

/-- C10 on the code: for every found transaction whose status is APPROVED,
`processTransaction` with action cancel is refused by `validateAction` as
already processed; the reversal steps do not run and the stored state, the
status APPROVED included, is unchanged. -/
theorem cancel_of_approved_is_refused (now : JsDate) (id createdBy : String) (db : Db)
    (t : Transaction) (hfound : findTransactionById db id = some t)
    (hstatus : t.status = "APPROVED") :
    processTransaction now id "cancel" createdBy db
      = (.error (.app "Transaction already processed with status 'APPROVED'" 400), db) := by
  apply processTransaction_of_invalid hfound
  rw [hstatus]
  rfl

/-- Witness for C10: cancelling the APPROVED sample order fails and leaves the
order APPROVED, with no movement and no ledger entry written. -/
theorem cancel_of_approved_is_refused_witness :
    findTransactionById (sampleDb "APPROVED" [sampleVendor]) "t1"
      = some (sampleOrder "APPROVED") ∧
    (sampleOrder "APPROVED").status = "APPROVED" ∧
    processTransaction sampleDate "t1" "cancel" "u" (sampleDb "APPROVED" [sampleVendor])
      = (.error (.app "Transaction already processed with status 'APPROVED'" 400),
         sampleDb "APPROVED" [sampleVendor]) :=
  ⟨rfl, rfl, cancel_of_approved_is_refused sampleDate "t1" "u"
    (sampleDb "APPROVED" [sampleVendor]) (sampleOrder "APPROVED") rfl rfl⟩

/-! ## Party ledger -/

theorem find?_updateFirst {α : Type} (p : α → Bool) (f : α → α) (hf : ∀ x, p (f x) = p x)
    (l : List α) : (updateFirst p f l).find? p = (l.find? p).map f := by
  induction l with
  | nil => rfl
  | cons x xs ih =>
    by_cases hx : p x = true
    · simp [updateFirst, hx, List.find?, hf]
    · simp [updateFirst, hx, List.find?, ih]

theorem findParty_setCashBalance (isVendor : Bool) (partyId : String) (newBalance : ℚ)
    (db : Db) :
    findParty isVendor partyId (setCashBalance isVendor partyId newBalance db)
      = (findParty isVendor partyId db).map (fun p => { p with cashBalance := newBalance }) := by
  cases isVendor
  · simp only [findParty, setCashBalance, Bool.false_eq_true, if_false]
    exact find?_updateFirst (fun p : Party => decide (p._id = partyId))
      (fun p => { p with cashBalance := newBalance }) (fun _ => rfl) _
  · simp only [findParty, setCashBalance, if_true]
    exact find?_updateFirst (fun p : Party => decide (p._id = partyId))
      (fun p => { p with cashBalance := newBalance }) (fun _ => rfl) _

theorem ledgerOf_setCashBalance (isVendor which : Bool) (partyId : String) (newBalance : ℚ)
    (db : Db) :
    ledgerOf which (setCashBalance isVendor partyId newBalance db) = ledgerOf which db := by
  cases isVendor <;> cases which <;> rfl

/-- What `LogModel.create` does: it fails on an entry its schema refuses, and
otherwise appends the entry to its ledger and changes nothing else. -/
theorem createLog_ok_iff (isVendor : Bool) (entry : LedgerEntry) (db db1 : Db) :
    createLog isVendor entry db = .ok db1 ↔
      ((if isVendor then validDebitLog entry else validCreditLog entry) = true ∧
        db1 = (if isVendor then { db with debitLogs := db.debitLogs ++ [entry] }
               else { db with creditLogs := db.creditLogs ++ [entry] })) := by
  cases isVendor
  · by_cases hv : validCreditLog entry = true
    · simp [createLog, hv, eq_comm]
    · simp [createLog, hv]
  · by_cases hv : validDebitLog entry = true
    · simp [createLog, hv, eq_comm]
    · simp [createLog, hv]

theorem createLog_appends {isVendor : Bool} {entry : LedgerEntry} {db db1 : Db}
    (h : createLog isVendor entry db = .ok db1) :
    ledgerOf isVendor db1 = ledgerOf isVendor db ++ [entry] ∧
      ledgerOf (!isVendor) db1 = ledgerOf (!isVendor) db ∧
      db1.vendors = db.vendors ∧ db1.customers = db.customers := by
  obtain ⟨_, rfl⟩ := (createLog_ok_iff isVendor entry db db1).mp h
  cases isVendor <;> exact ⟨rfl, rfl, rfl, rfl⟩

theorem updatePartyBalanceAndLog_eq {transaction : Transaction} {createdBy : String}
    {db : Db} {effect : ℚ} {party : Party}
    (heffect : balanceEffect transaction.type transaction.totalAmount = some effect)
    (hparty : findParty (decide (transaction.partyType = "Vendor")) transaction.partyId db
      = some party) :
    updatePartyBalanceAndLog transaction createdBy db =
      createLog (decide (transaction.partyType = "Vendor"))
        (approvalLogEntry transaction createdBy effect (jsAdd party.cashBalance effect))
        (setCashBalance (decide (transaction.partyType = "Vendor")) transaction.partyId
          (jsAdd party.cashBalance effect) db) := by
  simp [updatePartyBalanceAndLog, heffect, hparty, approvalLogEntry]

theorem reversePartyBalanceAndLog_eq {now : JsDate} {transaction : Transaction}
    {createdBy : String} {db : Db} {effect : ℚ} {party : Party}
    (heffect : reverseEffect transaction.type transaction.totalAmount = some effect)
    (hparty : findParty (decide (transaction.partyType = "Vendor")) transaction.partyId db
      = some party) :
    reversePartyBalanceAndLog now transaction createdBy db =
      createLog (decide (transaction.partyType = "Vendor"))
        (reversalLogEntry now transaction createdBy (jsAdd party.cashBalance effect))
        (setCashBalance (decide (transaction.partyType = "Vendor")) transaction.partyId
          (jsAdd party.cashBalance effect) db) := by
  simp [reversePartyBalanceAndLog, heffect, hparty, reversalLogEntry]

theorem balanceEffect_table (type : String) (totalAmount : ℚ) :
    balanceEffect type totalAmount =
      if type = "purchase_order" ∨ type = "sales_return" then some totalAmount
      else if type = "sales_order" ∨ type = "purchase_return" then some (-totalAmount)
      else none := by
  unfold balanceEffect
  by_cases h1 : type = "purchase_order"
  · simp [h1]
  · by_cases h2 : type = "purchase_return"
    · simp [h2]
    · by_cases h3 : type = "sales_order"
      · simp [h3]
      · by_cases h4 : type = "sales_return"
        · simp [h4]
        · simp [h1, h2, h3, h4]

/-- C11 on the code: the reversal table repeats the approval's delta for the
sales types instead of negating it (it negates for the purchase types), and
the entry the reversal writes is refused by the ledger schema.  For the sample
sales order of total 100 and a customer balance of 0, approval brings the
balance to -100; the reversal then computes -200, not 0, and fails on the
CreditLog validation, so the balance does not return to 0. -/
theorem reversal_does_not_restore_sales_balance :
    (∀ total, reverseEffect "sales_order" total = balanceEffect "sales_order" total) ∧
    (∀ total, reverseEffect "sales_return" total = balanceEffect "sales_return" total) ∧
    (∀ total, balanceEffect "purchase_order" total = some total ∧
      reverseEffect "purchase_order" total = some (-total)) ∧
    (∀ total, balanceEffect "purchase_return" total = some (-total) ∧
      reverseEffect "purchase_return" total = some total) ∧
    (∃ db1, updatePartyBalanceAndLog (sampleSalesOrder false none none) "u"
        (sampleSalesDb (sampleSalesOrder false none none)) = .ok db1 ∧
      findParty false "c1" db1 = some { sampleCustomer with cashBalance := -100 } ∧
      reversePartyBalanceAndLog sampleDate (sampleSalesOrder false none none) "u" db1
        = createLog false
            (reversalLogEntry sampleDate (sampleSalesOrder false none none) "u" (-200))
            (setCashBalance false "c1" (-200) db1) ∧
      reversePartyBalanceAndLog sampleDate (sampleSalesOrder false none none) "u" db1
        = .error (.validation "CreditLog validation failed")) := by
  refine ⟨fun _ => rfl, fun _ => rfl, fun _ => ⟨rfl, rfl⟩, fun _ => ⟨rfl, rfl⟩, ?_⟩
  refine ⟨_, by with_unfolding_all rfl, by with_unfolding_all rfl, by with_unfolding_all rfl,
    by with_unfolding_all rfl⟩

/-- C12: `updatePartyBalanceAndLog` takes its delta from the type: +totalAmount
for purchase_order and sales_return, -totalAmount for sales_order and
purchase_return.  When the party exists and the entry passes its ledger schema
the call succeeds, the party's cashBalance is the old one plus the delta, and
exactly one entry is appended, whose amount is the delta and whose balance is
the new cashBalance; every successful call on a recognised type has this shape.
For every other type the call returns the store unchanged, without an error. -/
theorem updatePartyBalanceAndLog_effect (t : Transaction) (createdBy : String) (db : Db) :
    (balanceEffect t.type t.totalAmount =
      if t.type = "purchase_order" ∨ t.type = "sales_return" then some t.totalAmount
      else if t.type = "sales_order" ∨ t.type = "purchase_return" then some (-t.totalAmount)
      else none) ∧
    (∀ effect party, balanceEffect t.type t.totalAmount = some effect →
      findParty (decide (t.partyType = "Vendor")) t.partyId db = some party →
      (if decide (t.partyType = "Vendor") = true
        then validDebitLog (approvalLogEntry t createdBy effect (jsAdd party.cashBalance effect))
        else validCreditLog (approvalLogEntry t createdBy effect (jsAdd party.cashBalance effect)))
        = true →
      ∃ db1, updatePartyBalanceAndLog t createdBy db = .ok db1) ∧
    (∀ effect db1, balanceEffect t.type t.totalAmount = some effect →
      updatePartyBalanceAndLog t createdBy db = .ok db1 →
      ∃ party entry, findParty (decide (t.partyType = "Vendor")) t.partyId db = some party ∧
        findParty (decide (t.partyType = "Vendor")) t.partyId db1
          = some { party with cashBalance := jsAdd party.cashBalance effect } ∧
        ledgerOf (decide (t.partyType = "Vendor")) db1
          = ledgerOf (decide (t.partyType = "Vendor")) db ++ [entry] ∧
        ledgerOf (!decide (t.partyType = "Vendor")) db1
          = ledgerOf (!decide (t.partyType = "Vendor")) db ∧
        entry.amount = effect ∧ entry.balance = jsAdd party.cashBalance effect) ∧
    (balanceEffect t.type t.totalAmount = none →
      updatePartyBalanceAndLog t createdBy db = .ok db) := by
  refine ⟨balanceEffect_table _ _, ?_, ?_, ?_⟩
  · intro effect party heffect hparty hvalid
    rw [updatePartyBalanceAndLog_eq heffect hparty]
    exact ⟨_, (createLog_ok_iff _ _ _ _).mpr ⟨hvalid, rfl⟩⟩
  · intro effect db1 heffect hok
    cases hparty : findParty (decide (t.partyType = "Vendor")) t.partyId db with
    | none => simp [updatePartyBalanceAndLog, heffect, hparty] at hok
    | some party =>
      rw [updatePartyBalanceAndLog_eq heffect hparty] at hok
      obtain ⟨h1, h2, h3, h4⟩ := createLog_appends hok
      refine ⟨party, approvalLogEntry t createdBy effect (jsAdd party.cashBalance effect),
        rfl, ?_, ?_, ?_, rfl, rfl⟩
      · have hfp : ∀ (v : Bool) (d1 d2 : Db), d1.vendors = d2.vendors →
            d1.customers = d2.customers → findParty v t.partyId d1 = findParty v t.partyId d2 := by
          intro v d1 d2 hv hc
          simp [findParty, hv, hc]
        rw [hfp _ db1 _ h3 h4, findParty_setCashBalance, hparty]
        rfl
      · rw [h1, ledgerOf_setCashBalance]
      · rw [h2, ledgerOf_setCashBalance]
  · intro hnone
    simp [updatePartyBalanceAndLog, hnone]

/-- Witness for C12: approving the sample purchase order (total 52.5) of the
sample vendor (balance 100) succeeds. -/
theorem updatePartyBalanceAndLog_effect_witness :
    balanceEffect (sampleOrder "DRAFT").type (sampleOrder "DRAFT").totalAmount
      = some (105 / 2) ∧
    findParty (decide ((sampleOrder "DRAFT").partyType = "Vendor"))
      (sampleOrder "DRAFT").partyId (sampleDb "DRAFT" [sampleVendor]) = some sampleVendor ∧
    ∃ db1, updatePartyBalanceAndLog (sampleOrder "DRAFT") "u" (sampleDb "DRAFT" [sampleVendor])
      = .ok db1 :=
  ⟨rfl, rfl,
   (updatePartyBalanceAndLog_effect (sampleOrder "DRAFT") "u"
      (sampleDb "DRAFT" [sampleVendor])).2.1 (105 / 2) sampleVendor rfl rfl
      (by with_unfolding_all rfl)⟩

/-! ## Inventory effect -/

theorem find?_updateFirst_other {α : Type} (p q : α → Bool) (f : α → α)
    (hpq : ∀ x, p x = true → q x = false ∧ q (f x) = false) (l : List α) :
    (updateFirst p f l).find? q = l.find? q := by
  induction l with
  | nil => rfl
  | cons x xs ih =>
    by_cases hx : p x = true
    · simp [updateFirst, hx, List.find?, (hpq x hx).1, (hpq x hx).2]
    · by_cases hq : q x = true
      · simp [updateFirst, hx, List.find?, hq]
      · simp [updateFirst, hx, List.find?, hq, ih]

/-- One line of `processTransactionStock` whose stock lookup succeeds: the
stock document is rewritten, one movement is appended, nothing else changes. -/
theorem processItemStock_eq {committed : Db} {transactionId type transactionNo createdBy : String}
    {item : Item} {db : Db} {stock : Stock}
    (hstock : getStockByItemId committed item.itemId = .ok stock) :
    processItemStock committed transactionId type transactionNo createdBy item db =
      .ok { db with
        stocks := updateFirst (fun s => s._id = stock._id)
          (fun s => { s with
            currentStock := jsAdd stock.currentStock (getQuantityChange type item.qty),
            purchasePrice := toFixed2 (newPurchasePrice type stock item) }) db.stocks,
        movements := db.movements ++
          [approvalMovement transactionId type transactionNo createdBy item stock
            (toString db.nextId)],
        nextId := db.nextId + 1 } := by
  simp only [processItemStock, hstock]
  rfl

theorem processItemStock_error {committed : Db}
    {transactionId type transactionNo createdBy : String} {item : Item} {db : Db}
    {err : ServiceError}
    (h : processItemStock committed transactionId type transactionNo createdBy item db
      = .error err) :
    getStockByItemId committed item.itemId = .error err ∧
      err = .app "Stock item not found" 404 := by
  cases hstock : getStockByItemId committed item.itemId with
  | ok stock => rw [processItemStock_eq hstock] at h; cases h
  | error e =>
    have he : processItemStock committed transactionId type transactionNo createdBy item db
        = .error e := by simp [processItemStock, hstock]
    rw [he] at h
    cases h
    refine ⟨rfl, ?_⟩
    unfold getStockByItemId at hstock
    split at hstock
    · cases hstock
    · cases hstock; rfl

theorem processItemsStock_ok {committed : Db}
    {transactionId type transactionNo createdBy : String} (items : List Item)
    (hall : ∀ item ∈ items, ∃ stock, getStockByItemId committed item.itemId = .ok stock)
    (db : Db) :
    ∃ db1, processItemsStock committed transactionId type transactionNo createdBy items db
      = .ok db1 := by
  induction items generalizing db with
  | nil => exact ⟨db, rfl⟩
  | cons item rest ih =>
    obtain ⟨stock, hstock⟩ := hall item (List.mem_cons_self _ _)
    simp only [processItemsStock, processItemStock_eq hstock]
    exact ih (fun i hi => hall i (List.mem_cons_of_mem _ hi)) _

theorem processItemsStock_error {committed : Db}
    {transactionId type transactionNo createdBy : String} (items : List Item) (db : Db)
    (err : ServiceError)
    (h : processItemsStock committed transactionId type transactionNo createdBy items db
      = .error err) :
    err = .app "Stock item not found" 404 ∧
      ∃ item ∈ items, getStockByItemId committed item.itemId = .error err := by
  induction items generalizing db with
  | nil => simp [processItemsStock] at h
  | cons item rest ih =>
    cases hstep : processItemStock committed transactionId type transactionNo createdBy item db
      with
    | error e =>
      simp only [processItemsStock, hstep] at h
      cases h
      obtain ⟨h1, h2⟩ := processItemStock_error hstep
      exact ⟨h2, item, List.mem_cons_self _ _, h1⟩
    | ok db1 =>
      simp only [processItemsStock, hstep] at h
      obtain ⟨h1, i, hi, h2⟩ := ih db1 h
      exact ⟨h1, i, List.mem_cons_of_mem _ hi, h2⟩

theorem find?_of_nodup_map {α β : Type} [DecidableEq β] (key : α → β) (l : List α)
    (hnodup : (l.map key).Nodup) (x : α) (hx : x ∈ l) :
    l.find? (fun y => key y = key x) = some x := by
  induction l with
  | nil => cases hx
  | cons y ys ih =>
    rw [List.map_cons, List.nodup_cons] at hnodup
    rcases List.mem_cons.mp hx with rfl | hmem
    · simp [List.find?]
    · have hne : key y ≠ key x := by
        intro h
        exact hnodup.1 (h ▸ List.mem_map_of_mem key hmem)
      simp [List.find?, hne, ih hnodup.2 hmem]

theorem getStockByItemId_mem {committed : Db} {itemId : String} {stock : Stock}
    (h : getStockByItemId committed itemId = .ok stock) :
    stock ∈ committed.stocks ∧ stock.itemId = itemId := by
  unfold getStockByItemId at h
  split at h
  · rename_i found hfound
    cases h
    exact ⟨List.mem_of_find?_eq_some hfound, by simpa using List.find?_some hfound⟩
  · cases h

theorem getQuantityChange_table (type : String) (qty : ℚ) :
    getQuantityChange type qty =
      if type = "purchase_order" ∨ type = "sales_return" then qty
      else if type = "sales_order" ∨ type = "purchase_return" then -qty
      else 0 := by
  unfold getQuantityChange
  by_cases h1 : type = "purchase_order"
  · simp [h1]
  · by_cases h2 : type = "sales_order"
    · simp [h2]
    · by_cases h3 : type = "purchase_return"
      · simp [h3]
      · by_cases h4 : type = "sales_return"
        · simp [h4]
        · simp [h1, h2, h3, h4]

/-! ## Numbering -/

theorem updateTransactionStatus_numbering (t : Transaction) (action : String) :
    (updateTransactionStatus t action).invoiceNumber = t.invoiceNumber ∧
      (updateTransactionStatus t action).orderNumber = t.orderNumber ∧
      (updateTransactionStatus t action).numberManual = t.numberManual ∧
      (updateTransactionStatus t action).transactionNo = t.transactionNo := by
  unfold updateTransactionStatus
  split
  · exact ⟨rfl, rfl, rfl, rfl⟩
  · split
    · exact ⟨rfl, rfl, rfl, rfl⟩
    · split <;> exact ⟨rfl, rfl, rfl, rfl⟩

/-- C17 on the code: `updateTransactionStatus`, the only change approval makes
to the transaction, never touches `invoiceNumber`.  Approving the sample sales
order with numberManual=false and no invoice number succeeds, marks it
`invoiceGenerated` and leaves `invoiceNumber` unset; the duplicate approval is
refused as already processed. -/
theorem auto_sales_order_approval_allocates_no_invoice :
    (∀ t action, (updateTransactionStatus t action).invoiceNumber = t.invoiceNumber) ∧
    ∃ t1 db1,
      processTransaction sampleDate "t2" "approve" "u"
        (sampleSalesDb (sampleSalesOrder false (some "SO202501-00001") none)) = (.ok t1, db1) ∧
      t1.status = "APPROVED" ∧ t1.invoiceGenerated = some true ∧ t1.invoiceNumber = none ∧
      findTransactionById db1 "t2" = some t1 ∧
      processTransaction sampleDate "t2" "approve" "u" db1
        = (.error (.app "Transaction already processed with status 'APPROVED'" 400), db1) := by
  refine ⟨fun t action => (updateTransactionStatus_numbering t action).1, _, _,
    by with_unfolding_all rfl, by with_unfolding_all rfl, by with_unfolding_all rfl,
    by with_unfolding_all rfl, by with_unfolding_all rfl, by with_unfolding_all rfl⟩

/-- C18 on the code: approving the sample sales order with numberManual=true
and order number `CUSTOM-2025-001` succeeds and leaves `invoiceNumber` unset,
so it is not the order number. -/
theorem manual_sales_order_approval_sets_no_invoice :
    ∃ t1 db1,
      processTransaction sampleDate "t2" "approve" "u"
        (sampleSalesDb (sampleSalesOrder true (some "CUSTOM-2025-001") none)) = (.ok t1, db1) ∧
      t1.status = "APPROVED" ∧ t1.numberManual = true ∧
      t1.orderNumber = some "CUSTOM-2025-001" ∧ t1.invoiceNumber = none ∧
      t1.invoiceNumber ≠ t1.orderNumber := by
  refine ⟨_, _, by with_unfolding_all rfl, by with_unfolding_all rfl,
    by with_unfolding_all rfl, by with_unfolding_all rfl, by with_unfolding_all rfl,
    by with_unfolding_all decide⟩

/-- C19 on the code: the number `createTransaction` allocates when the caller
supplies none is `generateTransactionNo`: the two-letter code of the type and a
random number from 1 to 999 padded to three digits, with no period, no dash and
no sequence bucket.  A purchase order and a sales order created with the random
draw 0 both get such a number as `transactionNo` (`PO001`, `SO001`), and no
order number. -/
theorem created_order_number_is_random_three_digits :
    (∀ rnd, generateTransactionNo "purchase_order" rnd
      = "PO" ++ padStart (toString (rnd + 1)) 3 '0') ∧
    (∀ rnd, generateTransactionNo "sales_order" rnd
      = "SO" ++ padStart (toString (rnd + 1)) 3 '0') ∧
    (∃ t db1, createTransaction sampleDate 0 (sampleCreateData none "purchase_order" "Vendor")
        "u" sampleEmptyDb = (.ok t, db1) ∧
      t.transactionNo = "PO001" ∧ t.orderNumber = none) ∧
    (∃ t db1, createTransaction sampleDate 0 (sampleCreateData none "sales_order" "Customer")
        "u" sampleEmptyDb = (.ok t, db1) ∧
      t.transactionNo = "SO001" ∧ t.orderNumber = none) := by
  refine ⟨fun _ => rfl, fun _ => rfl,
    ⟨_, _, by with_unfolding_all rfl, by with_unfolding_all rfl, by with_unfolding_all rfl⟩,
    ⟨_, _, by with_unfolding_all rfl, by with_unfolding_all rfl, by with_unfolding_all rfl⟩⟩

/-! ## Creation -/

/-- C20, as the claim states it, fails: the payload carries the number `PO001`
of a stored transaction but no type, and `createTransaction` fails with the
missing-fields error, not with the duplicate-number error. -/
theorem duplicate_number_without_type_counterexample :
    ((sampleCreateData (some " PO001 ") "" "Vendor").transactionNo.map jsTrim = some "PO001") ∧
    (∃ t ∈ (sampleDb "DRAFT" [sampleVendor]).transactions, t.transactionNo = "PO001") ∧
    createTransaction sampleDate 0 (sampleCreateData (some " PO001 ") "" "Vendor") "u"
        (sampleDb "DRAFT" [sampleVendor])
      = (.error (.app "Missing required fields" 400), sampleDb "DRAFT" [sampleVendor]) :=
  ⟨rfl, ⟨sampleOrder "DRAFT", List.mem_cons_self _ _, rfl⟩, rfl⟩

/-- C20 (amended): for every payload whose trimmed transactionNo is non-empty
and equals the transactionNo of a stored transaction, `createTransaction` fails
and the store is unchanged, so no transaction record and no purchase-log record
is created; when the payload carries its type, party and at least one item the
error is the duplicate-number error. -/
theorem createTransaction_duplicate_number (now : JsDate) (rnd : Nat) (data : CreateData)
    (createdBy : String) (db : Db) (trimmed : String)
    (htrim : data.transactionNo.map jsTrim = some trimmed) (hne : trimmed ≠ "")
    (hdup : ∃ t ∈ db.transactions, t.transactionNo = trimmed) :
    (∃ err, createTransaction now rnd data createdBy db = (.error err, db)) ∧
    (data.type ≠ "" → data.partyId ≠ "" → data.partyType ≠ "" → data.items ≠ [] →
      createTransaction now rnd data createdBy db
        = (.error (.app ("Transaction number " ++ trimmed ++ " already exists") 400), db)) := by
  have hany : db.transactions.any (fun t => decide (t.transactionNo = trimmed)) = true := by
    obtain ⟨t, ht, heq⟩ := hdup
    exact List.any_eq_true.mpr ⟨t, ht, by simpa using heq⟩
  have hbody : ∃ err, createTransactionBody now rnd data createdBy db db = .error err ∧
      (data.type ≠ "" → data.partyId ≠ "" → data.partyType ≠ "" → data.items ≠ [] →
        err = .app ("Transaction number " ++ trimmed ++ " already exists") 400) := by
    unfold createTransactionBody
    by_cases hreq : data.type = "" ∨ data.partyId = "" ∨ data.partyType = ""
    · refine ⟨_, by rw [if_pos hreq], ?_⟩
      intro h1 h2 h3
      rcases hreq with h | h | h
      · exact absurd h h1
      · exact absurd h h2
      · exact absurd h h3
    · rw [if_neg hreq]
      by_cases hitems : data.items.isEmpty = true
      · refine ⟨_, by rw [if_pos hitems], ?_⟩
        intro _ _ _ h4
        exact absurd (List.isEmpty_iff.mp hitems) h4
      · rw [if_neg hitems]
        refine ⟨.app ("Transaction number " ++ trimmed ++ " already exists") 400, ?_,
          fun _ _ _ _ => rfl⟩
        simp [htrim, hne, hany]
  obtain ⟨err, herr, hkind⟩ := hbody
  refine ⟨⟨err, withTransactionSession_error _ db err herr⟩, ?_⟩
  intro h1 h2 h3 h4
  rw [← hkind h1 h2 h3 h4]
  exact withTransactionSession_error _ db err herr

/-- Witness for C20 (amended): a purchase order request carrying the stored
number `PO001` is refused as a duplicate and the store is unchanged. -/
theorem createTransaction_duplicate_number_witness :
    ((sampleCreateData (some " PO001 ") "purchase_order" "Vendor").transactionNo.map jsTrim
      = some "PO001") ∧
    createTransaction sampleDate 0 (sampleCreateData (some " PO001 ") "purchase_order" "Vendor")
        "u" (sampleDb "DRAFT" [sampleVendor])
      = (.error (.app ("Transaction number " ++ "PO001" ++ " already exists") 400),
         sampleDb "DRAFT" [sampleVendor]) :=
  ⟨rfl,
   (createTransaction_duplicate_number sampleDate 0
      (sampleCreateData (some " PO001 ") "purchase_order" "Vendor") "u"
      (sampleDb "DRAFT" [sampleVendor]) "PO001" rfl (by decide)
      ⟨sampleOrder "DRAFT", List.mem_cons_self _ _, rfl⟩).2
      (by decide) (by decide) (by decide) (by simp [sampleCreateData])⟩

/-! ### Inventory round trip -/

theorem digitChar_toNat (m : Nat) (h : m < 10) : (Nat.digitChar m).toNat - 48 = m := by
  interval_cases m <;> rfl

theorem digitsValue_toDigitsCore (fuel : Nat) :
    ∀ (n : Nat) (ds : List Char), n < fuel →
      digitsValue (Nat.toDigitsCore 10 fuel n ds) 0 = digitsValue ds n := by
  induction fuel with
  | zero => intro n ds h; omega
  | succ f ih =>
    intro n ds h
    have hd : (Nat.digitChar (n % 10)).isDigit = true :=
      digitChar_isDigit _ (Nat.mod_lt _ (by decide))
    have hv : (Nat.digitChar (n % 10)).toNat - 48 = n % 10 :=
      digitChar_toNat _ (Nat.mod_lt _ (by decide))
    by_cases hz : n / 10 = 0
    · have hn : n % 10 = n := Nat.mod_eq_of_lt (by omega)
      rw [hn] at hd hv
      simp [Nat.toDigitsCore, hz, digitsValue, hd, hv, hn]
    · have hlt : n / 10 < f := by omega
      have hn : n / 10 * 10 + n % 10 = n := by omega
      simp [Nat.toDigitsCore, hz, ih (n / 10) _ hlt, digitsValue, hd, hv, hn]

theorem digitsValue_toString (n : Nat) : digitsValue (toString n).data 0 = n := by
  show digitsValue (Nat.repr n).data 0 = n
  simp only [Nat.repr, Nat.toDigits, List.asString]
  rw [digitsValue_toDigitsCore (n + 1) n [] (Nat.lt_succ_self n)]
  rfl

/-- Two numbers with the same decimal text are equal, so the ids drawn from the
counter of the store are pairwise distinct. -/
theorem toString_nat_injective {a b : Nat} (h : toString a = toString b) : a = b := by
  rw [← digitsValue_toString a, ← digitsValue_toString b, h]

theorem levelAfter_cons (w : String × ℚ) (writes : List (String × ℚ)) (a : String) (cur : ℚ) :
    levelAfter (w :: writes) a cur = levelAfter writes a (if a = w.1 then w.2 else cur) := rfl

theorem levelAfter_concat (writes : List (String × ℚ)) (w : String × ℚ) (a : String) (cur : ℚ) :
    levelAfter (writes ++ [w]) a cur = if a = w.1 then w.2 else levelAfter writes a cur := by
  simp [levelAfter, List.foldl_append]

theorem map_updateFirst {α β : Type} (key : α → β) (p : α → Bool) (f : α → α)
    (hf : ∀ x, key (f x) = key x) (l : List α) :
    (updateFirst p f l).map key = l.map key := by
  induction l with
  | nil => rfl
  | cons x xs ih =>
    by_cases hx : p x = true
    · simp [updateFirst, hx, hf]
    · simp [updateFirst, hx, ih]

theorem updateFirst_append_of_none {α : Type} (p : α → Bool) (f : α → α) (pre l : List α)
    (hpre : ∀ x ∈ pre, p x = false) :
    updateFirst p f (pre ++ l) = pre ++ updateFirst p f l := by
  induction pre with
  | nil => rfl
  | cons x xs ih =>
    have hx : p x = false := hpre x (List.mem_cons_self _ _)
    simp [updateFirst, hx, ih (fun y hy => hpre y (List.mem_cons_of_mem _ hy))]

/-- The level of every stock document after a write of the level `v` to the
document `id`. -/
theorem stockLevel_updateStockById (db : Db) (id a : String) (f : Stock → Stock) (v : ℚ)
    (hid : ∀ s, (f s)._id = s._id) (hv : ∀ s, (f s).currentStock = v) :
    stockLevel (updateStockById db id f) a
      = (stockLevel db a).map (fun x => if a = id then v else x) := by
  unfold stockLevel findStockById updateStockById
  by_cases h : a = id
  · subst h
    rw [find?_updateFirst (fun s : Stock => decide (s._id = a)) f (fun s => by simp [hid])]
    cases List.find? (fun s : Stock => decide (s._id = a)) db.stocks <;> simp [hv]
  · rw [find?_updateFirst_other (fun s : Stock => decide (s._id = id))
      (fun s : Stock => decide (s._id = a)) f]
    · cases List.find? (fun s : Stock => decide (s._id = a)) db.stocks <;> simp [h]
    · intro x hx
      have hx1 : x._id = id := by simpa using hx
      have hne : ¬ (id = a) := fun e => h e.symm
      simp [hid, hx1, hne]

/-- A successful run of the loop of `processTransactionStock`: every line found
its stock document in the committed state; the run appended one movement per
line, drew one id per line, kept the ids and items of the stock documents and
left on every stock document the level of the last write to it. -/
theorem processItemsStock_run {committed : Db}
    {transactionId type transactionNo createdBy : String} (items : List Item) (db db1 : Db)
    (h : processItemsStock committed transactionId type transactionNo createdBy items db
      = .ok db1) :
    ∃ pairs : List (Item × Stock),
      pairs.map Prod.fst = items ∧
      (∀ p ∈ pairs, getStockByItemId committed p.1.itemId = .ok p.2) ∧
      db1.movements = db.movements ++
        approvalMovements transactionId type transactionNo createdBy db.nextId pairs ∧
      db1.nextId = db.nextId + items.length ∧
      db1.stocks.map (fun s => (s._id, s.itemId)) = db.stocks.map (fun s => (s._id, s.itemId)) ∧
      ∀ a, stockLevel db1 a = (stockLevel db a).map (levelAfter (approvalWrites type pairs) a) := by
  induction items generalizing db with
  | nil =>
    simp only [processItemsStock, Except.ok.injEq] at h
    subst h
    refine ⟨[], rfl, by simp, by simp [approvalMovements], rfl, rfl, ?_⟩
    intro a
    cases hs : stockLevel db a <;> simp [approvalWrites, levelAfter]
  | cons item rest ih =>
    cases hstock : getStockByItemId committed item.itemId with
    | error e =>
      have he : processItemStock committed transactionId type transactionNo createdBy item db
          = .error e := by simp [processItemStock, hstock]
      simp [processItemsStock, he] at h
    | ok stock =>
      simp only [processItemsStock, processItemStock_eq hstock] at h
      obtain ⟨pairs, hfst, hlook, hmov, hnext, hkey, hlevel⟩ := ih _ h
      refine ⟨(item, stock) :: pairs, by simp [hfst], ?_, ?_, ?_, ?_, ?_⟩
      · intro p hp
        rcases List.mem_cons.mp hp with rfl | hp
        · exact hstock
        · exact hlook p hp
      · rw [hmov]
        simp [approvalMovements]
      · rw [hnext]
        simp only [List.length_cons]
        omega
      · rw [hkey]
        exact map_updateFirst (fun s : Stock => (s._id, s.itemId))
          (fun s => decide (s._id = stock._id))
          (fun s => { s with
            currentStock := jsAdd stock.currentStock (getQuantityChange type item.qty),
            purchasePrice := toFixed2 (newPurchasePrice type stock item) })
          (fun _ => rfl) db.stocks
      · intro a
        rw [hlevel a]
        have hstep := stockLevel_updateStockById db stock._id a
          (fun s => { s with
            currentStock := jsAdd stock.currentStock (getQuantityChange type item.qty),
            purchasePrice := toFixed2 (newPurchasePrice type stock item) })
          (jsAdd stock.currentStock (getQuantityChange type item.qty)) (fun _ => rfl) (fun _ => rfl)
        have hsame : stockLevel
            { db with
              stocks := updateFirst (fun s => s._id = stock._id)
                (fun s => { s with
                  currentStock := jsAdd stock.currentStock (getQuantityChange type item.qty),
                  purchasePrice := toFixed2 (newPurchasePrice type stock item) }) db.stocks,
              movements := db.movements ++
                [approvalMovement transactionId type transactionNo createdBy item stock
                  (toString db.nextId)],
              nextId := db.nextId + 1 } a
            = stockLevel (updateStockById db stock._id
                (fun s => { s with
                  currentStock := jsAdd stock.currentStock (getQuantityChange type item.qty),
                  purchasePrice := toFixed2 (newPurchasePrice type stock item) })) a := rfl
        rw [hsame, hstep]
        cases stockLevel db a with
        | none => rfl
        | some x => simp [approvalWrites, levelAfter_cons]

/-- One step of the loop of `reverseTransactionStock` whose stock lookup
succeeds: the stock document is rewritten, the offsetting movement is appended
and the movement is flagged with a reference to it. -/
theorem reverseMovement_eq {committed : Db} {transactionId : String} {transaction : Transaction}
    {createdBy : String} {movement : InventoryMovement} {db : Db} {stock : Stock}
    (hstock : getStockByItemId committed movement.stockId = .ok stock) :
    reverseMovement committed transactionId transaction createdBy movement db =
      .ok { db with
        stocks := updateFirst (fun s => s._id = stock._id)
          (fun s => { s with currentStock := jsAdd stock.currentStock (-movement.quantity) })
          db.stocks,
        movements := updateFirst (fun m => m._id = movement._id)
          (fun m => flagReversed m
            (reversalMovement transactionId transaction createdBy movement stock
              (toString db.nextId)))
          (db.movements ++
            [reversalMovement transactionId transaction createdBy movement stock
              (toString db.nextId)]),
        nextId := db.nextId + 1 } := by
  simp only [reverseMovement, hstock]
  rfl

/-- A run of the loop of `reverseTransactionStock` over movements that are
stored next to each other, have pairwise distinct ids not used before them, and
whose stock documents are found: the run succeeds, flags each movement with a
reference to the offsetting movement appended for it, and leaves on every stock
document the level of the last write to it. -/
theorem reverseMovements_run {committed : Db} {transactionId : String}
    {transaction : Transaction} {createdBy : String}
    (todo : List InventoryMovement) (pre post : List InventoryMovement) (db : Db)
    (hmov : db.movements = pre ++ todo ++ post)
    (hpre : ∀ x ∈ pre, ∀ m ∈ todo, x._id ≠ m._id)
    (hnodup : (todo.map (fun m => m._id)).Nodup)
    (hall : ∀ m ∈ todo, ∃ s, getStockByItemId committed m.stockId = .ok s) :
    ∃ (db2 : Db) (pairs : List (InventoryMovement × Stock)),
      reverseMovements committed transactionId transaction createdBy todo db = .ok db2 ∧
      pairs.map Prod.fst = todo ∧
      (∀ p ∈ pairs, getStockByItemId committed p.1.stockId = .ok p.2) ∧
      db2.movements = pre ++
        List.zipWith flagReversed todo
          (reversalMovements transactionId transaction createdBy db.nextId pairs) ++ post ++
        reversalMovements transactionId transaction createdBy db.nextId pairs ∧
      ∀ a, stockLevel db2 a = (stockLevel db a).map (levelAfter (reversalWrites pairs) a) := by
  induction todo generalizing pre post db with
  | nil =>
    refine ⟨db, [], rfl, rfl, by simp, ?_, ?_⟩
    · simpa [reversalMovements] using hmov
    · intro a
      cases hs : stockLevel db a <;> simp [reversalWrites, levelAfter]
  | cons m rest ih =>
    obtain ⟨s, hs⟩ := hall m (List.mem_cons_self _ _)
    have hnd := List.nodup_cons.mp (by simpa using hnodup :
      (m._id :: rest.map (fun m => m._id)).Nodup)
    have hmid : updateFirst (fun x : InventoryMovement => decide (x._id = m._id))
          (fun x => flagReversed x
            (reversalMovement transactionId transaction createdBy m s (toString db.nextId)))
          (db.movements ++
            [reversalMovement transactionId transaction createdBy m s (toString db.nextId)])
        = (pre ++ [flagReversed m
            (reversalMovement transactionId transaction createdBy m s (toString db.nextId))])
          ++ rest ++
          (post ++
            [reversalMovement transactionId transaction createdBy m s (toString db.nextId)]) := by
      rw [hmov]
      have hassoc : pre ++ m :: rest ++ post ++
            [reversalMovement transactionId transaction createdBy m s (toString db.nextId)]
          = pre ++ (m :: (rest ++ post ++
            [reversalMovement transactionId transaction createdBy m s (toString db.nextId)])) := by
        simp
      rw [hassoc, updateFirst_append_of_none]
      · simp [updateFirst]
      · intro x hx
        have hne := hpre x hx m (List.mem_cons_self _ _)
        simp [hne]
    obtain ⟨db2, pairs, hrun, hfst, hlook, hmov2, hlevel⟩ :=
      ih (pre ++ [flagReversed m
            (reversalMovement transactionId transaction createdBy m s (toString db.nextId))])
        (post ++
          [reversalMovement transactionId transaction createdBy m s (toString db.nextId)])
        { db with
          stocks := updateFirst (fun x => x._id = s._id)
            (fun x => { x with currentStock := jsAdd s.currentStock (-m.quantity) }) db.stocks,
          movements := updateFirst (fun x => x._id = m._id)
            (fun x => flagReversed x
              (reversalMovement transactionId transaction createdBy m s (toString db.nextId)))
            (db.movements ++
              [reversalMovement transactionId transaction createdBy m s (toString db.nextId)]),
          nextId := db.nextId + 1 }
        hmid
        (by
          intro x hx m2 hm2
          rcases List.mem_append.mp hx with hx | hx
          · exact hpre x hx m2 (List.mem_cons_of_mem _ hm2)
          · have hxe : x = flagReversed m
                (reversalMovement transactionId transaction createdBy m s (toString db.nextId)) := by
              simpa using hx
            subst hxe
            intro he
            exact hnd.1 (List.mem_map.mpr ⟨m2, hm2, he.symm⟩))
        hnd.2
        (fun m2 hm2 => hall m2 (List.mem_cons_of_mem _ hm2))
    refine ⟨db2, (m, s) :: pairs, ?_, by simp [hfst], ?_, ?_, ?_⟩
    · simp only [reverseMovements, reverseMovement_eq hs]
      exact hrun
    · intro p hp
      rcases List.mem_cons.mp hp with rfl | hp
      · exact hs
      · exact hlook p hp
    · rw [hmov2]
      simp [reversalMovements]
    · intro a
      rw [hlevel a]
      have hstep := stockLevel_updateStockById db s._id a
        (fun x => { x with currentStock := jsAdd s.currentStock (-m.quantity) })
        (jsAdd s.currentStock (-m.quantity)) (fun _ => rfl) (fun _ => rfl)
      have hsame : stockLevel
          { db with
            stocks := updateFirst (fun x => x._id = s._id)
              (fun x => { x with currentStock := jsAdd s.currentStock (-m.quantity) }) db.stocks,
            movements := updateFirst (fun x => x._id = m._id)
              (fun x => flagReversed x
                (reversalMovement transactionId transaction createdBy m s (toString db.nextId)))
              (db.movements ++
                [reversalMovement transactionId transaction createdBy m s (toString db.nextId)]),
            nextId := db.nextId + 1 } a
          = stockLevel (updateStockById db s._id
              (fun x => { x with currentStock := jsAdd s.currentStock (-m.quantity) })) a := rfl
      rw [hsame, hstep]
      cases stockLevel db a with
      | none => rfl
      | some x => simp [reversalWrites, levelAfter_cons]

theorem find?_of_map_eq {α β : Type} (key : α → β) (q : β → Bool) :
    ∀ (l1 l0 : List α), l1.map key = l0.map key →
      (l1.find? (fun x => q (key x))).map key = (l0.find? (fun x => q (key x))).map key := by
  intro l1
  induction l1 with
  | nil =>
    intro l0 h
    cases l0 with
    | nil => rfl
    | cons y ys => simp at h
  | cons x xs ih =>
    intro l0 h
    cases l0 with
    | nil => simp at h
    | cons y ys =>
      simp only [List.map_cons, List.cons.injEq] at h
      by_cases hq : q (key x) = true
      · have hq2 : q (key y) = true := h.1 ▸ hq
        simp [List.find?, hq, hq2, h.1]
      · have hq2 : ¬ q (key y) = true := h.1 ▸ hq
        simp [List.find?, hq, hq2, ih ys h.2]

/-- A stock lookup that succeeds on a store also succeeds on a store whose
stock documents have the same ids and items, and finds the document with the
same id. -/
theorem getStockByItemId_of_same_keys {db0 db1 : Db}
    (hkey : db1.stocks.map (fun s => (s._id, s.itemId))
      = db0.stocks.map (fun s => (s._id, s.itemId)))
    {itemId : String} {stock : Stock} (h : getStockByItemId db0 itemId = .ok stock) :
    ∃ found, getStockByItemId db1 itemId = .ok found ∧ found._id = stock._id ∧
      found.itemId = stock.itemId := by
  have hfind := find?_of_map_eq (fun s : Stock => (s._id, s.itemId))
    (fun k => decide (k.2 = itemId)) db1.stocks db0.stocks hkey
  unfold getStockByItemId at h ⊢
  cases h0 : db0.stocks.find? (fun s => decide (s.itemId = itemId)) with
  | none => simp [h0] at h
  | some s0 =>
    simp only [h0, Except.ok.injEq] at h
    subst h
    simp only [h0, Option.map_some'] at hfind
    cases h1 : db1.stocks.find? (fun s => decide (s.itemId = itemId)) with
    | none => simp [h1] at hfind
    | some s1 =>
      simp only [h1, Option.map_some', Option.some.injEq, Prod.mk.injEq] at hfind
      exact ⟨s1, rfl, hfind.1, hfind.2⟩

theorem findStockById_of_mem {db : Db} (hids : (db.stocks.map (fun s => s._id)).Nodup)
    {stock : Stock} (hmem : stock ∈ db.stocks) :
    stockLevel db stock._id = some stock.currentStock := by
  unfold stockLevel findStockById
  rw [find?_of_nodup_map (fun s : Stock => s._id) db.stocks hids stock hmem]
  rfl

theorem approvalMovements_length (transactionId type transactionNo createdBy : String)
    (n : Nat) (pairs : List (Item × Stock)) :
    (approvalMovements transactionId type transactionNo createdBy n pairs).length
      = pairs.length := by
  induction pairs generalizing n with
  | nil => rfl
  | cons p rest ih => simp [approvalMovements, ih]

theorem approvalMovements_mem {transactionId type transactionNo createdBy : String}
    {n : Nat} {pairs : List (Item × Stock)} {m : InventoryMovement}
    (hm : m ∈ approvalMovements transactionId type transactionNo createdBy n pairs) :
    ∃ p ∈ pairs, ∃ k, n ≤ k ∧
      m = approvalMovement transactionId type transactionNo createdBy p.1 p.2 (toString k) := by
  induction pairs generalizing n with
  | nil => simp [approvalMovements] at hm
  | cons p rest ih =>
    simp only [approvalMovements, List.mem_cons] at hm
    rcases hm with rfl | hm
    · exact ⟨p, List.mem_cons_self _ _, n, Nat.le_refl _, rfl⟩
    · obtain ⟨q, hq, k, hk, rfl⟩ := ih hm
      exact ⟨q, List.mem_cons_of_mem _ hq, k, by omega, rfl⟩

theorem approvalMovements_nodup (transactionId type transactionNo createdBy : String)
    (n : Nat) (pairs : List (Item × Stock)) :
    ((approvalMovements transactionId type transactionNo createdBy n pairs).map
      (fun m => m._id)).Nodup := by
  induction pairs generalizing n with
  | nil => simp [approvalMovements]
  | cons p rest ih =>
    simp only [approvalMovements, List.map_cons, List.nodup_cons]
    refine ⟨?_, ih (n + 1)⟩
    intro hmem
    obtain ⟨m, hm, hid⟩ := List.mem_map.mp hmem
    obtain ⟨q, _, k, hk, rfl⟩ := approvalMovements_mem hm
    have hkn : k = n := toString_nat_injective hid
    omega

theorem reversalMovements_length (transactionId : String) (transaction : Transaction)
    (createdBy : String) (n : Nat) (pairs : List (InventoryMovement × Stock)) :
    (reversalMovements transactionId transaction createdBy n pairs).length = pairs.length := by
  induction pairs generalizing n with
  | nil => rfl
  | cons p rest ih => simp [reversalMovements, ih]

theorem reversalMovements_quantity (transactionId : String) (transaction : Transaction)
    (createdBy : String) (n : Nat) (pairs : List (InventoryMovement × Stock)) :
    (reversalMovements transactionId transaction createdBy n pairs).map (fun r => r.quantity)
      = (pairs.map Prod.fst).map (fun m => -m.quantity) := by
  induction pairs generalizing n with
  | nil => rfl
  | cons p rest ih => simp [reversalMovements, reversalMovement, ih]

theorem reversalMovements_mem {transactionId : String} {transaction : Transaction}
    {createdBy : String} {n : Nat} {pairs : List (InventoryMovement × Stock)}
    {r : InventoryMovement}
    (hr : r ∈ reversalMovements transactionId transaction createdBy n pairs) :
    r.isReversed = false ∧ r.referenceId = transactionId ∧
      r.referenceType = "Transaction" := by
  induction pairs generalizing n with
  | nil => simp [reversalMovements] at hr
  | cons p rest ih =>
    simp only [reversalMovements, List.mem_cons] at hr
    rcases hr with rfl | hr
    · exact ⟨rfl, rfl, rfl⟩
    · exact ih hr

/-- The writes of a reversal that runs on the result of an approval, in terms
of the lines of the approval: the level written for a line is the level the
approval left on its stock document less the quantity change of the line. -/
theorem reversalWrites_of_approval {db1 : Db}
    {transactionId type transactionNo createdBy : String} (level : String → ℚ → ℚ)
    (pairs : List (Item × Stock)) (n : Nat) (rpairs : List (InventoryMovement × Stock))
    (hfst : rpairs.map Prod.fst
      = approvalMovements transactionId type transactionNo createdBy n pairs)
    (hlevel : ∀ p ∈ pairs, ∀ found, getStockByItemId db1 p.2.itemId = .ok found →
      found._id = p.2._id ∧ found.currentStock = level p.2._id p.2.currentStock)
    (hlook : ∀ p ∈ rpairs, getStockByItemId db1 p.1.stockId = .ok p.2) :
    reversalWrites rpairs = pairs.map (fun p =>
      (p.2._id, jsAdd (level p.2._id p.2.currentStock) (-getQuantityChange type p.1.qty))) := by
  induction pairs generalizing n rpairs with
  | nil =>
    cases rpairs with
    | nil => rfl
    | cons r rs => simp [approvalMovements] at hfst
  | cons p rest ih =>
    cases rpairs with
    | nil => simp [approvalMovements] at hfst
    | cons r rs =>
      simp only [approvalMovements, List.map_cons, List.cons.injEq] at hfst
      have hr := hlook r (List.mem_cons_self _ _)
      rw [hfst.1] at hr
      obtain ⟨hid, hcs⟩ := hlevel p (List.mem_cons_self _ _) r.2 hr
      have htail := ih (n + 1) rs hfst.2
        (fun q hq => hlevel q (List.mem_cons_of_mem _ hq))
        (fun q hq => hlook q (List.mem_cons_of_mem _ hq))
      simp only [reversalWrites, List.map_cons] at htail ⊢
      rw [htail, hid, hcs, hfst.1]
      rfl

theorem reverseTransactionStock_of_run {committed : Db} {transactionId : String}
    {transaction : Transaction} {createdBy : String} {db run : Db}
    (h : reverseMovements committed transactionId transaction createdBy
      (db.movements.filter (fun m =>
        m.referenceId = transactionId && m.referenceType = "Transaction" && !m.isReversed)) db
      = .ok run) :
    ∃ db2, reverseTransactionStock committed transactionId transaction createdBy db = .ok db2 ∧
      db2.stocks = run.stocks ∧ db2.movements = run.movements := by
  unfold reverseTransactionStock
  simp only [h]
  by_cases htype : transaction.type = "purchase_order"
  · exact ⟨setPurchaseLogStatus run transaction.transactionNo "REVERSED",
      by simp only [htype, if_true], rfl, rfl⟩
  · exact ⟨run, by simp only [htype, if_false], rfl, rfl⟩

theorem stockLevel_congr {db db2 : Db} (h : db2.stocks = db.stocks) (a : String) :
    stockLevel db2 a = stockLevel db a := by
  unfold stockLevel findStockById
  rw [h]

/-- The movements an approval appended are the non-reversed movements of the
transaction when the store held none before. -/
theorem filter_approvalMovements {transactionId type transactionNo createdBy : String}
    (before : List InventoryMovement) (n : Nat) (pairs : List (Item × Stock))
    (hnew : ∀ m ∈ before, ¬ (m.referenceId = transactionId ∧ m.referenceType = "Transaction" ∧
      m.isReversed = false)) :
    (before ++ approvalMovements transactionId type transactionNo createdBy n pairs).filter
        (fun m =>
          m.referenceId = transactionId && m.referenceType = "Transaction" && !m.isReversed)
      = approvalMovements transactionId type transactionNo createdBy n pairs := by
  rw [List.filter_append]
  have h1 : before.filter (fun m =>
      m.referenceId = transactionId && m.referenceType = "Transaction" && !m.isReversed) = [] := by
    rw [List.filter_eq_nil_iff]
    intro m hm hp
    apply hnew m hm
    simpa [and_assoc] using hp
  have h2 : (approvalMovements transactionId type transactionNo createdBy n pairs).filter
      (fun m =>
        m.referenceId = transactionId && m.referenceType = "Transaction" && !m.isReversed)
      = approvalMovements transactionId type transactionNo createdBy n pairs := by
    rw [List.filter_eq_self]
    intro m hm
    obtain ⟨p, _, k, _, rfl⟩ := approvalMovements_mem hm
    simp [approvalMovement]
  rw [h1, h2, List.nil_append]

/-! ## Creation: required fields and status -/

/-- C21: when the payload of `createTransaction` lacks its type, its party id
or its party kind, the call fails with the error `Missing required fields`
(400); when it has them but its item list is missing or empty, the call fails
with `Items are required` (400).  In both cases the store is unchanged, and the
body fails in the same way whatever the clock, the random draw for the number,
the committed state the stock lookup reads and the working state are: it does
not get to the stock lookup, the number or a write. -/
theorem createTransaction_missing_fields (now : JsDate) (rnd : Nat) (data : CreateData)
    (createdBy : String) (db : Db)
    (h : data.type = "" ∨ data.partyId = "" ∨ data.partyType = "" ∨ data.items = []) :
    ∃ message,
      (if data.type = "" ∨ data.partyId = "" ∨ data.partyType = ""
        then message = "Missing required fields" else message = "Items are required") ∧
      createTransaction now rnd data createdBy db = (.error (.app message 400), db) ∧
      ∀ (now2 : JsDate) (rnd2 : Nat) (committed working : Db),
        createTransactionBody now2 rnd2 data createdBy committed working
          = .error (.app message 400) := by
  by_cases hreq : data.type = "" ∨ data.partyId = "" ∨ data.partyType = ""
  · have hbody : ∀ (now2 : JsDate) (rnd2 : Nat) (committed working : Db),
        createTransactionBody now2 rnd2 data createdBy committed working
          = .error (.app "Missing required fields" 400) := by
      intro now2 rnd2 committed working
      unfold createTransactionBody
      rw [if_pos hreq]
    exact ⟨"Missing required fields", by rw [if_pos hreq],
      withTransactionSession_error _ db _ (hbody now rnd db db), hbody⟩
  · have hitems : data.items.isEmpty = true := by
      rcases h with h | h | h | h
      · exact absurd (Or.inl h) hreq
      · exact absurd (Or.inr (Or.inl h)) hreq
      · exact absurd (Or.inr (Or.inr h)) hreq
      · rw [h]; rfl
    have hbody : ∀ (now2 : JsDate) (rnd2 : Nat) (committed working : Db),
        createTransactionBody now2 rnd2 data createdBy committed working
          = .error (.app "Items are required" 400) := by
      intro now2 rnd2 committed working
      unfold createTransactionBody
      rw [if_neg hreq, if_pos hitems]
    exact ⟨"Items are required", by rw [if_neg hreq],
      withTransactionSession_error _ db _ (hbody now rnd db db), hbody⟩

/-- Witness for C21: a request without items on the sample store is refused
with `Items are required` and the store is unchanged. -/
theorem createTransaction_missing_fields_witness :
    ∃ message,
      (if (sampleCreateDataNoItems).type = "" ∨ (sampleCreateDataNoItems).partyId = "" ∨
          (sampleCreateDataNoItems).partyType = ""
        then message = "Missing required fields" else message = "Items are required") ∧
      createTransaction sampleDate 0 sampleCreateDataNoItems "u" (sampleDb "DRAFT" [sampleVendor])
        = (.error (.app message 400), sampleDb "DRAFT" [sampleVendor]) ∧
      ∀ (now2 : JsDate) (rnd2 : Nat) (committed working : Db),
        createTransactionBody now2 rnd2 sampleCreateDataNoItems "u" committed working
          = .error (.app message 400) :=
  createTransaction_missing_fields sampleDate 0 sampleCreateDataNoItems "u"
    (sampleDb "DRAFT" [sampleVendor]) (Or.inr (Or.inr (Or.inr rfl)))

theorem insertTransaction_ok {transactionData created : Transaction} {db db1 : Db}
    (h : insertTransaction transactionData db = .ok (created, db1)) :
    created = { transactionData with _id := toString db.nextId } ∧
      db1 = { db with transactions := db.transactions ++ [created], nextId := db.nextId + 1 } := by
  unfold insertTransaction at h
  split at h
  · cases h
  · simp only [Except.ok.injEq, Prod.mk.injEq] at h
    obtain ⟨h1, h2⟩ := h
    subst h1
    exact ⟨rfl, h2.symm⟩

/-- A successful run of the body of `createTransaction`: the document it
returns is the one it appended to the transactions, with the status
`status || "DRAFT"` of the payload; stocks, movements, parties and ledgers are
as before. -/
theorem createTransactionBody_ok {now : JsDate} {rnd : Nat} {data : CreateData}
    {createdBy : String} {committed db db1 : Db} {t : Transaction}
    (h : createTransactionBody now rnd data createdBy committed db = .ok (t, db1)) :
    t.status = (orString data.status none).getD "DRAFT" ∧
      db1.transactions = db.transactions ++ [t] ∧
      t.type = data.type ∧ t._id = toString db.nextId := by
  unfold createTransactionBody at h
  split at h
  · cases h
  · split at h
    · cases h
    · simp only at h
      split at h
      · cases h
      · split at h
        · cases h
        · split at h
          · cases h
          · rename_i created dbi hins
            obtain ⟨hc, hd⟩ := insertTransaction_ok hins
            split at h
            · simp only [Except.ok.injEq, Prod.mk.injEq] at h
              obtain ⟨h1, h2⟩ := h
              subst h1 h2
              subst hd
              refine ⟨by rw [hc], rfl, by rw [hc], by rw [hc]⟩
            · simp only [Except.ok.injEq, Prod.mk.injEq] at h
              obtain ⟨h1, h2⟩ := h
              subst h1 h2
              subst hd
              refine ⟨by rw [hc], rfl, by rw [hc], by rw [hc]⟩

/-- C22, as the claim states it, fails: a sales order request whose payload
carries the status `APPROVED` is persisted with the status `APPROVED`. -/
theorem created_status_from_payload_counterexample :
    ∃ t db1,
      createTransaction sampleDate 0 (sampleCreateDataWithStatus "APPROVED") "u" sampleEmptyDb
        = (.ok t, db1) ∧
      db1.transactions = [t] ∧ t.status = "APPROVED" ∧ t.status ≠ "DRAFT" := by
  refine ⟨_, _, by with_unfolding_all rfl, by with_unfolding_all rfl, by with_unfolding_all rfl,
    by with_unfolding_all decide⟩

/-- C22 (amended): every transaction `createTransaction` persists has the
status of the payload when the payload carries a non-empty one, and the status
DRAFT when the payload carries none or an empty one. -/
theorem createTransaction_status (now : JsDate) (rnd : Nat) (data : CreateData)
    (createdBy : String) (db db1 : Db) (t : Transaction)
    (h : createTransaction now rnd data createdBy db = (.ok t, db1)) :
    db1.transactions = db.transactions ++ [t] ∧
    (∀ status, data.status = some status → status ≠ "" → t.status = status) ∧
    (data.status = none ∨ data.status = some "" → t.status = "DRAFT") := by
  have hbody : createTransactionBody now rnd data createdBy db db = .ok (t, db1) := by
    unfold createTransaction withTransactionSession at h
    split at h
    · rename_i result working heq
      simp only [Prod.mk.injEq, Except.ok.injEq] at h
      rw [heq, h.1, h.2]
    · simp at h
  obtain ⟨hstatus, htrans, _, _⟩ := createTransactionBody_ok hbody
  refine ⟨htrans, ?_, ?_⟩
  · intro status hs hne
    rw [hstatus, hs]
    simp [orString, hne]
  · intro hs
    rw [hstatus]
    rcases hs with hs | hs <;> simp [orString, hs]

/-- Witness for C22 (amended): the sample purchase order request carries no
status and is persisted as DRAFT. -/
theorem createTransaction_status_witness :
    ∃ t db1,
      createTransaction sampleDate 0 (sampleCreateData none "purchase_order" "Vendor") "u"
        sampleEmptyDb = (.ok t, db1) ∧
      db1.transactions = sampleEmptyDb.transactions ++ [t] ∧ t.status = "DRAFT" :=
  ⟨_, _, by with_unfolding_all rfl,
    (createTransaction_status sampleDate 0 (sampleCreateData none "purchase_order" "Vendor") "u"
      sampleEmptyDb _ _ (by with_unfolding_all rfl)).1,
    (createTransaction_status sampleDate 0 (sampleCreateData none "purchase_order" "Vendor") "u"
      sampleEmptyDb _ _ (by with_unfolding_all rfl)).2.2 (Or.inl rfl)⟩

/-- The VAT step, in terms of its parts. -/
theorem createVATReportItems_eq (transaction : Transaction) (createdBy : String) (db : Db) :
    createVATReportItems transaction createdBy db =
      if !isOutputVAT transaction.type && !isInputVAT transaction.type then .ok db
      else if (vatItemsOf transaction db).isEmpty then .ok db
      else
        match db.vatReports.find? (isOpenReport transaction) with
        | some _ =>
          .ok { db with
            vatReports := updateFirst (isOpenReport transaction)
              (extendReport transaction.type (vatItemsOf transaction db)) db.vatReports }
        | none =>
          .ok { db with
            vatReports := db.vatReports ++
              [extendReport transaction.type (vatItemsOf transaction db)
                (freshReport transaction createdBy (toString db.nextId))],
            nextId := db.nextId + 1 } := rfl

/-! ## Frames of the approval steps -/

/-- The loop of `processTransactionStock` writes stocks and movements only. -/
theorem processItemsStock_frame {committed : Db}
    {transactionId type transactionNo createdBy : String} (items : List Item) (db db1 : Db)
    (h : processItemsStock committed transactionId type transactionNo createdBy items db
      = .ok db1) :
    db1.transactions = db.transactions ∧ db1.purchaseLogs = db.purchaseLogs ∧
      db1.vendors = db.vendors ∧ db1.customers = db.customers ∧
      db1.debitLogs = db.debitLogs ∧ db1.creditLogs = db.creditLogs ∧
      db1.vatReports = db.vatReports := by
  induction items generalizing db with
  | nil =>
    simp only [processItemsStock, Except.ok.injEq] at h
    subst h
    exact ⟨rfl, rfl, rfl, rfl, rfl, rfl, rfl⟩
  | cons item rest ih =>
    cases hstock : getStockByItemId committed item.itemId with
    | error e =>
      have he : processItemStock committed transactionId type transactionNo createdBy item db
          = .error e := by simp [processItemStock, hstock]
      simp [processItemsStock, he] at h
    | ok stock =>
      simp only [processItemsStock, processItemStock_eq hstock] at h
      have hrest := ih _ h
      exact hrest

/-- The VAT step writes the VAT reports (and draws an id for a new report)
only. -/
theorem createVATReportItems_frame {transaction : Transaction} {createdBy : String}
    {db db1 : Db} (h : createVATReportItems transaction createdBy db = .ok db1) :
    db1.transactions = db.transactions ∧ db1.purchaseLogs = db.purchaseLogs ∧
      db1.stocks = db.stocks ∧ db1.movements = db.movements ∧
      db1.vendors = db.vendors ∧ db1.customers = db.customers ∧
      db1.debitLogs = db.debitLogs ∧ db1.creditLogs = db.creditLogs := by
  rw [createVATReportItems_eq] at h
  split at h
  · cases h
    exact ⟨rfl, rfl, rfl, rfl, rfl, rfl, rfl, rfl⟩
  · split at h
    · cases h
      exact ⟨rfl, rfl, rfl, rfl, rfl, rfl, rfl, rfl⟩
    · split at h <;>
      · cases h
        exact ⟨rfl, rfl, rfl, rfl, rfl, rfl, rfl, rfl⟩

theorem setCashBalance_frame (isVendor : Bool) (partyId : String) (newBalance : ℚ) (db : Db) :
    (setCashBalance isVendor partyId newBalance db).transactions = db.transactions ∧
      (setCashBalance isVendor partyId newBalance db).purchaseLogs = db.purchaseLogs ∧
      (setCashBalance isVendor partyId newBalance db).stocks = db.stocks ∧
      (setCashBalance isVendor partyId newBalance db).movements = db.movements ∧
      (setCashBalance isVendor partyId newBalance db).vatReports = db.vatReports ∧
      (setCashBalance isVendor partyId newBalance db).debitLogs = db.debitLogs ∧
      (setCashBalance isVendor partyId newBalance db).creditLogs = db.creditLogs := by
  cases isVendor <;> exact ⟨rfl, rfl, rfl, rfl, rfl, rfl, rfl⟩

theorem createLog_frame {isVendor : Bool} {entry : LedgerEntry} {db db1 : Db}
    (h : createLog isVendor entry db = .ok db1) :
    db1.transactions = db.transactions ∧ db1.purchaseLogs = db.purchaseLogs ∧
      db1.stocks = db.stocks ∧ db1.movements = db.movements ∧
      db1.vatReports = db.vatReports ∧
      db1.debitLogs.length + db1.creditLogs.length
        = db.debitLogs.length + db.creditLogs.length + 1 := by
  obtain ⟨_, rfl⟩ := (createLog_ok_iff isVendor entry db db1).mp h
  cases isVendor
  · refine ⟨rfl, rfl, rfl, rfl, rfl, ?_⟩
    simp only [Bool.false_eq_true, if_false, List.length_append, List.length_singleton]
    omega
  · refine ⟨rfl, rfl, rfl, rfl, rfl, ?_⟩
    simp only [if_true, List.length_append, List.length_singleton]
    omega

/-- The ledger step writes the party balance and the ledger only; for one of
the four transaction types it appends exactly one ledger entry. -/
theorem updatePartyBalanceAndLog_frame {transaction : Transaction} {createdBy : String}
    {db db1 : Db} (h : updatePartyBalanceAndLog transaction createdBy db = .ok db1) :
    db1.transactions = db.transactions ∧ db1.purchaseLogs = db.purchaseLogs ∧
      db1.stocks = db.stocks ∧ db1.movements = db.movements ∧
      db1.vatReports = db.vatReports ∧
      db1.debitLogs.length + db1.creditLogs.length
        = db.debitLogs.length + db.creditLogs.length +
          (if (balanceEffect transaction.type transaction.totalAmount).isSome then 1 else 0) := by
  unfold updatePartyBalanceAndLog at h
  simp only at h
  split at h
  · rename_i hnone
    cases h
    simp [hnone]
  · rename_i effect hsome
    split at h
    · cases h
    · obtain ⟨h1, h2, h3, h4, h5, h6⟩ := createLog_frame h
      obtain ⟨g1, g2, g3, g4, g5, g6, g7⟩ := setCashBalance_frame
        (decide (transaction.partyType = "Vendor")) transaction.partyId
        (jsAdd ‹Party›.cashBalance effect) db
      refine ⟨h1.trans g1, h2.trans g2, h3.trans g3, h4.trans g4, h5.trans g5, ?_⟩
      rw [h6, g6, g7, hsome]
      rfl

theorem withTransactionSession_ok_inv {α : Type} (fn : Db → Db → Except ServiceError (α × Db))
    (db : Db) (result : α) (working : Db)
    (h : withTransactionSession fn db = (.ok result, working)) :
    fn db db = .ok (result, working) := by
  unfold withTransactionSession at h
  split at h
  · rename_i r w heq
    simp only [Prod.mk.injEq, Except.ok.injEq] at h
    rw [heq, h.1, h.2]
  · simp at h

theorem find?_updateFirst_const {α : Type} (p : α → Bool) (y : α) (hy : p y = true)
    (l : List α) : (updateFirst p (fun _ => y) l).find? p = (l.find? p).map (fun _ => y) := by
  induction l with
  | nil => rfl
  | cons x xs ih =>
    by_cases hx : p x = true
    · simp [updateFirst, hx, List.find?, hy]
    · simp [updateFirst, hx, List.find?, ih]

theorem findTransactionById_id {db : Db} {id : String} {t : Transaction}
    (h : findTransactionById db id = some t) : t._id = id := by
  unfold findTransactionById at h
  simpa using List.find?_some h

/-- A loaded transaction that is saved is what a read by its id finds. -/
theorem findTransactionById_saveTransaction {db db1 : Db} {id : String} {t u : Transaction}
    (hfound : findTransactionById db id = some t) (htrans : db1.transactions = db.transactions)
    (hid : u._id = t._id) :
    findTransactionById (saveTransaction u db1) id = some u := by
  have hu : u._id = id := hid.trans (findTransactionById_id hfound)
  unfold findTransactionById saveTransaction at *
  simp only [htrans, hu]
  rw [find?_updateFirst_const (fun x : Transaction => decide (x._id = id)) u (by simp [hu]),
    hfound]
  rfl

theorem saveTransaction_frame (u : Transaction) (db : Db) :
    (saveTransaction u db).stocks = db.stocks ∧ (saveTransaction u db).movements = db.movements ∧
      (saveTransaction u db).vendors = db.vendors ∧
      (saveTransaction u db).customers = db.customers ∧
      (saveTransaction u db).debitLogs = db.debitLogs ∧
      (saveTransaction u db).creditLogs = db.creditLogs ∧
      (saveTransaction u db).purchaseLogs = db.purchaseLogs ∧
      (saveTransaction u db).vatReports = db.vatReports :=
  ⟨rfl, rfl, rfl, rfl, rfl, rfl, rfl, rfl⟩

theorem updateTransactionStatus_id (t : Transaction) (action : String) :
    (updateTransactionStatus t action)._id = t._id ∧
      (updateTransactionStatus t action).type = t.type := by
  unfold updateTransactionStatus
  split
  · exact ⟨rfl, rfl⟩
  · split
    · exact ⟨rfl, rfl⟩
    · split <;> exact ⟨rfl, rfl⟩

/-- A successful approval block: the stock step succeeded, and what the block
leaves is the result of the stock step as far as stocks and movements go; the
transactions are untouched, and the ledgers got one entry when the type is one
of the four transaction types and none otherwise. -/
theorem approveEffects_ok {committed : Db} {id : String} {t : Transaction}
    {createdBy : String} {db db1 : Db}
    (h : approveEffects committed id t createdBy db = .ok db1) :
    ∃ dbs, processTransactionStock committed id t createdBy db = .ok dbs ∧
      db1.stocks = dbs.stocks ∧ db1.movements = dbs.movements ∧
      db1.transactions = db.transactions ∧
      db1.debitLogs.length + db1.creditLogs.length
        = db.debitLogs.length + db.creditLogs.length +
          (if (balanceEffect t.type t.totalAmount).isSome then 1 else 0) := by
  unfold approveEffects at h
  split at h
  · cases h
  · rename_i dbs hs
    split at h
    · cases h
    · rename_i dbv hv
      split at h
      · cases h
      · rename_i dbl hl
        obtain ⟨s1, _, _, _, s5, s6, _⟩ := processItemsStock_frame _ _ _ hs
        obtain ⟨v1, _, v3, v4, _, _, v7, v8⟩ := createVATReportItems_frame hv
        obtain ⟨l1, _, l3, l4, _, l6⟩ := updatePartyBalanceAndLog_frame hl
        have hfin : db1.stocks = dbl.stocks ∧ db1.movements = dbl.movements ∧
            db1.transactions = dbl.transactions ∧ db1.debitLogs = dbl.debitLogs ∧
            db1.creditLogs = dbl.creditLogs := by
          split at h <;>
          · cases h
            exact ⟨rfl, rfl, rfl, rfl, rfl⟩
        refine ⟨dbs, hs, ?_, ?_, ?_, ?_⟩
        · rw [hfin.1, l3, v3]
        · rw [hfin.2.1, l4, v4]
        · rw [hfin.2.2.1, l1, v1, s1]
        · rw [hfin.2.2.2.1, hfin.2.2.2.2, l6, v7, v8, s5, s6]

/-! ## Processing: status and flags -/

/-- C24: for a found transaction that is not processed yet, every successful
`processTransaction` has one of the three actions, returns the transaction it
persisted, and that transaction has status APPROVED for approve, REJECTED for
reject and CANCELLED for cancel; on approve `grnGenerated` is true for a
purchase_order, `invoiceGenerated` for a sales_order and `creditNoteIssued` for
a sales_return; reject leaves stocks, movements, parties (and so their
balances) and ledgers as they were.  Reject and cancel always succeed on such a
transaction, and approve succeeds whenever its effects do. -/
theorem processTransaction_sets_status (now : JsDate) (id action createdBy : String) (db : Db)
    (t : Transaction) (hfound : findTransactionById db id = some t)
    (hunprocessed : isProcessed t.status = false) :
    (∀ t1 db1, processTransaction now id action createdBy db = (.ok t1, db1) →
      (action = "approve" ∨ action = "reject" ∨ action = "cancel") ∧
      findTransactionById db1 id = some t1 ∧
      (action = "approve" → t1.status = "APPROVED" ∧
        (t.type = "purchase_order" → t1.grnGenerated = some true) ∧
        (t.type = "sales_order" → t1.invoiceGenerated = some true) ∧
        (t.type = "sales_return" → t1.creditNoteIssued = some true)) ∧
      (action = "reject" → t1.status = "REJECTED" ∧
        db1.stocks = db.stocks ∧ db1.movements = db.movements ∧
        db1.vendors = db.vendors ∧ db1.customers = db.customers ∧
        db1.debitLogs = db.debitLogs ∧ db1.creditLogs = db.creditLogs) ∧
      (action = "cancel" → t1.status = "CANCELLED")) ∧
    (action = "reject" ∨ action = "cancel" →
      ∃ t1 db1, processTransaction now id action createdBy db = (.ok t1, db1)) ∧
    (action = "approve" → ∀ dbe, approveEffects db id t createdBy db = .ok dbe →
      ∃ t1 db1, processTransaction now id action createdBy db = (.ok t1, db1)) := by
  refine ⟨?_, ?_, ?_⟩
  · intro t1 db1 hok
    have hbody := withTransactionSession_ok_inv _ _ _ _ hok
    have haction : action = "approve" ∨ action = "reject" ∨ action = "cancel" := by
      by_contra hno
      obtain ⟨e, he⟩ := (validateAction_error_iff t.type action t.status).mpr (Or.inl hno)
      rw [processTransactionBody_invalid hfound he] at hbody
      cases hbody
    have hv : validateAction t.type action t.status = .ok () :=
      (validateAction_ok_iff t.type action t.status).mpr ⟨haction, hunprocessed⟩
    refine ⟨haction, ?_⟩
    rcases haction with rfl | rfl | rfl
    · rw [processTransactionBody_approve hfound hv] at hbody
      cases heff : approveEffects db id t createdBy db with
      | error e => rw [heff] at hbody; cases hbody
      | ok dbe =>
        rw [heff] at hbody
        simp only [Except.ok.injEq, Prod.mk.injEq] at hbody
        obtain ⟨h1, h2⟩ := hbody
        subst h1 h2
        obtain ⟨_, _, _, _, htrans, _⟩ := approveEffects_ok heff
        refine ⟨findTransactionById_saveTransaction hfound htrans
          (updateTransactionStatus_id t "approve").1, ?_, ?_, ?_⟩
        · intro _
          refine ⟨rfl, ?_, ?_, ?_⟩ <;>
          · intro htype
            simp [updateTransactionStatus, htype]
        · intro h; exact absurd h (by decide)
        · intro h; exact absurd h (by decide)
    · rw [processTransactionBody_reject hfound hv] at hbody
      simp only [Except.ok.injEq, Prod.mk.injEq] at hbody
      obtain ⟨h1, h2⟩ := hbody
      subst h1 h2
      refine ⟨findTransactionById_saveTransaction hfound (by split <;> rfl)
        (updateTransactionStatus_id t "reject").1, ?_, ?_, ?_⟩
      · intro h; exact absurd h (by decide)
      · intro _
        refine ⟨rfl, ?_⟩
        by_cases htype : t.type = "purchase_order"
        · simp only [htype, if_true]
          exact ⟨rfl, rfl, rfl, rfl, rfl, rfl⟩
        · simp only [htype, if_false]
          exact ⟨rfl, rfl, rfl, rfl, rfl, rfl⟩
      · intro h; exact absurd h (by decide)
    · rw [processTransactionBody_cancel hfound hv] at hbody
      simp only [Except.ok.injEq, Prod.mk.injEq] at hbody
      obtain ⟨h1, h2⟩ := hbody
      subst h1 h2
      refine ⟨findTransactionById_saveTransaction hfound (by split <;> rfl)
        (updateTransactionStatus_id t "cancel").1, ?_, ?_, ?_⟩
      · intro h; exact absurd h (by decide)
      · intro h; exact absurd h (by decide)
      · intro _; rfl
  · intro haction
    rcases haction with rfl | rfl
    · have hv : validateAction t.type "reject" t.status = .ok () :=
        (validateAction_ok_iff t.type "reject" t.status).mpr ⟨by simp, hunprocessed⟩
      exact ⟨_, _, withTransactionSession_ok _ db _ _ (processTransactionBody_reject hfound hv)⟩
    · have hv : validateAction t.type "cancel" t.status = .ok () :=
        (validateAction_ok_iff t.type "cancel" t.status).mpr ⟨by simp, hunprocessed⟩
      exact ⟨_, _, withTransactionSession_ok _ db _ _ (processTransactionBody_cancel hfound hv)⟩
  · intro haction dbe heff
    subst haction
    have hv : validateAction t.type "approve" t.status = .ok () :=
      (validateAction_ok_iff t.type "approve" t.status).mpr ⟨by simp, hunprocessed⟩
    have hbody := @processTransactionBody_approve now id createdBy db db t hfound hv
    rw [heff] at hbody
    exact ⟨_, _, withTransactionSession_ok _ db _ _ hbody⟩

/-- Witness for C24: approving the sample purchase order in status DRAFT
succeeds, and the persisted order is APPROVED with `grnGenerated` set. -/
theorem processTransaction_sets_status_witness :
    findTransactionById (sampleDb "DRAFT" [sampleVendor]) "t1" = some (sampleOrder "DRAFT") ∧
    isProcessed (sampleOrder "DRAFT").status = false ∧
    ∃ t1 db1,
      processTransaction sampleDate "t1" "approve" "u" (sampleDb "DRAFT" [sampleVendor])
        = (.ok t1, db1) ∧
      findTransactionById db1 "t1" = some t1 ∧ t1.status = "APPROVED" ∧
      t1.grnGenerated = some true := by
  have hok : processTransaction sampleDate "t1" "approve" "u" (sampleDb "DRAFT" [sampleVendor])
      = (.ok (updateTransactionStatus (sampleOrder "DRAFT") "approve"),
         (processTransaction sampleDate "t1" "approve" "u" (sampleDb "DRAFT" [sampleVendor])).2) := by
    with_unfolding_all rfl
  have h := (processTransaction_sets_status sampleDate "t1" "approve" "u"
    (sampleDb "DRAFT" [sampleVendor]) (sampleOrder "DRAFT") rfl rfl).1 _ _ hok
  exact ⟨rfl, rfl, _, _, hok, h.2.1, (h.2.2.1 rfl).1, (h.2.2.1 rfl).2.1 rfl⟩

/-! ## Deletion and the reversal entry -/

/-- C25 on the code: the sample purchase order is approved through
`processTransaction`, which succeeds; `deleteTransaction` of the approved order
then runs the inventory reversal and the ledger reversal, the ledger reversal
fails on the DebitLog validation, the call throws, the store is unchanged and
the transaction record is still there. -/
theorem delete_of_approved_keeps_record :
    ∃ t1 db1,
      processTransaction sampleDate "t1" "approve" "u" (sampleDb "DRAFT" [sampleVendor])
        = (.ok t1, db1) ∧
      t1.status = "APPROVED" ∧
      (∃ dbr, reverseTransactionStock db1 "t1" t1 "u" db1 = .ok dbr ∧
        reversePartyBalanceAndLog sampleDate t1 "u" dbr
          = .error (.validation "DebitLog validation failed")) ∧
      deleteTransaction sampleDate "t1" "u" db1
        = (.error (.validation "DebitLog validation failed"), db1) ∧
      findTransactionById db1 "t1" = some t1 := by
  refine ⟨_, _, by with_unfolding_all rfl, by with_unfolding_all rfl,
    ⟨_, by with_unfolding_all rfl, by with_unfolding_all rfl⟩,
    by with_unfolding_all rfl, by with_unfolding_all rfl⟩

/-- C30 on the code: the entry `reversePartyBalanceAndLog` builds has the
status `REVERSED` and the type `<type>_reversed`; neither the DebitLog nor the
CreditLog schema enumerates that status, so both refuse the entry, whatever the
transaction is.  The reversal of the approved sample purchase order (vendor
ledger) and of the approved sample sales order (customer ledger) fail on the
ledger validation. -/
theorem reversal_entry_rejected_by_ledger_schema :
    (∀ now t createdBy newBalance,
      (reversalLogEntry now t createdBy newBalance).status = "REVERSED" ∧
      validDebitLog (reversalLogEntry now t createdBy newBalance) = false ∧
      validCreditLog (reversalLogEntry now t createdBy newBalance) = false) ∧
    (∃ t1 db1,
      processTransaction sampleDate "t1" "approve" "u" (sampleDb "DRAFT" [sampleVendor])
        = (.ok t1, db1) ∧
      reversePartyBalanceAndLog sampleDate t1 "u" db1
        = .error (.validation "DebitLog validation failed")) ∧
    (∃ t1 db1,
      processTransaction sampleDate "t2" "approve" "u"
        (sampleSalesDb (sampleSalesOrder false none none)) = (.ok t1, db1) ∧
      reversePartyBalanceAndLog sampleDate t1 "u" db1
        = .error (.validation "CreditLog validation failed")) := by
  refine ⟨?_, ⟨_, _, by with_unfolding_all rfl, by with_unfolding_all rfl⟩,
    ⟨_, _, by with_unfolding_all rfl, by with_unfolding_all rfl⟩⟩
  intro now t createdBy newBalance
  refine ⟨rfl, ?_, ?_⟩
  · simp [validDebitLog, reversalLogEntry]
  · simp [validCreditLog, reversalLogEntry]

/-! ## Update -/

theorem updateTransactionBody_processed {id : String} {data : UpdateData} {createdBy : String}
    {committed db : Db} {t : Transaction} (hfound : findTransactionById db id = some t)
    (hp : isProcessed t.status = true) :
    updateTransactionBody id data createdBy committed db
      = .error (.app "Cannot edit processed transactions" 400) := by
  simp [updateTransactionBody, hfound, hp]

theorem updateTransactionBody_unprocessed {id : String} {data : UpdateData}
    {createdBy : String} {committed db : Db} {t : Transaction}
    (hfound : findTransactionById db id = some t) (hp : isProcessed t.status = false) :
    updateTransactionBody id data createdBy committed db
      ≠ .error (.app "Cannot edit processed transactions" 400) := by
  unfold updateTransactionBody
  simp only [hfound, hp, Bool.false_eq_true, if_false]
  split
  · rename_i err hlogged
    split at hlogged
    · split at hlogged
      · split at hlogged
        · cases hlogged
          intro h
          simp at h
        · cases hlogged
      · cases hlogged
    · cases hlogged
  · split
    · intro h
      simp at h
    · intro h
      cases h

/-- C23: `updateTransaction` on a found transaction fails with the
already-processed error (`Cannot edit processed transactions`, 400) exactly
when the status of the transaction is one of APPROVED, REJECTED, CANCELLED,
PAID and PARTIAL; in that case the store, and so the transaction and its
companion purchase log, is unchanged. -/
theorem updateTransaction_processed (id : String) (data : UpdateData) (createdBy : String)
    (db : Db) (t : Transaction) (hfound : findTransactionById db id = some t) :
    ((updateTransaction id data createdBy db).1
        = .error (.app "Cannot edit processed transactions" 400) ↔
      (t.status = "APPROVED" ∨ t.status = "REJECTED" ∨ t.status = "CANCELLED" ∨
        t.status = "PAID" ∨ t.status = "PARTIAL")) ∧
    ((t.status = "APPROVED" ∨ t.status = "REJECTED" ∨ t.status = "CANCELLED" ∨
        t.status = "PAID" ∨ t.status = "PARTIAL") →
      updateTransaction id data createdBy db
          = (.error (.app "Cannot edit processed transactions" 400), db) ∧
        findTransactionById (updateTransaction id data createdBy db).2 id = some t ∧
        (updateTransaction id data createdBy db).2.purchaseLogs = db.purchaseLogs) := by
  have hfail : (t.status = "APPROVED" ∨ t.status = "REJECTED" ∨ t.status = "CANCELLED" ∨
        t.status = "PAID" ∨ t.status = "PARTIAL") →
      updateTransaction id data createdBy db
        = (.error (.app "Cannot edit processed transactions" 400), db) := by
    intro hs
    exact withTransactionSession_error _ db _
      (updateTransactionBody_processed hfound ((isProcessed_iff t.status).mpr hs))
  refine ⟨⟨?_, fun hs => by rw [hfail hs]⟩, fun hs => ⟨hfail hs, ?_, ?_⟩⟩
  · intro herr
    rw [← isProcessed_iff]
    by_contra hnot
    have hp : isProcessed t.status = false := by simpa using hnot
    have hbody := (withTransactionSession_unchanged _ db _ herr).2
    exact updateTransactionBody_unprocessed hfound hp hbody
  · rw [hfail hs]; exact hfound
  · rw [hfail hs]

/-- Witness for C23: an update of the approved sample order is refused and the
store is unchanged. -/
theorem updateTransaction_processed_witness :
    findTransactionById (sampleDb "APPROVED" [sampleVendor]) "t1"
      = some (sampleOrder "APPROVED") ∧
    updateTransaction "t1" sampleUpdateData "u" (sampleDb "APPROVED" [sampleVendor])
      = (.error (.app "Cannot edit processed transactions" 400),
         sampleDb "APPROVED" [sampleVendor]) :=
  ⟨rfl,
   ((updateTransaction_processed "t1" sampleUpdateData "u" (sampleDb "APPROVED" [sampleVendor])
      (sampleOrder "APPROVED") rfl).2 (Or.inl rfl)).1⟩

/-! ## VAT report -/

theorem isOpenReport_extendReport (transaction : Transaction) (type : String)
    (vatItems : List VATItem) (r : VATReport) :
    isOpenReport transaction (extendReport type vatItems r) = isOpenReport transaction r := rfl

theorem vatItemsOf_vatAmount (transaction : Transaction) (db : Db) :
    (vatItemsOf transaction db).map (fun vi => vi.vatAmount)
      = (transaction.items.filter (fun item => item.vatAmount > 0)).map
          (fun item => item.vatAmount) := by
  simp [vatItemsOf, vatItemOf, List.map_map, Function.comp_def]

theorem filter_not_updateFirst {α : Type} (p : α → Bool) (f : α → α)
    (hf : ∀ x, p (f x) = p x) (l : List α) :
    (updateFirst p f l).filter (fun x => !p x) = l.filter (fun x => !p x) := by
  induction l with
  | nil => rfl
  | cons x xs ih =>
    by_cases hx : p x = true
    · simp [updateFirst, hx, List.filter, hf]
    · simp [updateFirst, hx, List.filter, ih]

/-! ## Client helpers -/

theorem string_eq_empty_iff (s : String) : s = "" ↔ s.data = [] := by
  constructor
  · intro h; rw [h]
  · intro h
    cases s with
    | mk data =>
      simp only at h
      subst h
      rfl

theorem manualNumberPattern_iff (s : String) :
    manualNumberPattern s = true ↔
      s ≠ "" ∧ ∀ c ∈ s.data, c.isAlpha = true ∨ c.isDigit = true ∨ c = '-' := by
  unfold manualNumberPattern manualNumberChar
  rw [Ne, string_eq_empty_iff]
  simp [List.all_eq_true, Char.isAlpha, List.isEmpty_iff, or_assoc]

/-- C27, as the claim states it, fails: the number 0, taken as a string and
trimmed, is `0`, which is non-empty and consists of a digit only, and so is
`null`, which consists of letters only; `validateManualNumber` returns false
for both, because it refuses every falsy value first. -/
theorem validateManualNumber_falsy_value_counterexample :
    jsTrim (jsString (.number 0)) = "0" ∧
    (("0" : String).data.all (fun c => c.isAlpha || c.isDigit || c = '-')) = true ∧
    validateManualNumber (.number 0) = false ∧
    jsTrim (jsString .null) = "null" ∧
    (("null" : String).data.all (fun c => c.isAlpha || c.isDigit || c = '-')) = true ∧
    validateManualNumber .null = false := by
  decide

/-- C27 (amended): `validateManualNumber` returns true exactly when the value
is truthy and, taken as a string and trimmed, is non-empty and consists only of
ASCII letters, digits and dashes.  So it returns false for the empty string and
for every value whose trimmed string contains a space or another character;
`ABC-123` is accepted, the empty string and `with space` are rejected. -/
theorem validateManualNumber_accepts (value : JsValue) :
    (validateManualNumber value = true ↔
      jsTruthy value = true ∧ jsTrim (jsString value) ≠ "" ∧
        ∀ c ∈ (jsTrim (jsString value)).data,
          c.isAlpha = true ∨ c.isDigit = true ∨ c = '-') ∧
    (∀ c ∈ (jsTrim (jsString value)).data,
      ¬ (c.isAlpha = true ∨ c.isDigit = true ∨ c = '-') → validateManualNumber value = false) ∧
    validateManualNumber (.string "ABC-123") = true ∧
    validateManualNumber (.string "") = false ∧
    validateManualNumber (.string "with space") = false := by
  have hiff : validateManualNumber value = true ↔
      jsTruthy value = true ∧ jsTrim (jsString value) ≠ "" ∧
        ∀ c ∈ (jsTrim (jsString value)).data,
          c.isAlpha = true ∨ c.isDigit = true ∨ c = '-' := by
    unfold validateManualNumber
    by_cases ht : jsTruthy value = true
    · by_cases he : jsTrim (jsString value) = ""
      · simp [ht, he]
      · simp only [ht, he, Bool.not_true, Bool.false_or, decide_False, Bool.false_eq_true,
          if_false, manualNumberPattern_iff, ne_eq, not_false_eq_true, true_and]
    · simp [ht]
  refine ⟨hiff, ?_, by decide, by decide, by decide⟩
  intro c hc hbad
  by_contra hv
  have htrue : validateManualNumber value = true := by simpa using hv
  exact hbad ((hiff.mp htrue).2.2 c hc)

theorem getField_setField_same (object : JsObject) (key : String) (value : FieldValue) :
    getField (setField object key value) key = some value := by
  unfold getField setField
  by_cases hany : object.any (fun p => decide (p.1 = key)) = true
  · rw [if_pos hany]
    induction object with
    | nil => simp at hany
    | cons x xs ih =>
      by_cases hx : x.1 = key
      · simp [List.find?, hx]
      · have hrest : xs.any (fun p => decide (p.1 = key)) = true := by
          simpa [hx] using hany
        simpa [List.find?, hx] using ih hrest
  · rw [if_neg hany]
    have hnone : object.find? (fun p => decide (p.1 = key)) = none := by
      rw [List.find?_eq_none]
      intro x hx hkey
      exact hany (List.any_eq_true.mpr ⟨x, hx, hkey⟩)
    simp [List.find?_append, hnone, List.find?]

theorem find?_map_replace_other (key other : String) (value : FieldValue)
    (hne : other ≠ key) (object : JsObject) :
    (object.map (fun p => if p.1 = key then (key, value) else p)).find?
        (fun p => decide (p.1 = other))
      = object.find? (fun p => decide (p.1 = other)) := by
  have hne2 : ¬ key = other := fun h => hne h.symm
  induction object with
  | nil => rfl
  | cons x xs ih =>
    rw [List.map_cons, List.find?_cons, List.find?_cons, ih]
    by_cases hx : x.1 = key
    · simp only [hx, if_true, hne2, decide_False]
    · simp only [hx, if_false]

theorem getField_setField_other (object : JsObject) (key other : String) (value : FieldValue)
    (hne : other ≠ key) :
    getField (setField object key value) other = getField object other := by
  unfold getField setField
  have hne2 : ¬ key = other := fun h => hne h.symm
  split
  · rw [find?_map_replace_other key other value hne]
  · simp [List.find?_append, List.find?, hne2]

theorem getField_spreadFields_absent (other : JsObject) (key : String)
    (habsent : ∀ p ∈ other, p.1 ≠ key) (object : JsObject) :
    getField (spreadFields object other) key = getField object key := by
  unfold spreadFields
  induction other generalizing object with
  | nil => rfl
  | cons p ps ih =>
    rw [List.foldl_cons, ih (fun q hq => habsent q (List.mem_cons_of_mem _ hq))]
    exact getField_setField_other object p.1 key p.2
      (fun h => habsent p (List.mem_cons_self _ _) h.symm)

/-- C28, as the claim states it, fails: other fields that carry the key `type`
override the requested type, and other fields that carry `transactionNo` put it
into the payload of an auto sales order. -/
theorem buildOrderPayload_other_fields_counterexample :
    getField (buildOrderPayload "sales_order" ⟨.bool false, .undefined, .undefined⟩
        [("type", .primitive (.string "purchase_order"))]) "type"
      = some (.primitive (.string "purchase_order")) ∧
    getField (buildOrderPayload "sales_order" ⟨.bool false, .undefined, .undefined⟩
        [("transactionNo", .primitive (.string "PO-1"))]) "transactionNo"
      = some (.primitive (.string "PO-1")) := by
  decide

/-- C28 (amended): for every form state and all other fields that carry none
of the keys `type`, `orderNumber` and `transactionNo`, the payload of
`buildOrderPayload` has the requested type; in auto mode it has neither
`orderNumber` nor `transactionNo`; for a manual sales_order it has no
`transactionNo`, and as `orderNumber` the trimmed order number of the form when
that is truthy and none otherwise; for a manual purchase_order it has no
`orderNumber`, and as `transactionNo` the trimmed transaction number of the
form when that is truthy and none otherwise. -/
theorem buildOrderPayload_numbering (type : String) (formState : FormState)
    (otherFields : JsObject)
    (hother : ∀ p ∈ otherFields,
      p.1 ≠ "type" ∧ p.1 ≠ "orderNumber" ∧ p.1 ≠ "transactionNo") :
    getField (buildOrderPayload type formState otherFields) "type"
      = some (.primitive (.string type)) ∧
    (jsTruthy formState.manual = false →
      getField (buildOrderPayload type formState otherFields) "orderNumber" = none ∧
      getField (buildOrderPayload type formState otherFields) "transactionNo" = none) ∧
    (type = "sales_order" → jsTruthy formState.manual = true →
      getField (buildOrderPayload type formState otherFields) "transactionNo" = none ∧
      getField (buildOrderPayload type formState otherFields) "orderNumber"
        = if jsTruthy formState.orderNumber then
            some (.primitive (.string (jsTrim (jsString formState.orderNumber))))
          else none) ∧
    (type = "purchase_order" → jsTruthy formState.manual = true →
      getField (buildOrderPayload type formState otherFields) "orderNumber" = none ∧
      getField (buildOrderPayload type formState otherFields) "transactionNo"
        = if jsTruthy formState.transactionNo then
            some (.primitive (.string (jsTrim (jsString formState.transactionNo))))
          else none) := by
  have htype : getField (spreadFields [("type", .primitive (.string type))] otherFields) "type"
      = some (.primitive (.string type)) := by
    rw [getField_spreadFields_absent otherFields "type" (fun p hp => (hother p hp).1)]
    simp [getField, List.find?]
  have horder : getField (spreadFields [("type", .primitive (.string type))] otherFields)
      "orderNumber" = none := by
    rw [getField_spreadFields_absent otherFields "orderNumber" (fun p hp => (hother p hp).2.1)]
    simp [getField, List.find?]
  have hno : getField (spreadFields [("type", .primitive (.string type))] otherFields)
      "transactionNo" = none := by
    rw [getField_spreadFields_absent otherFields "transactionNo" (fun p hp => (hother p hp).2.2)]
    simp [getField, List.find?]
  refine ⟨?_, ?_, ?_, ?_⟩
  · unfold buildOrderPayload
    simp only
    split
    · split
      · split
        · rw [getField_setField_other _ _ _ _ (by decide)]; exact htype
        · exact htype
      · exact htype
    · split
      · split
        · split
          · rw [getField_setField_other _ _ _ _ (by decide)]; exact htype
          · exact htype
        · exact htype
      · exact htype
  · intro hauto
    unfold buildOrderPayload
    simp only [hauto, Bool.false_eq_true, if_false, ite_self]
    exact ⟨horder, hno⟩
  · intro hsales hmanual
    unfold buildOrderPayload
    simp only [hsales, hmanual, if_true]
    by_cases ho : jsTruthy formState.orderNumber = true
    · simp only [ho, if_true]
      exact ⟨by rw [getField_setField_other _ _ _ _ (by decide)]; rw [← hsales]; exact hno,
        getField_setField_same _ _ _⟩
    · simp only [ho, if_false]
      rw [← hsales]
      exact ⟨hno, horder⟩
  · intro hpurchase hmanual
    unfold buildOrderPayload
    have hns : ¬ ("purchase_order" = "sales_order") := by decide
    simp only [hpurchase, hns, hmanual, if_true, if_false]
    by_cases ho : jsTruthy formState.transactionNo = true
    · simp only [ho, if_true]
      exact ⟨by rw [getField_setField_other _ _ _ _ (by decide)]; rw [← hpurchase]; exact horder,
        getField_setField_same _ _ _⟩
    · simp only [ho, if_false]
      rw [← hpurchase]
      exact ⟨horder, hno⟩

/-- Witness for C28 (amended): the manual sales order of the test, with the
party id among the other fields, carries its order number and no transaction
number. -/
theorem buildOrderPayload_numbering_witness :
    getField (buildOrderPayload "sales_order"
        ⟨.bool true, .string " SO202512-54321 ", .undefined⟩
        [("partyId", .primitive (.string "p1"))]) "transactionNo" = none ∧
    getField (buildOrderPayload "sales_order"
        ⟨.bool true, .string " SO202512-54321 ", .undefined⟩
        [("partyId", .primitive (.string "p1"))]) "orderNumber"
      = some (.primitive (.string "SO202512-54321")) :=
  (buildOrderPayload_numbering "sales_order"
      ⟨.bool true, .string " SO202512-54321 ", .undefined⟩
      [("partyId", .primitive (.string "p1"))] (by decide)).2.2.1 rfl rfl

/-! ## Movements and ledger entries of an approval -/

theorem movementBalanced_of_figures {m r : InventoryMovement}
    (h : movementFigures m = movementFigures r) (hr : movementBalanced r) :
    movementBalanced m := by
  simp only [movementFigures, Prod.mk.injEq] at h
  obtain ⟨_, _, hq, hp, hn, hu, ht⟩ := h
  unfold movementBalanced at *
  rw [hq, hp, hn, hu, ht]
  exact hr

theorem approvalMovement_balanced (transactionId type transactionNo createdBy : String)
    (item : Item) (stock : Stock) (id : String) :
    movementBalanced
      (approvalMovement transactionId type transactionNo createdBy item stock id) :=
  ⟨rfl, rfl⟩

theorem reversalMovement_balanced (transactionId : String) (transaction : Transaction)
    (createdBy : String) (movement : InventoryMovement) (stock : Stock) (id : String) :
    movementBalanced
      (reversalMovement transactionId transaction createdBy movement stock id) :=
  ⟨rfl, rfl⟩

theorem updateFirst_append_of_some {α : Type} (p : α → Bool) (f : α → α) (l rest : List α)
    (hsome : ∃ x ∈ l, p x = true) :
    updateFirst p f (l ++ rest) = updateFirst p f l ++ rest := by
  induction l with
  | nil =>
    obtain ⟨x, hx, _⟩ := hsome
    cases hx
  | cons y ys ih =>
    by_cases hy : p y = true
    · simp [updateFirst, hy]
    · obtain ⟨x, hx, hpx⟩ := hsome
      rcases List.mem_cons.mp hx with rfl | hmem
      · exact absurd hpx hy
      · simp [updateFirst, hy, ih ⟨x, hmem, hpx⟩]

/-- A successful stock step of an approval appends one balanced movement per
line item. -/
theorem processTransactionStock_movements {committed : Db} {transactionId : String}
    {transaction : Transaction} {createdBy : String} {db db1 : Db}
    (h : processTransactionStock committed transactionId transaction createdBy db = .ok db1) :
    ∃ new, db1.movements = db.movements ++ new ∧
      new.length = transaction.items.length ∧ ∀ m ∈ new, movementBalanced m := by
  unfold processTransactionStock at h
  obtain ⟨pairs, hfst, _, hmov, _⟩ := processItemsStock_run transaction.items db db1 h
  refine ⟨_, hmov, ?_, ?_⟩
  · rw [approvalMovements_length, ← hfst, List.length_map]
  · intro m hm
    obtain ⟨p, _, k, _, rfl⟩ := approvalMovements_mem hm
    exact approvalMovement_balanced _ _ _ _ _ _ _

/-- A successful run of the loop of `reverseTransactionStock` over movements
of the store: seen through their figures, the movements afterwards are the
movements before, followed by one balanced offsetting movement per movement of
the run. -/
theorem reverseMovements_figures {committed : Db} {transactionId : String}
    {transaction : Transaction} {createdBy : String}
    (todo : List InventoryMovement) (db db1 : Db)
    (hids : ∀ m ∈ todo, m._id ∈ db.movements.map (fun x => x._id))
    (h : reverseMovements committed transactionId transaction createdBy todo db = .ok db1) :
    ∃ news : List InventoryMovement,
      db1.movements.map movementFigures
        = db.movements.map movementFigures ++ news.map movementFigures ∧
      news.length = todo.length ∧
      ∀ r ∈ news, movementBalanced r ∧ r.isReversed = false := by
  induction todo generalizing db with
  | nil =>
    simp only [reverseMovements, Except.ok.injEq] at h
    subst h
    exact ⟨[], by simp, rfl, by simp⟩
  | cons m rest ih =>
    cases hs : getStockByItemId committed m.stockId with
    | error e =>
      have he : reverseMovement committed transactionId transaction createdBy m db
          = .error e := by simp [reverseMovement, hs]
      simp [reverseMovements, he] at h
    | ok s =>
      simp only [reverseMovements, reverseMovement_eq hs] at h
      have hin : ∃ x ∈ db.movements, decide (x._id = m._id) = true := by
        obtain ⟨x, hx, hid⟩ := List.mem_map.mp (hids m (List.mem_cons_self _ _))
        exact ⟨x, hx, by simpa using hid⟩
      have hfig : (updateFirst (fun x : InventoryMovement => decide (x._id = m._id))
            (fun x => flagReversed x
              (reversalMovement transactionId transaction createdBy m s (toString db.nextId)))
            (db.movements ++
              [reversalMovement transactionId transaction createdBy m s
                (toString db.nextId)])).map movementFigures
          = db.movements.map movementFigures ++
            [movementFigures
              (reversalMovement transactionId transaction createdBy m s
                (toString db.nextId))] := by
        rw [updateFirst_append_of_some _ _ _ _ hin, List.map_append,
          map_updateFirst movementFigures
            (fun x : InventoryMovement => decide (x._id = m._id))
            (fun x => flagReversed x
              (reversalMovement transactionId transaction createdBy m s (toString db.nextId)))
            (fun _ => rfl)]
        rfl
      have hids2 : ∀ m2 ∈ rest, m2._id ∈ (updateFirst
            (fun x : InventoryMovement => decide (x._id = m._id))
            (fun x => flagReversed x
              (reversalMovement transactionId transaction createdBy m s (toString db.nextId)))
            (db.movements ++
              [reversalMovement transactionId transaction createdBy m s
                (toString db.nextId)])).map (fun x => x._id) := by
        intro m2 hm2
        rw [map_updateFirst (fun x : InventoryMovement => x._id)
            (fun x : InventoryMovement => decide (x._id = m._id))
            (fun x => flagReversed x
              (reversalMovement transactionId transaction createdBy m s (toString db.nextId)))
            (fun _ => rfl),
          List.map_append]
        exact List.mem_append_left _ (hids m2 (List.mem_cons_of_mem _ hm2))
      obtain ⟨news, hmap, hlen, hbal⟩ := ih _ hids2 h
      refine ⟨reversalMovement transactionId transaction createdBy m s (toString db.nextId)
        :: news, ?_, by simp [hlen], ?_⟩
      · rw [hmap]
        simp only at hfig ⊢
        rw [hfig]
        simp
      · intro r hr
        rcases List.mem_cons.mp hr with rfl | hr
        · exact ⟨reversalMovement_balanced _ _ _ _ _ _, rfl⟩
        · exact hbal r hr

/-- A successful `reverseTransactionStock`: the movements afterwards are the
movements before, with unchanged figures, followed by one balanced offsetting
movement per non-reversed movement of the transaction. -/
theorem reverseTransactionStock_movements {committed : Db} {transactionId : String}
    {transaction : Transaction} {createdBy : String} {db db1 : Db}
    (h : reverseTransactionStock committed transactionId transaction createdBy db = .ok db1) :
    ∃ kept new, db1.movements = kept ++ new ∧
      kept.map movementFigures = db.movements.map movementFigures ∧
      new.length = (db.movements.filter (fun m =>
        m.referenceId = transactionId && m.referenceType = "Transaction" && !m.isReversed)).length ∧
      ∀ r ∈ new, movementBalanced r := by
  cases hrun : reverseMovements committed transactionId transaction createdBy
      (db.movements.filter (fun m =>
        m.referenceId = transactionId && m.referenceType = "Transaction" && !m.isReversed)) db with
  | error e => simp [reverseTransactionStock, hrun] at h
  | ok run =>
    have hmovs : db1.movements = run.movements := by
      obtain ⟨db2, hrev, _, hm⟩ := reverseTransactionStock_of_run hrun
      rw [h] at hrev
      cases hrev
      exact hm
    obtain ⟨news, hmap, hlen, hbal⟩ := reverseMovements_figures _ db run
      (fun m hm => List.mem_map_of_mem _ (List.mem_of_mem_filter hm)) hrun
    rw [← hmovs] at hmap
    have hlenmap : db1.movements.length = db.movements.length + news.length := by
      have := congrArg List.length hmap
      simpa using this
    refine ⟨db1.movements.take db.movements.length, db1.movements.drop db.movements.length,
      (List.take_append_drop _ _).symm, ?_, ?_, ?_⟩
    · rw [List.map_take, hmap]
      simp
    · rw [List.length_drop, hlenmap, ← hlen]
      omega
    · intro r hr
      have hfig : movementFigures r ∈ news.map movementFigures := by
        have hmem : movementFigures r
            ∈ (db1.movements.drop db.movements.length).map movementFigures :=
          List.mem_map_of_mem _ hr
        rw [List.map_drop, hmap] at hmem
        simpa using hmem
      obtain ⟨r2, hr2, heq⟩ := List.mem_map.mp hfig
      exact movementBalanced_of_figures heq.symm (hbal r2 hr2).1

/-- C29: every movement `processTransactionStock` or `reverseTransactionStock`
writes has `newStock = previousStock + quantity` and
`totalValue = |quantity| * unitCost`: a successful stock step appends one such
movement per line item, and a successful reversal appends one such movement per
non-reversed movement of the transaction and leaves the figures of the stored
movements alone.  A successful approval of a found transaction of one of the
four types leaves exactly one more movement per line item of the transaction,
each of them balanced, and exactly one more ledger entry. -/
theorem approval_movements_and_ledger_entry (now : JsDate) (id createdBy : String) (db : Db)
    (t t1 : Transaction) (db1 : Db)
    (hfound : findTransactionById db id = some t)
    (htype : t.type = "purchase_order" ∨ t.type = "sales_order" ∨
      t.type = "purchase_return" ∨ t.type = "sales_return")
    (hok : processTransaction now id "approve" createdBy db = (.ok t1, db1)) :
    (∃ new, db1.movements = db.movements ++ new ∧ new.length = t.items.length ∧
      ∀ m ∈ new, movementBalanced m) ∧
    db1.debitLogs.length + db1.creditLogs.length
      = db.debitLogs.length + db.creditLogs.length + 1 ∧
    (∀ (committed : Db) (transactionId : String) (transaction : Transaction) (actor : String)
        (d d1 : Db),
      processTransactionStock committed transactionId transaction actor d = .ok d1 →
      ∃ new, d1.movements = d.movements ++ new ∧ new.length = transaction.items.length ∧
        ∀ m ∈ new, movementBalanced m) ∧
    (∀ (committed : Db) (transactionId : String) (transaction : Transaction) (actor : String)
        (d d1 : Db),
      reverseTransactionStock committed transactionId transaction actor d = .ok d1 →
      ∃ kept new, d1.movements = kept ++ new ∧
        kept.map movementFigures = d.movements.map movementFigures ∧
        new.length = (d.movements.filter (fun m =>
          m.referenceId = transactionId && m.referenceType = "Transaction" &&
            !m.isReversed)).length ∧
        ∀ r ∈ new, movementBalanced r) := by
  have hbody := withTransactionSession_ok_inv _ _ _ _ hok
  have hprocessed : isProcessed t.status = false := by
    by_contra hp
    have hp2 : isProcessed t.status = true := by simpa using hp
    obtain ⟨e, he⟩ := (validateAction_error_iff t.type "approve" t.status).mpr (Or.inr hp2)
    rw [processTransactionBody_invalid hfound he] at hbody
    cases hbody
  have hv : validateAction t.type "approve" t.status = .ok () :=
    (validateAction_ok_iff t.type "approve" t.status).mpr ⟨by simp, hprocessed⟩
  rw [processTransactionBody_approve hfound hv] at hbody
  have heffect : (balanceEffect t.type t.totalAmount).isSome = true := by
    rcases htype with h | h | h | h <;> simp [balanceEffect, h]
  cases heff : approveEffects db id t createdBy db with
  | error e => rw [heff] at hbody; cases hbody
  | ok dbe =>
    rw [heff] at hbody
    simp only [Except.ok.injEq, Prod.mk.injEq] at hbody
    obtain ⟨_, h2⟩ := hbody
    subst h2
    obtain ⟨dbs, hstock, _, hmov, _, hlogs⟩ := approveEffects_ok heff
    obtain ⟨new, hnew, hlen, hbal⟩ := processTransactionStock_movements hstock
    refine ⟨⟨new, ?_, hlen, hbal⟩, ?_,
      fun _ _ _ _ _ _ h => processTransactionStock_movements h,
      fun _ _ _ _ _ _ h => reverseTransactionStock_movements h⟩
    · show dbe.movements = db.movements ++ new
      rw [hmov, hnew]
    · show dbe.debitLogs.length + dbe.creditLogs.length = _
      rw [hlogs, heffect]
      rfl

/-- Witness for C29: approving the sample purchase order (one line item)
succeeds and leaves one more movement, balanced, and one more ledger entry. -/
theorem approval_movements_and_ledger_entry_witness :
    ∃ t1 db1,
      processTransaction sampleDate "t1" "approve" "u" (sampleDb "DRAFT" [sampleVendor])
        = (.ok t1, db1) ∧
      (∃ new, db1.movements = (sampleDb "DRAFT" [sampleVendor]).movements ++ new ∧
        new.length = (sampleOrder "DRAFT").items.length ∧ ∀ m ∈ new, movementBalanced m) ∧
      db1.debitLogs.length + db1.creditLogs.length
        = (sampleDb "DRAFT" [sampleVendor]).debitLogs.length
          + (sampleDb "DRAFT" [sampleVendor]).creditLogs.length + 1 := by
  have hok : processTransaction sampleDate "t1" "approve" "u" (sampleDb "DRAFT" [sampleVendor])
      = (.ok (updateTransactionStatus (sampleOrder "DRAFT") "approve"),
         (processTransaction sampleDate "t1" "approve" "u" (sampleDb "DRAFT" [sampleVendor])).2) := by
    with_unfolding_all rfl
  have h := approval_movements_and_ledger_entry sampleDate "t1" "u"
    (sampleDb "DRAFT" [sampleVendor]) (sampleOrder "DRAFT") _ _ rfl (Or.inl rfl) hok
  exact ⟨_, _, hok, h.1, h.2.1⟩

/-! ## The reversal entry -/

/-- C13 on the code: the sample purchase order (total 52.5, vendor balance
100) is approved through `processTransaction`, which writes the ledger entry
with amount 52.5.  The reversal of the approved order then builds an entry with
reference `REV-t1` whose amount is again 52.5, the absolute value of the total,
not -52.5, and whose type and status the DebitLog schema refuses: the creation
fails, `reversePartyBalanceAndLog` throws, and `deleteTransaction`, which calls
it, leaves the ledger with the approval entry only. -/
theorem reversal_entry_is_not_written :
    ∃ t1 db1,
      processTransaction sampleDate "t1" "approve" "u" (sampleDb "DRAFT" [sampleVendor])
        = (.ok t1, db1) ∧
      db1.debitLogs = [approvalLogEntry (sampleOrder "DRAFT") "u" (105 / 2) (305 / 2)] ∧
      (approvalLogEntry (sampleOrder "DRAFT") "u" (105 / 2) (305 / 2)).amount = 105 / 2 ∧
      reversePartyBalanceAndLog sampleDate t1 "u" db1
        = createLog true (reversalLogEntry sampleDate t1 "u" 100)
            (setCashBalance true "v1" 100 db1) ∧
      (reversalLogEntry sampleDate t1 "u" 100).ref = "REV-t1" ∧
      (reversalLogEntry sampleDate t1 "u" 100).amount = 105 / 2 ∧
      (reversalLogEntry sampleDate t1 "u" 100).amount ≠ -(105 / 2) ∧
      validDebitLog (reversalLogEntry sampleDate t1 "u" 100) = false ∧
      reversePartyBalanceAndLog sampleDate t1 "u" db1
        = .error (.validation "DebitLog validation failed") ∧
      deleteTransaction sampleDate "t1" "u" db1
        = (.error (.validation "DebitLog validation failed"), db1) := by
  refine ⟨_, _, by with_unfolding_all rfl, by with_unfolding_all rfl, rfl,
    by with_unfolding_all rfl, by with_unfolding_all rfl, by with_unfolding_all rfl,
    by with_unfolding_all decide, by with_unfolding_all rfl, by with_unfolding_all rfl,
    by with_unfolding_all rfl⟩

/-! ## Numbers: integers are exact -/

theorem log2Floor_bounds (fuel : Nat) :
    ∀ n, 1 ≤ n → n ≤ fuel → 2 ^ log2Floor fuel n ≤ n ∧ n < 2 ^ (log2Floor fuel n + 1) := by
  induction fuel with
  | zero => intro n h1 h2; omega
  | succ f ih =>
    intro n h1 h2
    by_cases h : 2 ≤ n
    · have hrec := ih (n / 2) (by omega) (by omega)
      simp only [log2Floor, h, if_true]
      have e1 : 2 ^ (log2Floor f (n / 2) + 1) = 2 * 2 ^ log2Floor f (n / 2) := by
        rw [pow_succ]; ring
      have e2 : 2 ^ (log2Floor f (n / 2) + 1 + 1) = 2 * 2 ^ (log2Floor f (n / 2) + 1) := by
        rw [pow_succ]; ring
      rw [e2]
      rw [e1] at hrec ⊢
      omega
    · have hn : n = 1 := by omega
      subst hn
      simp [log2Floor]

theorem roundHalfEven_mul (m d : Nat) (hd : 0 < d) : roundHalfEven (m * d) d = m := by
  unfold roundHalfEven
  have hq : m * d / d = m := Nat.mul_div_cancel m hd
  have hr : m * d % d = 0 := Nat.mul_mod_left m d
  simp only [hq, hr, Nat.mul_zero, hd, if_true]

theorem fractionLog2_natural (a : Nat) (ha : 1 ≤ a) :
    fractionLog2 a 1 = (log2Floor a a : Int) := by
  have hb := (log2Floor_bounds a a ha (Nat.le_refl a)).1
  have h1 : log2Floor 1 1 = 0 := rfl
  unfold fractionLog2
  simp only [h1, Nat.cast_zero, sub_zero, Int.toNat_ofNat, Nat.one_mul]
  have hnn : (0 : Int) ≤ (log2Floor a a : Int) := Int.ofNat_nonneg _
  simp [hnn, hb]

/-- A natural number of at most 53 bits is a double. -/
theorem roundDouble_natCast (a : Nat) (ha : a ≤ 2 ^ 53) : roundDouble (a : ℚ) = a := by
  by_cases h0 : a = 0
  · subst h0
    simp [roundDouble]
  have ha1 : 1 ≤ a := Nat.one_le_iff_ne_zero.mpr h0
  obtain ⟨hlo, _⟩ := log2Floor_bounds a a ha1 (Nat.le_refl a)
  have hL : log2Floor a a ≤ 53 := by
    by_contra hgt
    have h54 : 2 ^ 54 ≤ 2 ^ log2Floor a a := Nat.pow_le_pow_right (by decide) (by omega)
    have h5354 : (2 : Nat) ^ 53 < 2 ^ 54 := by decide
    omega
  have hx0 : (a : ℚ) ≠ 0 := by exact_mod_cast h0
  have hneg : ¬ ((a : ℚ) < 0) := by
    have : (0 : ℚ) ≤ (a : ℚ) := Nat.cast_nonneg a
    exact not_lt.mpr this
  unfold roundDouble
  simp only [hx0, if_false, hneg, Rat.num_natCast, Rat.den_natCast, Int.natAbs_ofNat,
    fractionLog2_natural a ha1]
  generalize hLdef : log2Floor a a = L at hlo hL
  have hmax : max ((L : Int) - 52) (-1074) = (L : Int) - 52 := by
    apply max_eq_left
    omega
  rw [hmax]
  by_cases he : (0 : Int) ≤ (L : Int) - 52
  · simp only [he, if_true]
    have hcases : L = 52 ∨ L = 53 := by omega
    rcases hcases with rfl | rfl
    · have ht : ((52 : Nat) : Int) - 52 = 0 := by norm_num
      simp only [ht, Int.toNat_zero, pow_zero, Nat.mul_one]
      rw [show roundHalfEven a 1 = a from by simpa using roundHalfEven_mul a 1 (by decide)]
    · have ht : (((53 : Nat) : Int) - 52).toNat = 1 := by norm_num
      have ha53 : a = 2 ^ 53 := by omega
      simp only [ht, pow_one, Nat.one_mul]
      subst ha53
      rfl
  · simp only [he, if_false]
    obtain ⟨j, hj⟩ : ∃ j : Nat, (-((L : Int) - 52)).toNat = j := ⟨_, rfl⟩
    rw [hj, show roundHalfEven (a * 2 ^ j) 1 = a * 2 ^ j from by
      simpa using roundHalfEven_mul (a * 2 ^ j) 1 (by decide)]
    have hp : ((2 ^ j : Nat) : ℚ) ≠ 0 := by
      have : (2 ^ j : Nat) ≠ 0 := Nat.pos_iff_ne_zero.mp (pow_pos (by decide) j)
      exact_mod_cast this
    rw [Nat.cast_mul, mul_div_assoc, div_self hp, mul_one]

/-- An integer of magnitude at most 2^53 is a double. -/
theorem roundDouble_neg_natCast (n : Nat) :
    roundDouble (-(n : ℚ)) = -roundDouble (n : ℚ) := by
  by_cases h0 : (n : ℚ) = 0
  · simp [h0, roundDouble]
  · have hpos : (0 : ℚ) < (n : ℚ) := lt_of_le_of_ne (Nat.cast_nonneg _) (Ne.symm h0)
    have hn0 : -(n : ℚ) ≠ 0 := neg_ne_zero.mpr h0
    have hlt : -(n : ℚ) < 0 := neg_neg_of_pos hpos
    have hnl : ¬ (n : ℚ) < 0 := not_lt.mpr hpos.le
    unfold roundDouble
    simp only [hn0, h0, if_false, hlt, if_true, hnl, Rat.num_neg_eq_neg_num, Rat.neg_den,
      Int.natAbs_neg]

theorem roundDouble_intCast (k : Int) (hk : k.natAbs ≤ 2 ^ 53) : roundDouble (k : ℚ) = k := by
  obtain ⟨n, rfl | rfl⟩ := Int.eq_nat_or_neg k
  · have hn : n ≤ 2 ^ 53 := by simpa using hk
    simpa using roundDouble_natCast n hn
  · have hn : n ≤ 2 ^ 53 := by simpa using hk
    push_cast
    rw [roundDouble_neg_natCast, roundDouble_natCast n hn]

/-- The sum of two integers is exact when it has magnitude at most 2^53. -/
theorem jsAdd_intCast (a b : Int) (h : (a + b).natAbs ≤ 2 ^ 53) :
    jsAdd (a : ℚ) (b : ℚ) = ((a + b : Int) : ℚ) := by
  unfold jsAdd
  rw [← Int.cast_add]
  exact roundDouble_intCast (a + b) h

/-! ## Stock levels after the stock step -/

theorem levelAfter_of_absent (writes : List (String × ℚ)) (a : String) (cur : ℚ)
    (h : ∀ w ∈ writes, w.1 ≠ a) : levelAfter writes a cur = cur := by
  induction writes generalizing cur with
  | nil => rfl
  | cons w ws ih =>
    have hw : ¬ a = w.1 := fun e => h w (List.mem_cons_self _ _) e.symm
    rw [levelAfter_cons, if_neg hw]
    exact ih cur (fun v hv => h v (List.mem_cons_of_mem _ hv))

theorem levelAfter_append (first second : List (String × ℚ)) (a : String) (cur : ℚ) :
    levelAfter (first ++ second) a cur = levelAfter second a (levelAfter first a cur) := by
  simp [levelAfter, List.foldl_append]

/-- The last write to a stock document stands. -/
theorem levelAfter_last_write (before after : List (String × ℚ)) (w : String × ℚ) (cur : ℚ)
    (h : ∀ v ∈ after, v.1 ≠ w.1) :
    levelAfter (before ++ w :: after) w.1 cur = w.2 := by
  rw [levelAfter_append, levelAfter_cons, if_pos rfl]
  exact levelAfter_of_absent after w.1 w.2 h

theorem stockLevel_isSome_of_mem {db : Db} {stock : Stock} (h : stock ∈ db.stocks) :
    ∃ x, stockLevel db stock._id = some x := by
  unfold stockLevel findStockById
  cases hfind : db.stocks.find? (fun s => decide (s._id = stock._id)) with
  | some found => exact ⟨found.currentStock, rfl⟩
  | none =>
    rw [List.find?_eq_none] at hfind
    exact absurd (by simp) (hfind stock h)

/-- C14: a successful `processTransactionStock` has found the stock document
of every line item in the committed state, and its loop has written, line by
line in the order of the items, the level currentStock + d to the stock
document of the line, where currentStock is the level looked up for the line
and d is +qty for purchase_order and sales_return and -qty for sales_order and
purchase_return.  So the stock document of a line that no later line writes
again ends at currentStock + d, every stock document ends at the level of the
last write to it, and a stock document of no line keeps its level.  The call
succeeds whenever every item has a stock document, whatever the resulting
levels are: its only failure is a lookup that finds nothing. -/
theorem processTransactionStock_sets_stock (committed : Db) (transactionId : String)
    (t : Transaction) (createdBy : String) (db db1 : Db)
    (hok : processTransactionStock committed transactionId t createdBy db = .ok db1) :
    (∀ qty, getQuantityChange t.type qty =
      if t.type = "purchase_order" ∨ t.type = "sales_return" then qty
      else if t.type = "sales_order" ∨ t.type = "purchase_return" then -qty
      else 0) ∧
    (∃ pairs : List (Item × Stock),
      pairs.map Prod.fst = t.items ∧
      (∀ p ∈ pairs, getStockByItemId committed p.1.itemId = .ok p.2) ∧
      (∀ a, stockLevel db1 a
        = (stockLevel db a).map (levelAfter (approvalWrites t.type pairs) a)) ∧
      (∀ before p after, pairs = before ++ p :: after →
        (∀ q ∈ after, q.2._id ≠ p.2._id) → p.2 ∈ db.stocks →
        stockLevel db1 p.2._id
          = some (jsAdd p.2.currentStock (getQuantityChange t.type p.1.qty))) ∧
      (∀ a, (∀ p ∈ pairs, p.2._id ≠ a) → stockLevel db1 a = stockLevel db a)) ∧
    (∀ other : Db,
      (∀ i ∈ t.items, ∃ stock, getStockByItemId committed i.itemId = .ok stock) →
      ∃ result, processTransactionStock committed transactionId t createdBy other
        = .ok result) ∧
    (∀ (other : Db) err,
      processTransactionStock committed transactionId t createdBy other = .error err →
      err = .app "Stock item not found" 404 ∧
        ∃ i ∈ t.items, getStockByItemId committed i.itemId = .error err) := by
  refine ⟨fun qty => getQuantityChange_table _ qty, ?_,
    fun other hall => processItemsStock_ok t.items hall other,
    fun other err h => processItemsStock_error t.items other err h⟩
  unfold processTransactionStock at hok
  obtain ⟨pairs, hfst, hlook, _, _, _, hlevel⟩ := processItemsStock_run t.items db db1 hok
  refine ⟨pairs, hfst, hlook, hlevel, ?_, ?_⟩
  · intro before p after hpairs hafter hmem
    obtain ⟨x, hx⟩ := stockLevel_isSome_of_mem hmem
    rw [hlevel, hx, hpairs]
    simp only [approvalWrites, List.map_append, List.map_cons, Option.map_some']
    have hlast := levelAfter_last_write
      (before.map (fun p => (p.2._id, jsAdd p.2.currentStock (getQuantityChange t.type p.1.qty))))
      (after.map (fun p => (p.2._id, jsAdd p.2.currentStock (getQuantityChange t.type p.1.qty))))
      (p.2._id, jsAdd p.2.currentStock (getQuantityChange t.type p.1.qty)) x
      (by
        intro v hv
        obtain ⟨q, hq, rfl⟩ := List.mem_map.mp hv
        exact hafter q hq)
    rw [hlast]
  · intro a habsent
    rw [hlevel]
    cases hs : stockLevel db a with
    | none => rfl
    | some x =>
      simp only [Option.map_some']
      rw [levelAfter_of_absent]
      intro w hw
      obtain ⟨q, hq, rfl⟩ := List.mem_map.mp hw
      exact habsent q hq

/-- Witness for C14: the stock step of the sample purchase order (10 widgets on
a stock of 0) succeeds and leaves the stock document `s1` at 0 + 10. -/
theorem processTransactionStock_sets_stock_witness :
    ∃ db1,
      processTransactionStock (sampleDb "DRAFT" [sampleVendor]) "t1" (sampleOrder "DRAFT") "u"
        (sampleDb "DRAFT" [sampleVendor]) = .ok db1 ∧
      stockLevel db1 "s1" = some (jsAdd 0 (getQuantityChange "purchase_order" 10)) ∧
      stockLevel db1 "s1" = some 10 := by
  have hok : processTransactionStock (sampleDb "DRAFT" [sampleVendor]) "t1" (sampleOrder "DRAFT")
      "u" (sampleDb "DRAFT" [sampleVendor])
      = .ok (match processTransactionStock (sampleDb "DRAFT" [sampleVendor]) "t1"
          (sampleOrder "DRAFT") "u" (sampleDb "DRAFT" [sampleVendor]) with
        | .ok d => d
        | .error _ => sampleDb "DRAFT" [sampleVendor]) := by
    with_unfolding_all rfl
  obtain ⟨pairs, hfst, hlook, _, hline, _⟩ :=
    (processTransactionStock_sets_stock (sampleDb "DRAFT" [sampleVendor]) "t1"
      (sampleOrder "DRAFT") "u" (sampleDb "DRAFT" [sampleVendor]) _ hok).2.1
  have hpairs : pairs = [] ++ (sampleItem, (⟨"s1", "i1", 0, 4, none, none⟩ : Stock)) :: [] := by
    match pairs, hfst, hlook with
    | [p], hfst, hlook =>
      have h1 : p.1 = sampleItem := by simpa [sampleOrder] using hfst
      have h2 := hlook p (List.mem_singleton.mpr rfl)
      rw [h1] at h2
      have h3 : p.2 = (⟨"s1", "i1", 0, 4, none, none⟩ : Stock) := by
        have h4 : getStockByItemId (sampleDb "DRAFT" [sampleVendor]) sampleItem.itemId
            = .ok (⟨"s1", "i1", 0, 4, none, none⟩ : Stock) := rfl
        rw [h4] at h2
        exact (Except.ok.inj h2).symm
      simp [Prod.ext_iff, h1, h3]
    | [], hfst, _ => simp [sampleOrder] at hfst
    | _ :: _ :: _, hfst, _ => simp [sampleOrder] at hfst
  have h := hline [] _ [] hpairs (by simp) (by simp [sampleDb])
  exact ⟨_, hok, h, by with_unfolding_all rfl⟩

/-! ## Unit cost of a purchase -/

/-- C15, as the claim states it, fails: with old cost 4, old stock -12, quantity
10 and line value 50 the sum s + q is -2, not zero, and the claimed cost
(4 * -12 + 50) / (-12 + 10) is -1, but the cost computed and stored on approval
is the old cost 4. -/
theorem purchase_cost_negative_total_counterexample :
    (∃ db1, processItemStock sampleOversoldDb "t1" "purchase_order" "PO001" "u" sampleItem
        sampleOversoldDb = .ok db1 ∧
      (findStockById db1 "s1").map (fun s => s.purchasePrice) = some 4) ∧
    newPurchasePrice "purchase_order" ⟨"s1", "i1", -12, 4, none, none⟩ sampleItem = 4 ∧
    jsAdd (-12) sampleItem.qty = -2 ∧
    jsDiv (jsAdd (jsMul 4 (-12)) (sampleItem.rate.getD 0)) (jsAdd (-12) sampleItem.qty) = -1 := by
  refine ⟨⟨_, by with_unfolding_all rfl, by with_unfolding_all rfl⟩,
    by with_unfolding_all rfl, by with_unfolding_all rfl, by with_unfolding_all rfl⟩

/-- C15 (amended): for a purchase_order line item with old cost p, old stock s,
quantity q and line value v (the rate of the item, 0 without one), the new
unit cost computed on approval is (p*s + v) / (s + q), in the arithmetic of the
code, whenever s + q is positive, and p whenever s + q is zero or negative; the
cost stored on the stock document is that value as `+value.toFixed(2)` gives
it. -/
theorem purchase_cost_weighted_average (committed : Db)
    (transactionId transactionNo createdBy : String) (item : Item) (db : Db) (stock : Stock)
    (hstock : getStockByItemId committed item.itemId = .ok stock) :
    (0 < jsAdd stock.currentStock item.qty →
      newPurchasePrice "purchase_order" stock item
        = jsDiv (jsAdd (jsMul stock.purchasePrice stock.currentStock) (item.rate.getD 0))
            (jsAdd stock.currentStock item.qty)) ∧
    (jsAdd stock.currentStock item.qty ≤ 0 →
      newPurchasePrice "purchase_order" stock item = stock.purchasePrice) ∧
    ∃ db1, processItemStock committed transactionId "purchase_order" transactionNo createdBy
        item db = .ok db1 ∧
      (findStockById db1 stock._id).map (fun s => s.purchasePrice)
        = (findStockById db stock._id).map
            (fun _ => toFixed2 (newPurchasePrice "purchase_order" stock item)) := by
  refine ⟨?_, ?_, _, processItemStock_eq hstock, ?_⟩
  · intro hpos
    simp [newPurchasePrice, hpos]
  · intro hle
    simp [newPurchasePrice, not_lt.mpr hle]
  · simp only [findStockById]
    rw [find?_updateFirst (fun s : Stock => decide (s._id = stock._id))
      (fun s => { s with
        currentStock := jsAdd stock.currentStock (getQuantityChange "purchase_order" item.qty),
        purchasePrice := toFixed2 (newPurchasePrice "purchase_order" stock item) })
      (fun _ => rfl)]
    simp [Option.map_map, Function.comp_def]

/-- Witness for C15 (amended): the sample line (10 units, line value 50) on a
stock of 0 at cost 4 gives the cost (4 * 0 + 50) / (0 + 10) = 5; a line of 200
units and line value 201 on a stock of 0 at cost 0 gives the double nearest to
201 / 200, which lies below it, and the cost stored is 1. -/
theorem purchase_cost_weighted_average_witness :
    getStockByItemId (sampleDb "DRAFT" [sampleVendor]) sampleItem.itemId
      = .ok ⟨"s1", "i1", 0, 4, none, none⟩ ∧
    newPurchasePrice "purchase_order" ⟨"s1", "i1", 0, 4, none, none⟩ sampleItem
      = jsDiv (jsAdd (jsMul 4 0) (sampleItem.rate.getD 0)) (jsAdd 0 sampleItem.qty) ∧
    newPurchasePrice "purchase_order" ⟨"s1", "i1", 0, 4, none, none⟩ sampleItem = 5 ∧
    newPurchasePrice "purchase_order" ⟨"s1", "i1", 0, 0, none, none⟩
        { sampleItem with qty := 200, rate := some 201 } < 201 / 200 ∧
    toFixed2 (newPurchasePrice "purchase_order" ⟨"s1", "i1", 0, 0, none, none⟩
        { sampleItem with qty := 200, rate := some 201 }) = 1 :=
  ⟨rfl,
   (purchase_cost_weighted_average (sampleDb "DRAFT" [sampleVendor]) "t1" "PO001" "u"
      sampleItem (sampleDb "DRAFT" [sampleVendor]) ⟨"s1", "i1", 0, 4, none, none⟩ rfl).1
      (by with_unfolding_all decide),
   by with_unfolding_all rfl, by with_unfolding_all decide, by with_unfolding_all rfl⟩

/-! ## Inventory round trip -/

/-- Adding an integer to an integer and taking it away again is exact when both
have magnitude at most 2^52. -/
theorem jsAdd_round_trip_intCast (s d : Int) (hs : s.natAbs ≤ 2 ^ 52) (hd : d.natAbs ≤ 2 ^ 52) :
    jsAdd (jsAdd (s : ℚ) (d : ℚ)) (-(d : ℚ)) = (s : ℚ) := by
  have h53 : (2 : Nat) ^ 53 = 2 ^ 52 + 2 ^ 52 := by norm_num
  have h1 : (s + d).natAbs ≤ 2 ^ 53 := by
    have := Int.natAbs_add_le s d
    omega
  rw [jsAdd_intCast s d h1]
  have h2 : (s + d + -d).natAbs ≤ 2 ^ 53 := by
    have : s + d + -d = s := by ring
    rw [this]
    omega
  have h3 : (-(d : ℚ)) = ((-d : Int) : ℚ) := by push_cast; rfl
  rw [h3, jsAdd_intCast (s + d) (-d) h2]
  congr 1
  ring

/-- The last write decides: when every line that writes the stock document `a`
read the level `x` for it, `level a x` is the level the approval left on `a`,
and taking the quantity change of a line away from the level the line wrote
gives back the level the line read, the writes of the reversal take `a` back to
`x`. -/
theorem levelAfter_round_trip (type : String) (level : String → ℚ → ℚ) (a : String) (x : ℚ)
    (pairs : List (Item × Stock))
    (hread : ∀ p ∈ pairs, p.2._id = a → p.2.currentStock = x)
    (hexact : ∀ p ∈ pairs,
      jsAdd (jsAdd p.2.currentStock (getQuantityChange type p.1.qty))
        (-getQuantityChange type p.1.qty) = p.2.currentStock)
    (hlevel : level a x = levelAfter (approvalWrites type pairs) a x) :
    levelAfter (pairs.map (fun p =>
        (p.2._id, jsAdd (level p.2._id p.2.currentStock) (-getQuantityChange type p.1.qty))))
      a (level a x) = x := by
  induction pairs using List.reverseRecOn with
  | nil =>
    simp only [List.map_nil, levelAfter, List.foldl_nil]
    rw [hlevel]
    rfl
  | append_singleton init p ih =>
    rw [List.map_append, List.map_cons, List.map_nil, levelAfter_concat]
    simp only [approvalWrites, List.map_append, List.map_cons, List.map_nil] at hlevel
    rw [levelAfter_concat] at hlevel
    by_cases ha : a = p.2._id
    · have hx : p.2.currentStock = x := hread p (by simp) ha.symm
      have hex := hexact p (by simp)
      simp only [ha, if_true] at hlevel ⊢
      rw [hx, hlevel, ← hx]
      exact hex
    · simp only [ha, if_false] at hlevel ⊢
      exact ih (fun q hq => hread q (by simp [hq])) (fun q hq => hexact q (by simp [hq])) hlevel

/-- C16, as the claim states it, fails: with 0.1 widgets in stock, the stock
step of a purchase order of 0.2 widgets followed by its reversal succeeds and
leaves the level 0.10000000000000003, two units in the last place above the
0.1 it started from. -/
theorem inventory_round_trip_fraction_counterexample :
    stockLevel sampleFractionDb "s1" = some (3602879701896397 / 36028797018963968) ∧
    ((processTransactionStock sampleFractionDb "t1" sampleFractionOrder "u"
        sampleFractionDb).bind
      (fun db1 => (reverseTransactionStock db1 "t1" sampleFractionOrder "u" db1).map
        (fun db2 => (stockLevel db1 "s1", stockLevel db2 "s1"))))
      = .ok (some (5404319552844596 / 18014398509481984),
          some (3602879701896398 / 36028797018963968)) ∧
    (3602879701896398 / 36028797018963968 : ℚ) ≠ 3602879701896397 / 36028797018963968 := by
  refine ⟨by with_unfolding_all rfl, by with_unfolding_all rfl, by norm_num⟩

/-- C16, amended: inventory round trip.  On a store whose stock documents have
distinct ids, whose movements carry no id the counter will still draw, and
which holds no non-reversed movement of the transaction yet, let, for every
line, adding the quantity change of the line to the level of its stock
document and taking it away again give the level back in the numbers of the
code, as it does whenever levels and quantities are integers of magnitude at
most 2^52 (first conjunct); let `processTransactionStock` succeed and let
`reverseTransactionStock` run on its result.  Then the reversal succeeds; every
stock document, and so the stock document of every line item, has the
`currentStock` it had before the approval; the approval appended one movement
per line item; the reversal appended exactly one offsetting movement per
original movement, with the negated quantity; and every original movement is
flagged as reversed with a reference to the id of its offsetting movement. -/
theorem inventory_round_trip (db0 db1 : Db) (transactionId : String)
    (transaction : Transaction) (createdBy : String)
    (hids : (db0.stocks.map (fun s => s._id)).Nodup)
    (hfresh : ∀ m ∈ db0.movements, ∀ k, db0.nextId ≤ k → m._id ≠ toString k)
    (hnew : ∀ m ∈ db0.movements,
      ¬ (m.referenceId = transactionId ∧ m.referenceType = "Transaction" ∧
        m.isReversed = false))
    (hexact : ∀ item ∈ transaction.items, ∀ stock,
      getStockByItemId db0 item.itemId = .ok stock →
      jsAdd (jsAdd stock.currentStock (getQuantityChange transaction.type item.qty))
        (-getQuantityChange transaction.type item.qty) = stock.currentStock)
    (happ : processTransactionStock db0 transactionId transaction createdBy db0 = .ok db1) :
    (∀ s d : Int, s.natAbs ≤ 2 ^ 52 → d.natAbs ≤ 2 ^ 52 →
      jsAdd (jsAdd (s : ℚ) (d : ℚ)) (-(d : ℚ)) = (s : ℚ)) ∧
    ∃ (db2 : Db) (originals offsets : List InventoryMovement),
      reverseTransactionStock db1 transactionId transaction createdBy db1 = .ok db2 ∧
      (∀ id, stockLevel db2 id = stockLevel db0 id) ∧
      (∀ item ∈ transaction.items, ∃ stock,
        getStockByItemId db0 item.itemId = .ok stock ∧
        stockLevel db2 stock._id = some stock.currentStock) ∧
      db1.movements = db0.movements ++ originals ∧
      originals.length = transaction.items.length ∧
      (∀ m ∈ originals, m.referenceId = transactionId ∧ m.isReversed = false) ∧
      offsets.length = originals.length ∧
      offsets.map (fun r => r.quantity) = originals.map (fun m => -m.quantity) ∧
      (∀ r ∈ offsets, r.isReversed = false ∧ r.referenceId = transactionId) ∧
      db2.movements = db0.movements ++ List.zipWith flagReversed originals offsets ++ offsets := by
  refine ⟨jsAdd_round_trip_intCast, ?_⟩
  unfold processTransactionStock at happ
  obtain ⟨pairs, hfst, hlook, hmov1, _, hkey, hlevel1⟩ :=
    processItemsStock_run transaction.items db0 db1 happ
  have hself : ∀ p ∈ pairs, getStockByItemId db0 p.2.itemId = .ok p.2 := by
    intro p hp
    have h := hlook p hp
    rw [(getStockByItemId_mem h).2]
    exact h
  have hlevel0 : ∀ p ∈ pairs, stockLevel db0 p.2._id = some p.2.currentStock :=
    fun p hp => findStockById_of_mem hids (getStockByItemId_mem (hlook p hp)).1
  have hids1 : (db1.stocks.map (fun s => s._id)).Nodup := by
    have h := congrArg (List.map Prod.fst) hkey
    simp only [List.map_map] at h
    have h1 : db1.stocks.map (fun s => s._id) = db0.stocks.map (fun s => s._id) := h
    rw [h1]
    exact hids
  have hall : ∀ m ∈ approvalMovements transactionId transaction.type transaction.transactionNo
      createdBy db0.nextId pairs, ∃ s, getStockByItemId db1 m.stockId = .ok s := by
    intro m hm
    obtain ⟨p, hp, k, _, rfl⟩ := approvalMovements_mem hm
    obtain ⟨found, hfound, _⟩ := getStockByItemId_of_same_keys hkey (hself p hp)
    exact ⟨found, hfound⟩
  obtain ⟨run, rpairs, hrun, hrfst, hrlook, hmov2, hlevel2⟩ :=
    @reverseMovements_run db1 transactionId transaction createdBy
      (approvalMovements transactionId transaction.type transaction.transactionNo
        createdBy db0.nextId pairs)
      db0.movements [] db1 (by rw [hmov1, List.append_nil])
      (by
        intro x hx m hm
        obtain ⟨p, _, k, hk, rfl⟩ := approvalMovements_mem hm
        exact hfresh x hx k hk)
      (approvalMovements_nodup _ _ _ _ _ _) hall
  have hfilter := @filter_approvalMovements transactionId transaction.type
    transaction.transactionNo createdBy db0.movements db0.nextId pairs hnew
  rw [← hmov1] at hfilter
  rw [← hfilter] at hrun
  obtain ⟨db2, hrev, hstocks2, hmovs2⟩ := reverseTransactionStock_of_run hrun
  have hfound : ∀ p ∈ pairs, ∀ found, getStockByItemId db1 p.2.itemId = .ok found →
      found._id = p.2._id ∧ found.currentStock
        = levelAfter (approvalWrites transaction.type pairs) p.2._id p.2.currentStock := by
    intro p hp found hf
    obtain ⟨found2, hf2, hid, _⟩ := getStockByItemId_of_same_keys hkey (hself p hp)
    rw [hf] at hf2
    cases hf2
    refine ⟨hid, ?_⟩
    have h1 := findStockById_of_mem hids1 (getStockByItemId_mem hf).1
    rw [hid, hlevel1 p.2._id, hlevel0 p hp] at h1
    simpa using h1.symm
  have hwrites := @reversalWrites_of_approval db1 transactionId transaction.type
    transaction.transactionNo createdBy
    (fun b y => levelAfter (approvalWrites transaction.type pairs) b y)
    pairs db0.nextId rpairs hrfst hfound hrlook
  have hback : ∀ id, stockLevel db2 id = stockLevel db0 id := by
    intro a
    rw [stockLevel_congr hstocks2, hlevel2 a, hlevel1 a]
    cases h0 : stockLevel db0 a with
    | none => rfl
    | some x =>
      simp only [Option.map_some', Option.some.injEq]
      rw [hwrites]
      refine levelAfter_round_trip transaction.type
        (fun b y => levelAfter (approvalWrites transaction.type pairs) b y) a x pairs ?_ ?_ rfl
      · intro p hp hpa
        have h := hlevel0 p hp
        rw [hpa, h0] at h
        exact (Option.some.inj h).symm
      · intro p hp
        refine hexact p.1 ?_ p.2 (hlook p hp)
        rw [← hfst]
        exact List.mem_map_of_mem Prod.fst hp
  refine ⟨db2,
    approvalMovements transactionId transaction.type transaction.transactionNo createdBy
      db0.nextId pairs,
    reversalMovements transactionId transaction createdBy db1.nextId rpairs,
    hrev, hback, ?_, hmov1, ?_, ?_, ?_, ?_, ?_, ?_⟩
  · intro item hitem
    rw [← hfst] at hitem
    obtain ⟨p, hp, rfl⟩ := List.mem_map.mp hitem
    exact ⟨p.2, hlook p hp, by rw [hback, hlevel0 p hp]⟩
  · rw [approvalMovements_length, ← hfst, List.length_map]
  · intro m hm
    obtain ⟨p, _, k, _, rfl⟩ := approvalMovements_mem hm
    exact ⟨rfl, rfl⟩
  · rw [reversalMovements_length, ← List.length_map rpairs Prod.fst, hrfst]
  · rw [reversalMovements_quantity, hrfst]
  · intro r hr
    exact ⟨(reversalMovements_mem hr).1, (reversalMovements_mem hr).2.1⟩
  · rw [hmovs2, hmov2, List.append_nil]

/-- Witness for C16: approving the sample purchase order of 10 widgets on a
stock of 0 and reversing it leaves the stock at 0, with one original movement
flagged and one offsetting movement. -/
theorem inventory_round_trip_witness :
    ∃ db1,
      processTransactionStock (sampleDb "DRAFT" [sampleVendor]) "t1" (sampleOrder "DRAFT") "u"
        (sampleDb "DRAFT" [sampleVendor]) = .ok db1 ∧
      stockLevel db1 "s1" = some 10 ∧
      ∃ (db2 : Db) (originals offsets : List InventoryMovement),
        reverseTransactionStock db1 "t1" (sampleOrder "DRAFT") "u" db1 = .ok db2 ∧
        (∀ id, stockLevel db2 id = stockLevel (sampleDb "DRAFT" [sampleVendor]) id) ∧
        (∀ item ∈ (sampleOrder "DRAFT").items, ∃ stock,
          getStockByItemId (sampleDb "DRAFT" [sampleVendor]) item.itemId = .ok stock ∧
          stockLevel db2 stock._id = some stock.currentStock) ∧
        db1.movements = (sampleDb "DRAFT" [sampleVendor]).movements ++ originals ∧
        originals.length = (sampleOrder "DRAFT").items.length ∧
        (∀ m ∈ originals, m.referenceId = "t1" ∧ m.isReversed = false) ∧
        offsets.length = originals.length ∧
        offsets.map (fun r => r.quantity) = originals.map (fun m => -m.quantity) ∧
        (∀ r ∈ offsets, r.isReversed = false ∧ r.referenceId = "t1") ∧
        db2.movements = (sampleDb "DRAFT" [sampleVendor]).movements ++
          List.zipWith flagReversed originals offsets ++ offsets :=
  ⟨_, by with_unfolding_all rfl, by with_unfolding_all rfl,
    (inventory_round_trip (sampleDb "DRAFT" [sampleVendor]) _ "t1" (sampleOrder "DRAFT") "u"
      (by simp [sampleDb]) (by simp [sampleDb]) (by simp [sampleDb])
      (by
        intro item hitem stock hstock
        have hi : item = sampleItem := by simpa [sampleOrder] using hitem
        subst hi
        have h4 : getStockByItemId (sampleDb "DRAFT" [sampleVendor]) sampleItem.itemId
            = .ok (⟨"s1", "i1", 0, 4, none, none⟩ : Stock) := rfl
        rw [h4] at hstock
        cases hstock
        with_unfolding_all rfl)
      (by with_unfolding_all rfl)).2⟩

/-! ## VAT report on approval -/

/-- What the extension of a report changes: the lines are appended, the VAT
amounts of the lines are added one after the other to the output total for an
output type and to the input total for an input type, the other total stays,
and the net amount is the output total less the input total. -/
theorem extendReport_effect (type : String) (vatItems : List VATItem) (r : VATReport) :
    (extendReport type vatItems r).items = r.items ++ vatItems ∧
    (type = "sales_order" ∨ type = "purchase_return" →
      (extendReport type vatItems r).totalVATOutput
          = vatItems.foldl (fun total vi => jsAdd total vi.vatAmount) r.totalVATOutput ∧
        (extendReport type vatItems r).totalVATInput = r.totalVATInput) ∧
    (type = "purchase_order" ∨ type = "sales_return" →
      (extendReport type vatItems r).totalVATInput
          = vatItems.foldl (fun total vi => jsAdd total vi.vatAmount) r.totalVATInput ∧
        (extendReport type vatItems r).totalVATOutput = r.totalVATOutput) ∧
    (extendReport type vatItems r).netVATPayable
      = jsSub (extendReport type vatItems r).totalVATOutput
        (extendReport type vatItems r).totalVATInput := by
  refine ⟨rfl, ?_, ?_, rfl⟩
  · intro h
    rcases h with rfl | rfl <;> simp [extendReport, isOutputVAT]
  · intro h
    rcases h with rfl | rfl <;> simp [extendReport, isOutputVAT, isInputVAT]

/-- Adding the VAT amounts of the lines one after the other is adding the VAT
amounts of the items with a positive VAT amount one after the other. -/
theorem vatItemsOf_foldl (transaction : Transaction) (db : Db) (total : ℚ) :
    (vatItemsOf transaction db).foldl (fun total vi => jsAdd total vi.vatAmount) total
      = (transaction.items.filter (fun item => item.vatAmount > 0)).foldl
          (fun total item => jsAdd total item.vatAmount) total := by
  simp only [vatItemsOf, List.foldl_map, vatItemOf]

/-- C26, as the claim states it, fails twice.  A purchase order whose only line
has the VAT amount -2.5 has an item with a nonzero VAT amount, but the VAT step
writes no line and no report for it.  And for a purchase order with the VAT
amounts 0.1, 0.2 and 0.3 on a store without a report, the input total of the
new report is 0.6000000000000001, the amounts added one after the other, which
is neither the sum of the three amounts nor that sum as a double, 0.6. -/
theorem createVATReportItems_sum_counterexample :
    (sampleCreditItem ∈ sampleCreditOrder.items ∧ sampleCreditItem.vatAmount ≠ 0 ∧
      createVATReportItems sampleCreditOrder "u" (sampleDb "DRAFT" [sampleVendor])
        = .ok (sampleDb "DRAFT" [sampleVendor])) ∧
    (sampleDb "DRAFT" [sampleVendor]).vatReports = [] ∧
    sampleVatOrder.items.map (fun item => item.vatAmount)
      = [3602879701896397 / 36028797018963968, 3602879701896397 / 18014398509481984,
          5404319552844595 / 18014398509481984] ∧
    (createVATReportItems sampleVatOrder "u" (sampleDb "DRAFT" [sampleVendor])).map
        (fun db1 => db1.vatReports.map (fun r => (r.totalVATInput, r.items.length)))
      = .ok [(5404319552844596 / 9007199254740992, 3)] ∧
    (sampleVatOrder.items.map (fun item => item.vatAmount)).sum
      ≠ 5404319552844596 / 9007199254740992 ∧
    roundDouble (0 + (sampleVatOrder.items.map (fun item => item.vatAmount)).sum)
      = 5404319552844595 / 9007199254740992 ∧
    (5404319552844595 / 9007199254740992 : ℚ) ≠ 5404319552844596 / 9007199254740992 := by
  refine ⟨⟨by simp [sampleCreditOrder], by with_unfolding_all decide, by with_unfolding_all rfl⟩,
    by with_unfolding_all rfl, by with_unfolding_all rfl, by with_unfolding_all rfl,
    by with_unfolding_all decide, by with_unfolding_all rfl, by norm_num⟩

/-- C26, amended.  For a transaction of another type than the four the VAT step
changes nothing.  For one of the four types `createVATReportItems` builds one
report line per item whose `vatAmount` is positive, with the VAT amount of the
item, and no line for an item whose `vatAmount` is zero or negative.  Without
an item of positive VAT it returns and changes nothing.  With one it succeeds,
and the draft report of the month of the transaction (the stored one, or a
fresh one with zero totals when there is none) gets the lines appended; the
VAT amounts of those items are added one after the other, each addition
rounded as a double, to `totalVATOutput` for a sales_order or purchase_return
and to `totalVATInput` for a purchase_order or sales_return, the other total
being unchanged; `netVATPayable` is the double `totalVATOutput -
totalVATInput`; the reports of other periods are unchanged. -/
theorem createVATReportItems_effect (transaction : Transaction) (createdBy : String) (db : Db) :
    (¬ (transaction.type = "sales_order" ∨ transaction.type = "purchase_return" ∨
        transaction.type = "purchase_order" ∨ transaction.type = "sales_return") →
      createVATReportItems transaction createdBy db = .ok db) ∧
    (transaction.type = "sales_order" ∨ transaction.type = "purchase_return" ∨
        transaction.type = "purchase_order" ∨ transaction.type = "sales_return" →
      vatItemsOf transaction db
        = (transaction.items.filter (fun item => item.vatAmount > 0)).map
            (vatItemOf transaction (vatPartyName transaction db)) ∧
      (vatItemsOf transaction db).map (fun vi => (vi.itemId, vi.vatAmount))
        = (transaction.items.filter (fun item => item.vatAmount > 0)).map
            (fun item => (item.itemId, item.vatAmount)) ∧
      ((∀ item ∈ transaction.items, item.vatAmount ≤ 0) →
        vatItemsOf transaction db = [] ∧
        createVATReportItems transaction createdBy db = .ok db) ∧
      ((∃ item ∈ transaction.items, 0 < item.vatAmount) →
        ∃ db1 r1,
          createVATReportItems transaction createdBy db = .ok db1 ∧
          db1.vatReports.find? (isOpenReport transaction) = some r1 ∧
          r1.items = (openReport transaction createdBy db).items ++ vatItemsOf transaction db ∧
          (transaction.type = "sales_order" ∨ transaction.type = "purchase_return" →
            r1.totalVATOutput
                = (transaction.items.filter (fun item => item.vatAmount > 0)).foldl
                    (fun total item => jsAdd total item.vatAmount)
                    (openReport transaction createdBy db).totalVATOutput ∧
              r1.totalVATInput = (openReport transaction createdBy db).totalVATInput) ∧
          (transaction.type = "purchase_order" ∨ transaction.type = "sales_return" →
            r1.totalVATInput
                = (transaction.items.filter (fun item => item.vatAmount > 0)).foldl
                    (fun total item => jsAdd total item.vatAmount)
                    (openReport transaction createdBy db).totalVATInput ∧
              r1.totalVATOutput = (openReport transaction createdBy db).totalVATOutput) ∧
          r1.netVATPayable = jsSub r1.totalVATOutput r1.totalVATInput ∧
          db1.vatReports.filter (fun r => !isOpenReport transaction r)
            = db.vatReports.filter (fun r => !isOpenReport transaction r))) := by
  refine ⟨?_, ?_⟩
  · intro hother
    have hkind : (!isOutputVAT transaction.type && !isInputVAT transaction.type) = true := by
      simp only [not_or] at hother
      simp [isOutputVAT, isInputVAT, hother.1, hother.2.1, hother.2.2.1, hother.2.2.2]
    rw [createVATReportItems_eq, hkind]
    rfl
  intro htype
  have hkind : (!isOutputVAT transaction.type && !isInputVAT transaction.type) = false := by
    rcases htype with h | h | h | h <;> simp [isOutputVAT, isInputVAT, h]
  have hempty : (vatItemsOf transaction db).isEmpty = true ↔
      transaction.items.filter (fun item => item.vatAmount > 0) = [] := by
    simp [vatItemsOf, List.isEmpty_iff]
  refine ⟨rfl, by simp [vatItemsOf, vatItemOf, List.map_map, Function.comp_def], ?_, ?_⟩
  · intro hnone
    have hfilter : transaction.items.filter (fun item => item.vatAmount > 0) = [] := by
      rw [List.filter_eq_nil_iff]
      intro item hitem
      have := hnone item hitem
      simpa using this
    refine ⟨by simp [vatItemsOf, hfilter], ?_⟩
    rw [createVATReportItems_eq, hkind]
    simp only [Bool.false_eq_true, if_false, hempty.mpr hfilter, if_true]
  · intro hsome
    have hne : ¬ (vatItemsOf transaction db).isEmpty = true := by
      intro h
      obtain ⟨item, hitem, hpos⟩ := hsome
      have hnil := hempty.mp h
      rw [List.filter_eq_nil_iff] at hnil
      have := hnil item hitem
      simp at this
      exact absurd hpos (not_lt.mpr this)
    have heff := extendReport_effect transaction.type (vatItemsOf transaction db)
      (openReport transaction createdBy db)
    rw [vatItemsOf_foldl, vatItemsOf_foldl] at heff
    rw [createVATReportItems_eq, hkind]
    simp only [Bool.false_eq_true, if_false, hne]
    cases hfind : db.vatReports.find? (isOpenReport transaction) with
    | some r =>
      have hopen : openReport transaction createdBy db = r := by
        simp [openReport, hfind]
      refine ⟨_, extendReport transaction.type (vatItemsOf transaction db)
          (openReport transaction createdBy db), rfl, ?_,
        heff.1, heff.2.1, heff.2.2.1, heff.2.2.2, ?_⟩
      · rw [hopen]
        show (updateFirst (isOpenReport transaction)
            (extendReport transaction.type (vatItemsOf transaction db)) db.vatReports).find?
              (isOpenReport transaction) = _
        rw [find?_updateFirst (isOpenReport transaction)
          (extendReport transaction.type (vatItemsOf transaction db))
          (fun x => isOpenReport_extendReport transaction _ _ x), hfind]
        rfl
      · exact filter_not_updateFirst (isOpenReport transaction)
          (extendReport transaction.type (vatItemsOf transaction db))
          (fun x => isOpenReport_extendReport transaction _ _ x) db.vatReports
    | none =>
      have hopen : openReport transaction createdBy db
          = freshReport transaction createdBy (toString db.nextId) := by
        simp [openReport, hfind]
      have hisopen : isOpenReport transaction
          (extendReport transaction.type (vatItemsOf transaction db)
            (freshReport transaction createdBy (toString db.nextId))) = true := by
        simp [isOpenReport, extendReport, freshReport]
      refine ⟨_, extendReport transaction.type (vatItemsOf transaction db)
          (openReport transaction createdBy db), rfl, ?_,
        heff.1, heff.2.1, heff.2.2.1, heff.2.2.2, ?_⟩
      · rw [hopen]
        show (db.vatReports ++ [_]).find? (isOpenReport transaction) = _
        rw [List.find?_append, hfind]
        simp [List.find?, hisopen]
      · show (db.vatReports ++ [_]).filter _ = _
        rw [List.filter_append]
        simp [List.filter, hisopen]

/-- Witness for C26: the sample purchase order has one item of positive VAT;
its VAT step succeeds, and the draft report of the month has the VAT of the
item added to its input VAT, its output VAT unchanged and its net amount
recomputed. -/
theorem createVATReportItems_effect_witness :
    (sampleOrder "DRAFT").items.filter (fun item => item.vatAmount > 0) = [sampleItem] ∧
    ∃ db1 r1,
      createVATReportItems (sampleOrder "DRAFT") "u" (sampleDb "DRAFT" [sampleVendor]) = .ok db1 ∧
      db1.vatReports.find? (isOpenReport (sampleOrder "DRAFT")) = some r1 ∧
      r1.totalVATInput
        = ((sampleOrder "DRAFT").items.filter (fun item => item.vatAmount > 0)).foldl
            (fun total item => jsAdd total item.vatAmount)
            (openReport (sampleOrder "DRAFT") "u" (sampleDb "DRAFT" [sampleVendor])).totalVATInput ∧
      r1.totalVATOutput
        = (openReport (sampleOrder "DRAFT") "u" (sampleDb "DRAFT" [sampleVendor])).totalVATOutput ∧
      r1.netVATPayable = jsSub r1.totalVATOutput r1.totalVATInput ∧
      r1.totalVATInput = 5 / 2 ∧ r1.netVATPayable = -(5 / 2) := by
  obtain ⟨db1, r1, h1, h2, _, _, h5, h6, _⟩ :=
    ((createVATReportItems_effect (sampleOrder "DRAFT") "u" (sampleDb "DRAFT" [sampleVendor])).2
      (Or.inr (Or.inr (Or.inl rfl)))).2.2.2 ⟨sampleItem, by simp [sampleOrder],
        by with_unfolding_all decide⟩
  have h7 : r1.totalVATInput = 5 / 2 := by
    rw [(h5 (Or.inl rfl)).1]
    with_unfolding_all rfl
  have h8 : r1.netVATPayable = -(5 / 2) := by
    rw [h6, h7, (h5 (Or.inl rfl)).2]
    with_unfolding_all rfl
  exact ⟨by with_unfolding_all decide, db1, r1, h1, h2, (h5 (Or.inl rfl)).1,
    (h5 (Or.inl rfl)).2, h6, h7, h8⟩

/-! ## All-or-nothing execution -/

/-- The approval, step by step: the call returns the error of the first step
that fails, with the store it started from, and the result of the last step
otherwise. -/
theorem processTransaction_approve_steps {now : JsDate} {id createdBy : String} {db : Db}
    {t : Transaction} (hfound : findTransactionById db id = some t)
    (hv : validateAction t.type "approve" t.status = .ok ()) :
    processTransaction now id "approve" createdBy db =
      match processTransactionStock db id t createdBy db with
      | .error e => (.error e, db)
      | .ok dbs =>
        match createVATReportItems t createdBy dbs with
        | .error e => (.error e, db)
        | .ok dbv =>
          match updatePartyBalanceAndLog t createdBy dbv with
          | .error e => (.error e, db)
          | .ok dbl =>
            (.ok (updateTransactionStatus t "approve"),
              saveTransaction (updateTransactionStatus t "approve")
                (if t.type = "purchase_order" then
                  setPurchaseLogStatus dbl t.transactionNo "APPROVED" else dbl)) := by
  unfold processTransaction withTransactionSession
  rw [@processTransactionBody_approve now id createdBy db db t hfound hv]
  unfold approveEffects
  cases processTransactionStock db id t createdBy db with
  | error e => rfl
  | ok dbs =>
    simp only []
    cases createVATReportItems t createdBy dbs with
    | error e => rfl
    | ok dbv =>
      simp only []
      cases updatePartyBalanceAndLog t createdBy dbv with
      | error e => rfl
      | ok dbl =>
        simp only []
        by_cases hp : t.type = "purchase_order"
        · simp only [hp, if_true]
        · simp only [hp, if_false]

/-- The deletion, step by step. -/
theorem deleteTransaction_steps {now : JsDate} {id createdBy : String} {db : Db}
    {t : Transaction} (hfound : findTransactionById db id = some t) :
    deleteTransaction now id createdBy db =
      if t.status = "APPROVED" then
        match reverseTransactionStock db id t createdBy db with
        | .error e => (.error e, db)
        | .ok dbs =>
          match reversePartyBalanceAndLog now t createdBy dbs with
          | .error e => (.error e, db)
          | .ok dbl => (.ok (), deleteRecords id t dbl)
      else (.ok (), deleteRecords id t db) := by
  unfold deleteTransaction withTransactionSession deleteTransactionBody
  simp only [hfound]
  by_cases ha : t.status = "APPROVED"
  · simp only [ha, decide_True, if_true]
    cases reverseTransactionStock db id t createdBy db with
    | error e => rfl
    | ok dbs =>
      simp only []
      cases reversePartyBalanceAndLog now t createdBy dbs with
      | error e => rfl
      | ok dbl => rfl
  · simp only [ha, decide_False, if_false]
    rfl

/-- What a successful creation wrote: the new transaction, the id it drew, and
the companion purchase log of a purchase order; the number of the transaction
is the trimmed number of the payload, or the generated one. -/
theorem createTransactionBody_writes {now : JsDate} {rnd : Nat} {data : CreateData}
    {createdBy : String} {committed db db1 : Db} {t : Transaction}
    (h : createTransactionBody now rnd data createdBy committed db = .ok (t, db1)) :
    db1 = { db with
        transactions := db.transactions ++ [t],
        purchaseLogs :=
          (if data.type = "purchase_order" then db.purchaseLogs ++ [purchaseLogOf t]
            else db.purchaseLogs),
        nextId := db.nextId + 1 } ∧
      t.transactionNo = finalTransactionNo data rnd := by
  unfold createTransactionBody at h
  split at h
  · cases h
  · split at h
    · cases h
    · simp only at h
      split at h
      · cases h
      · rename_i no hno
        have hfinal : no = finalTransactionNo data rnd := by
          unfold finalTransactionNo trimmedTransactionNo
          split at hno
          · rename_i hempty
            simp only [Except.ok.injEq] at hno
            rw [if_pos hempty, hno]
          · rename_i hempty
            split at hno
            · cases hno
            · simp only [Except.ok.injEq] at hno
              rw [if_neg hempty, hno]
        split at h
        · cases h
        · split at h
          · cases h
          · rename_i created dbi hins
            obtain ⟨hc, hd⟩ := insertTransaction_ok hins
            split at h
            · rename_i hpo
              simp only [Except.ok.injEq, Prod.mk.injEq] at h
              obtain ⟨h1, h2⟩ := h
              subst h1 h2
              subst hd
              refine ⟨by simp [hpo], by rw [hc, ← hfinal]⟩
            · rename_i hpo
              simp only [Except.ok.injEq, Prod.mk.injEq] at h
              obtain ⟨h1, h2⟩ := h
              subst h1 h2
              subst hd
              refine ⟨by simp [hpo], by rw [hc, ← hfinal]⟩

/-- A creation whose guards pass, whose number is free and whose items all have
a stock document succeeds. -/
theorem createTransactionBody_succeeds {now : JsDate} {rnd : Nat} {data : CreateData}
    {createdBy : String} {committed db : Db}
    (hreq : ¬ (data.type = "" ∨ data.partyId = "" ∨ data.partyType = ""))
    (hitems : data.items ≠ [])
    (hexist : ensureItemsExist committed data.items = .ok ())
    (hfree : db.transactions.any (fun t => t.transactionNo = finalTransactionNo data rnd)
      = false) :
    ∃ t db1, createTransactionBody now rnd data createdBy committed db = .ok (t, db1) := by
  have hi : data.items.isEmpty = false := by
    cases hd : data.items with
    | nil => exact absurd hd hitems
    | cons a l => rfl
  unfold finalTransactionNo trimmedTransactionNo at hfree
  unfold createTransactionBody
  rw [if_neg hreq]
  simp only [hi, Bool.false_eq_true, if_false]
  by_cases hempty : (data.transactionNo.map jsTrim).getD "" = ""
  · rw [if_pos hempty] at hfree
    simp only [hempty, if_true, hexist, insertTransaction, hfree, Bool.false_eq_true, if_false]
    split <;> exact ⟨_, _, rfl⟩
  · rw [if_neg hempty] at hfree
    simp only [hempty, if_false, hfree, Bool.false_eq_true, hexist, insertTransaction]
    split <;> exact ⟨_, _, rfl⟩

/-- C8: all-or-nothing execution of createTransaction, processTransaction and
deleteTransaction, step by step; `db` is the stored state before the call and
the second component of a call is the stored state after it.

Creation: each guard that fails (required fields, items, a given number that is
taken), a stock lookup that fails, and the insert that is refused for a taken
generated number end the call with that error on the store `db`; when no step
fails the call succeeds and the store is `db` with the new transaction, the id
it drew and, for a purchase order, its purchase log.

Processing: a missing transaction and a refused action end the call with that
error on `db`.  In an approval the stock step, the VAT step and the ledger step
run one on the result of the other; whichever of them fails, the call ends with
that error on `db`, whatever the earlier steps wrote to stocks, movements, VAT
reports and balances; when none fails, the store is the result of the ledger
step with the purchase log status set and the transaction saved as approved.  A
rejection and a cancellation that pass validation succeed with the purchase log
status set and the transaction saved.

Deletion: a missing transaction ends the call with that error on `db`; for an
approved transaction a failing stock reversal or a failing ledger reversal ends
the call with that error on `db`, and otherwise the store is the result of the
reversals with the records deleted; a transaction that is not approved has its
records deleted from `db`.

And whenever one of the three calls ends with an error, the store is `db`. -/
theorem operations_all_or_nothing (now : JsDate) (rnd : Nat) (data : CreateData)
    (id createdBy : String) (db : Db) :
    ((data.type = "" ∨ data.partyId = "" ∨ data.partyType = "" →
        createTransaction now rnd data createdBy db
          = (.error (.app "Missing required fields" 400), db)) ∧
     (¬ (data.type = "" ∨ data.partyId = "" ∨ data.partyType = "") →
        (data.items = [] →
          createTransaction now rnd data createdBy db
            = (.error (.app "Items are required" 400), db)) ∧
        (data.items ≠ [] →
          (trimmedTransactionNo data ≠ "" →
            db.transactions.any (fun t => t.transactionNo = trimmedTransactionNo data) = true →
            createTransaction now rnd data createdBy db
              = (.error (.app ("Transaction number " ++ trimmedTransactionNo data ++
                  " already exists") 400), db)) ∧
          (∀ e, (trimmedTransactionNo data ≠ "" →
              db.transactions.any (fun t => t.transactionNo = trimmedTransactionNo data)
                = false) →
            ensureItemsExist db data.items = .error e →
            createTransaction now rnd data createdBy db = (.error e, db)) ∧
          (trimmedTransactionNo data = "" →
            ensureItemsExist db data.items = .ok () →
            db.transactions.any
              (fun t => t.transactionNo = generateTransactionNo data.type rnd) = true →
            createTransaction now rnd data createdBy db
              = (.error (.duplicateKey "E11000 duplicate key error collection: transactions"),
                  db)) ∧
          (ensureItemsExist db data.items = .ok () →
            db.transactions.any (fun t => t.transactionNo = finalTransactionNo data rnd)
              = false →
            ∃ t, createTransaction now rnd data createdBy db
              = (.ok t, { db with
                  transactions := db.transactions ++ [t],
                  purchaseLogs :=
                    (if data.type = "purchase_order" then db.purchaseLogs ++ [purchaseLogOf t]
                      else db.purchaseLogs),
                  nextId := db.nextId + 1 }))))) ∧
    ((∀ action, findTransactionById db id = none →
        processTransaction now id action createdBy db
          = (.error (.app "Transaction not found" 404), db)) ∧
     (∀ t, findTransactionById db id = some t →
        (∀ action e, validateAction t.type action t.status = .error e →
          processTransaction now id action createdBy db = (.error e, db)) ∧
        (validateAction t.type "approve" t.status = .ok () →
          (∀ e, processTransactionStock db id t createdBy db = .error e →
            processTransaction now id "approve" createdBy db = (.error e, db)) ∧
          (∀ dbs e, processTransactionStock db id t createdBy db = .ok dbs →
            createVATReportItems t createdBy dbs = .error e →
            processTransaction now id "approve" createdBy db = (.error e, db)) ∧
          (∀ dbs dbv e, processTransactionStock db id t createdBy db = .ok dbs →
            createVATReportItems t createdBy dbs = .ok dbv →
            updatePartyBalanceAndLog t createdBy dbv = .error e →
            processTransaction now id "approve" createdBy db = (.error e, db)) ∧
          (∀ dbs dbv dbl, processTransactionStock db id t createdBy db = .ok dbs →
            createVATReportItems t createdBy dbs = .ok dbv →
            updatePartyBalanceAndLog t createdBy dbv = .ok dbl →
            processTransaction now id "approve" createdBy db
              = (.ok (updateTransactionStatus t "approve"),
                  saveTransaction (updateTransactionStatus t "approve")
                    (if t.type = "purchase_order" then
                      setPurchaseLogStatus dbl t.transactionNo "APPROVED" else dbl)))) ∧
        (validateAction t.type "reject" t.status = .ok () →
          processTransaction now id "reject" createdBy db
            = (.ok (updateTransactionStatus t "reject"),
                saveTransaction (updateTransactionStatus t "reject")
                  (if t.type = "purchase_order" then
                    setPurchaseLogStatus db t.transactionNo "REJECTED" else db))) ∧
        (validateAction t.type "cancel" t.status = .ok () →
          processTransaction now id "cancel" createdBy db
            = (.ok (updateTransactionStatus t "cancel"),
                saveTransaction (updateTransactionStatus t "cancel")
                  (if t.type = "purchase_order" then
                    setPurchaseLogStatus db t.transactionNo "CANCELLED" else db))))) ∧
    ((findTransactionById db id = none →
        deleteTransaction now id createdBy db
          = (.error (.app "Transaction not found" 404), db)) ∧
     (∀ t, findTransactionById db id = some t →
        (t.status ≠ "APPROVED" →
          deleteTransaction now id createdBy db = (.ok (), deleteRecords id t db)) ∧
        (t.status = "APPROVED" →
          (∀ e, reverseTransactionStock db id t createdBy db = .error e →
            deleteTransaction now id createdBy db = (.error e, db)) ∧
          (∀ dbs e, reverseTransactionStock db id t createdBy db = .ok dbs →
            reversePartyBalanceAndLog now t createdBy dbs = .error e →
            deleteTransaction now id createdBy db = (.error e, db)) ∧
          (∀ dbs dbl, reverseTransactionStock db id t createdBy db = .ok dbs →
            reversePartyBalanceAndLog now t createdBy dbs = .ok dbl →
            deleteTransaction now id createdBy db = (.ok (), deleteRecords id t dbl))))) ∧
    ((∀ e, (createTransaction now rnd data createdBy db).1 = .error e →
        (createTransaction now rnd data createdBy db).2 = db) ∧
     (∀ action e, (processTransaction now id action createdBy db).1 = .error e →
        (processTransaction now id action createdBy db).2 = db) ∧
     (∀ e, (deleteTransaction now id createdBy db).1 = .error e →
        (deleteTransaction now id createdBy db).2 = db)) := by
  refine ⟨⟨?_, ?_⟩, ⟨?_, ?_⟩, ⟨?_, ?_⟩, ?_, ?_, ?_⟩
  · intro hreq
    exact withTransactionSession_error _ db _ (by simp [createTransactionBody, hreq])
  · intro hreq
    refine ⟨?_, ?_⟩
    · intro hnil
      exact withTransactionSession_error _ db _
        (by simp [createTransactionBody, hreq, hnil])
    · intro hitems
      have hi : data.items.isEmpty = false := by
        cases hd : data.items with
        | nil => exact absurd hd hitems
        | cons a l => rfl
      refine ⟨?_, ?_, ?_, ?_⟩
      · intro hgiven htaken
        unfold trimmedTransactionNo at hgiven htaken ⊢
        refine withTransactionSession_error _ db _ ?_
        unfold createTransactionBody
        rw [if_neg hreq]
        simp only [hi, Bool.false_eq_true, if_false, hgiven, htaken, if_true]
      · intro e hfree hexist
        unfold trimmedTransactionNo at hfree
        refine withTransactionSession_error _ db _ ?_
        unfold createTransactionBody
        rw [if_neg hreq]
        simp only [hi, Bool.false_eq_true, if_false]
        by_cases hempty : (data.transactionNo.map jsTrim).getD "" = ""
        · simp only [hempty, if_true, hexist]
        · simp only [hempty, if_false, hfree hempty, Bool.false_eq_true, hexist]
      · intro hempty hexist htaken
        unfold trimmedTransactionNo at hempty
        refine withTransactionSession_error _ db _ ?_
        unfold createTransactionBody
        rw [if_neg hreq]
        simp only [hi, Bool.false_eq_true, if_false, hempty, if_true, hexist, insertTransaction,
          htaken]
      · intro hexist hfree
        obtain ⟨t, db1, hbody⟩ := @createTransactionBody_succeeds now rnd data createdBy db db
          hreq hitems hexist hfree
        refine ⟨t, ?_⟩
        rw [← (createTransactionBody_writes hbody).1]
        exact withTransactionSession_ok _ db t db1 hbody
  · intro action hnone
    exact withTransactionSession_error _ db _ (by simp [processTransactionBody, hnone])
  · intro t hfound
    refine ⟨?_, ?_, ?_, ?_⟩
    · intro action e hv
      exact processTransaction_of_invalid hfound hv
    · intro hv
      have hsteps := @processTransaction_approve_steps now id createdBy db t hfound hv
      refine ⟨?_, ?_, ?_, ?_⟩
      · intro e hs
        rw [hsteps, hs]
      · intro dbs e hs hvat
        rw [hsteps, hs]
        simp only [hvat]
      · intro dbs dbv e hs hvat hl
        rw [hsteps, hs]
        simp only [hvat, hl]
      · intro dbs dbv dbl hs hvat hl
        rw [hsteps, hs]
        simp only [hvat, hl]
    · intro hv
      exact withTransactionSession_ok _ db _ _
        (@processTransactionBody_reject now id createdBy db db t hfound hv)
    · intro hv
      exact withTransactionSession_ok _ db _ _
        (@processTransactionBody_cancel now id createdBy db db t hfound hv)
  · intro hnone
    exact withTransactionSession_error _ db _ (by simp [deleteTransactionBody, hnone])
  · intro t hfound
    have hsteps := @deleteTransaction_steps now id createdBy db t hfound
    refine ⟨?_, ?_⟩
    · intro hna
      rw [hsteps, if_neg hna]
    · intro ha
      rw [if_pos ha] at hsteps
      refine ⟨?_, ?_, ?_⟩
      · intro e hs
        rw [hsteps, hs]
      · intro dbs e hs hl
        rw [hsteps, hs]
        simp only [hl]
      · intro dbs dbl hs hl
        rw [hsteps, hs]
        simp only [hl]
  · intro e h
    exact (withTransactionSession_unchanged _ db e h).1
  · intro action e h
    exact (withTransactionSession_unchanged _ db e h).1
  · intro e h
    exact (withTransactionSession_unchanged _ db e h).1

/-- Witness for C8: approving the sample purchase order when its vendor is
missing.  The stock step succeeds and changes the stock in the session, the VAT
step succeeds and writes a report, the ledger step then fails, and the call
ends with that error on the unchanged store. -/
theorem operations_all_or_nothing_witness :
    (∃ dbs dbv,
      processTransactionStock (sampleDb "DRAFT" []) "t1" (sampleOrder "DRAFT") "u"
        (sampleDb "DRAFT" []) = .ok dbs ∧
      dbs.stocks ≠ (sampleDb "DRAFT" []).stocks ∧
      createVATReportItems (sampleOrder "DRAFT") "u" dbs = .ok dbv ∧
      dbv.vatReports ≠ (sampleDb "DRAFT" []).vatReports ∧
      updatePartyBalanceAndLog (sampleOrder "DRAFT") "u" dbv
        = .error (.app "Vendor not found" 404)) ∧
    processTransaction sampleDate "t1" "approve" "u" (sampleDb "DRAFT" [])
      = (.error (.app "Vendor not found" 404), sampleDb "DRAFT" []) :=
  ⟨⟨_, _, by with_unfolding_all rfl, by with_unfolding_all decide, by with_unfolding_all rfl,
      by with_unfolding_all decide, by with_unfolding_all rfl⟩,
    ((((operations_all_or_nothing sampleDate 0 sampleCreateDataNoItems "t1" "u"
      (sampleDb "DRAFT" [])).2.1.2 (sampleOrder "DRAFT") (by with_unfolding_all rfl)).2.1
        (by with_unfolding_all rfl)).2.2.1 _ _ _ (by with_unfolding_all rfl)
          (by with_unfolding_all rfl) (by with_unfolding_all rfl))⟩

/-! ## Preview formats -/

theorem string_ne_empty_of_length {s : String} {n : Nat} (h : s.length = n + 1) : s ≠ "" := by
  intro he
  rw [he] at h
  have h0 : "".length = 0 := rfl
  omega

/-- The period of a `date` of four characters that are digits, the first not
0: the year is the date and the month is that of the clock. -/
theorem previewPeriod_of_year (now : Clock) (c1 c2 c3 c4 : Char)
    (h1 : c1.isDigit = true) (h2 : c2.isDigit = true) (h3 : c3.isDigit = true)
    (h4 : c4.isDigit = true) (h0 : c1 ≠ '0') :
    previewPeriod now (some (String.mk [c1, c2, c3, c4]))
      = .ok (String.mk [c1, c2, c3, c4], padStart (toString (now.month + 1)) 2 '0') := by
  have h6 := previewPeriod_of_date now c1 c2 c3 c4 '0' '1' h1 h2 h3 h4 h0
  have hs1 : jsSlice (String.mk [c1, c2, c3, c4, '0', '1']) 0 4 = String.mk [c1, c2, c3, c4] := rfl
  have hlen6 : (String.mk [c1, c2, c3, c4, '0', '1']).length = 6 := rfl
  have hne6 : String.mk [c1, c2, c3, c4, '0', '1'] ≠ "" := string_ne_empty_of_length hlen6
  simp only [previewPeriod, hne6, if_false, hlen6, if_true, hs1, Except.ok.injEq,
    Prod.mk.injEq] at h6
  have hlen : (String.mk [c1, c2, c3, c4]).length = 4 := rfl
  have hne : String.mk [c1, c2, c3, c4] ≠ "" := string_ne_empty_of_length hlen
  simp only [previewPeriod, hne, if_false, hlen, if_true, h6.1]
  rfl

/-- C6, as the claim states it, fails.  For the date `2025xx` the preview of a
sales order is `SO2025xx-00001`, whose period is not six digits; for the date
`099912` it is `SO99912-00001`, with a period of five digits; and for the date
`2025-11` neither a sales order nor a sales invoice gets a preview, the request
fails. -/
theorem preview_period_counterexample :
    (preview [] ⟨2025, 10⟩ (some "sales_order") (some "2025xx")).response
      = .ok "SO2025xx-00001" ∧
    "2025xx".data.all Char.isDigit = false ∧
    (preview [] ⟨2025, 10⟩ (some "sales_order") (some "099912")).response
      = .ok "SO99912-00001" ∧
    (preview [] ⟨2025, 10⟩ (some "sales_order") (some "2025-11")).response
      = .error ⟨"Invalid date format. Use YYYYMM or YYYY", 400⟩ ∧
    (preview [] ⟨2025, 10⟩ (some "sales_invoice") (some "2025-11")).response
      = .error ⟨"Invalid date format. Use YYYYMM or YYYY", 400⟩ := by
  refine ⟨by with_unfolding_all rfl, by with_unfolding_all rfl, by with_unfolding_all rfl,
    by with_unfolding_all rfl, by with_unfolding_all rfl⟩

/-- C6, amended.  Whenever the request has a period (a year string and a month
string), with c the stored counter of the bucket the preview reads (0 without
a row): the preview of a sales order is `SO`, of a purchase order `PO`,
followed by the year string, the month string, a dash and c+1 padded with zeros
to 5 digits; the preview of a sales invoice is c+1 padded to 5 digits with no
prefix and no period; and with c = 10 the sales order preview ends in `-00011`.

The period: without a `date` parameter (or with an empty one) it is the year
and the two-digit month of the clock, six digits for a four-digit year.  For a
`date` of six characters it is `String(parseInt(...))` of the first four
characters followed by the last two characters as they are; that is the date
itself when the first four characters are digits and the first is not 0, and
then six digits when the last two are digits as well.  For a `date` of four
characters it is `String(parseInt(date))` followed by the month of the clock,
the year being the date itself when its characters are digits and the first is
not 0.  For a `date` of any other length there is no preview: the request
fails with `Invalid date format. Use YYYYMM or YYYY`. -/
theorem preview_formats (rows : List SequenceDoc) (now : Clock) (date : Option String) :
    (∀ yearStr month, previewPeriod now date = .ok (yearStr, month) →
      (∀ type, type = "SO" ∨ type = "sales_order" →
        (preview rows now (some type) date).response
          = .ok ("SO" ++ yearStr ++ month ++ "-" ++
              padStart (toString (storedCounter "sales_order" (some yearStr) rows + 1)) 5 '0')) ∧
      (∀ type, type = "PO" ∨ type = "purchase_order" →
        (preview rows now (some type) date).response
          = .ok ("PO" ++ yearStr ++ month ++ "-" ++
              padStart (toString (storedCounter "purchase_order" (some yearStr) rows + 1))
                5 '0')) ∧
      (∀ type, type = "SI" ∨ type = "sales_invoice" →
        (preview rows now (some type) date).response
          = .ok (padStart (toString (storedCounter "sales_invoice" none rows + 1)) 5 '0')) ∧
      (storedCounter "sales_order" (some yearStr) rows = 10 →
        (preview rows now (some "sales_order") date).response
          = .ok ("SO" ++ yearStr ++ month ++ "-00011"))) ∧
    (date = none ∨ date = some "" →
      previewPeriod now date
        = .ok (toString now.fullYear, padStart (toString (now.month + 1)) 2 '0') ∧
      (1000 ≤ now.fullYear → now.fullYear ≤ 9999 → now.month ≤ 11 →
        (toString now.fullYear ++ padStart (toString (now.month + 1)) 2 '0').length = 6 ∧
        (toString now.fullYear ++ padStart (toString (now.month + 1)) 2 '0').data.all
          Char.isDigit = true)) ∧
    (∀ s, date = some s → s.length = 6 →
      previewPeriod now date
        = .ok (jsNumberToString (jsParseInt10 (jsSlice s 0 4)), jsSlice s 4 6)) ∧
    (∀ c1 c2 c3 c4 c5 c6 : Char, date = some (String.mk [c1, c2, c3, c4, c5, c6]) →
      c1.isDigit = true → c2.isDigit = true → c3.isDigit = true → c4.isDigit = true →
      c1 ≠ '0' →
      previewPeriod now date = .ok (String.mk [c1, c2, c3, c4], String.mk [c5, c6]) ∧
      String.mk [c1, c2, c3, c4] ++ String.mk [c5, c6] = String.mk [c1, c2, c3, c4, c5, c6] ∧
      (c5.isDigit = true → c6.isDigit = true →
        (String.mk [c1, c2, c3, c4] ++ String.mk [c5, c6]).length = 6 ∧
        (String.mk [c1, c2, c3, c4] ++ String.mk [c5, c6]).data.all Char.isDigit = true)) ∧
    (∀ s, date = some s → s.length = 4 →
      previewPeriod now date
        = .ok (jsNumberToString (jsParseInt10 s), padStart (toString (now.month + 1)) 2 '0')) ∧
    (∀ c1 c2 c3 c4 : Char, date = some (String.mk [c1, c2, c3, c4]) →
      c1.isDigit = true → c2.isDigit = true → c3.isDigit = true → c4.isDigit = true →
      c1 ≠ '0' →
      previewPeriod now date
        = .ok (String.mk [c1, c2, c3, c4], padStart (toString (now.month + 1)) 2 '0') ∧
      (now.month ≤ 11 →
        (String.mk [c1, c2, c3, c4] ++ padStart (toString (now.month + 1)) 2 '0').length = 6 ∧
        (String.mk [c1, c2, c3, c4] ++ padStart (toString (now.month + 1)) 2 '0').data.all
          Char.isDigit = true)) ∧
    (∀ s, date = some s → s ≠ "" → s.length ≠ 6 → s.length ≠ 4 →
      previewPeriod now date = .error ⟨"Invalid date format. Use YYYYMM or YYYY", 400⟩ ∧
      ∀ type, type = "SO" ∨ type = "sales_order" ∨ type = "PO" ∨ type = "purchase_order" ∨
          type = "SI" ∨ type = "sales_invoice" →
        (preview rows now (some type) date).response
          = .error ⟨"Invalid date format. Use YYYYMM or YYYY", 400⟩) := by
  refine ⟨?_, ?_, ?_, ?_, ?_, ?_, ?_⟩
  · intro yearStr month hp
    refine ⟨?_, ?_, ?_, ?_⟩
    · intro type htype
      apply preview_order rows now date yearStr month type "sales_order" "SO" hp
      · rcases htype with rfl | rfl <;> decide
      · rcases htype with rfl | rfl <;> rfl
      · decide
      · decide
    · intro type htype
      apply preview_order rows now date yearStr month type "purchase_order" "PO" hp
      · rcases htype with rfl | rfl <;> decide
      · rcases htype with rfl | rfl <;> rfl
      · decide
      · decide
    · intro type htype
      exact preview_invoice rows now date (yearStr, month) type hp htype
    · intro hc
      rw [preview_order rows now date yearStr month "sales_order" "sales_order" "SO" hp
        (by decide) rfl (by decide) (by decide), hc, String.append_assoc]
      rfl
  · intro hd
    refine ⟨?_, ?_⟩
    · rcases hd with rfl | rfl <;> rfl
    · intro h1 h2 h3
      obtain ⟨y, m, hym, hlen, hdig⟩ := previewPeriod_of_clock now h1 h2 h3
      have hym2 : previewPeriod now none
          = .ok (toString now.fullYear, padStart (toString (now.month + 1)) 2 '0') := rfl
      rw [hym2] at hym
      cases hym
      exact ⟨hlen, hdig⟩
  · intro s hd hlen
    subst hd
    have hne : s ≠ "" := string_ne_empty_of_length hlen
    simp only [previewPeriod, hne, if_false, hlen, if_true]
  · intro c1 c2 c3 c4 c5 c6 hd h1 h2 h3 h4 h0
    subst hd
    refine ⟨previewPeriod_of_date now c1 c2 c3 c4 c5 c6 h1 h2 h3 h4 h0, rfl, ?_⟩
    intro h5 h6
    refine ⟨rfl, ?_⟩
    show [c1, c2, c3, c4, c5, c6].all Char.isDigit = true
    simp [h1, h2, h3, h4, h5, h6]
  · intro s hd hlen
    subst hd
    have hne : s ≠ "" := string_ne_empty_of_length hlen
    simp only [previewPeriod, hne, if_false, hlen, if_true]
    rfl
  · intro c1 c2 c3 c4 hd h1 h2 h3 h4 h0
    subst hd
    refine ⟨previewPeriod_of_year now c1 c2 c3 c4 h1 h2 h3 h4 h0, ?_⟩
    intro hm
    obtain ⟨hl, hdig⟩ := monthString_two_digits now.month hm
    refine ⟨?_, ?_⟩
    · rw [String.length_append]
      show 4 + (padStart _ 2 '0').data.length = 6
      rw [hl]
    · rw [String.data_append, List.all_append, hdig]
      show ([c1, c2, c3, c4].all Char.isDigit && true) = true
      simp [h1, h2, h3, h4]
  · intro s hd hne h6 h4
    subst hd
    have hp : previewPeriod now (some s)
        = .error ⟨"Invalid date format. Use YYYYMM or YYYY", 400⟩ := by
      simp only [previewPeriod, hne, if_false, h6, h4]
    refine ⟨hp, ?_⟩
    intro type htype
    rcases htype with rfl | rfl | rfl | rfl | rfl | rfl <;>
      · unfold preview
        simp only [hp]
        rfl

/-- Witness for C6: a `sales_order` row for 2025 with counter 10, previewed in
November 2025 with no `date` parameter, gives `SO202511-00011`; with the date
`2025` it gives the same, and with the date `202503` it gives
`SO202503-00011`. -/
theorem preview_formats_witness :
    previewPeriod ⟨2025, 10⟩ none = .ok ("2025", "11") ∧
    (preview [⟨some "2025", "sales_order", "SO", 10, 5⟩] ⟨2025, 10⟩ (some "sales_order")
        none).response = .ok ("SO" ++ "2025" ++ "11" ++ "-00011") ∧
    previewPeriod ⟨2025, 10⟩ (some "202503") = .ok ("2025", "03") ∧
    (preview [⟨some "2025", "sales_order", "SO", 10, 5⟩] ⟨2025, 10⟩ (some "sales_order")
        (some "202503")).response = .ok ("SO" ++ "2025" ++ "03" ++ "-00011") :=
  ⟨rfl, ((preview_formats [⟨some "2025", "sales_order", "SO", 10, 5⟩] ⟨2025, 10⟩ none).1
      "2025" "11" rfl).2.2.2 rfl,
    ((preview_formats [⟨some "2025", "sales_order", "SO", 10, 5⟩] ⟨2025, 10⟩
      (some "202503")).2.2.2.1 '2' '0' '2' '5' '0' '3' rfl rfl rfl rfl rfl (by decide)).1,
    ((preview_formats [⟨some "2025", "sales_order", "SO", 10, 5⟩] ⟨2025, 10⟩
      (some "202503")).1 "2025" "03" (by with_unfolding_all rfl)).2.2.2 rfl⟩

/-! ## Concurrent callers -/

theorem callerRun_finished {σ : Type} (S : SequenceStore σ) (type : String) (opts : GetNextOpts)
    (n : Nat) (result : Except String String) (issued : Option SequenceDoc) (attempts : Nat)
    (waits : List (Nat × Nat)) (s : σ) :
    callerRun S type opts n (.finished result issued attempts waits) s
      = (.finished result issued attempts waits, s) := by
  induction n with
  | zero => rfl
  | succ n ih => exact ih

/-- The moves of a caller on its own are the loop of `getNext`: from the head of
the loop with `remaining` iterations left, `2 * remaining + 1` moves or more
end in the run of `getNextLoop`, for every store. -/
theorem callerRun_eq_getNextLoop {σ : Type} (S : SequenceStore σ) (type : String)
    (opts : GetNextOpts) (remaining : Nat) :
    ∀ (n attempt : Nat) (lastError : Option String) (waits : List (Nat × Nat)) (s : σ),
      2 * remaining + 1 ≤ n →
      callerRun S type opts n (.first remaining attempt lastError waits) s
        = (.finished (getNextLoop S type opts remaining attempt lastError waits s).result
            (getNextLoop S type opts remaining attempt lastError waits s).issued
            (getNextLoop S type opts remaining attempt lastError waits s).attempts
            (getNextLoop S type opts remaining attempt lastError waits s).waits,
          (getNextLoop S type opts remaining attempt lastError waits s).store) := by
  induction remaining with
  | zero =>
    intro n attempt lastError waits s hn
    obtain ⟨m, rfl⟩ : ∃ m, n = m + 1 := ⟨n - 1, by omega⟩
    simp only [callerRun, callerStep, getNextLoop]
    exact callerRun_finished S type opts m _ _ _ _ s
  | succ remaining ih =>
    intro n attempt lastError waits s hn
    obtain ⟨m, rfl⟩ : ∃ m, n = m + 2 := ⟨n - 2, by omega⟩
    have hm : 2 * remaining + 1 ≤ m := by omega
    simp only [callerRun, callerStep, getNextLoop]
    rcases h1 : S.incExisting type opts.year s with ⟨r, s1⟩
    cases r with
    | doc d =>
      simp only []
      exact callerRun_finished S type opts m _ _ _ _ s1
    | error code msg =>
      by_cases hc : code = 11000
      · simp only [hc, if_true]
        exact ih (m + 1) _ _ _ s1 (by omega)
      · simp only [hc, if_false, callerStep]
        exact callerRun_finished S type opts m _ _ _ _ s1
    | null =>
      simp only [callerStep]
      rcases h2 : S.incUpsert type opts.year opts.pfx opts.padding s1 with ⟨r2, s2⟩
      cases r2 with
      | doc d =>
        simp only []
        exact callerRun_finished S type opts m _ _ _ _ s2
      | null =>
        simp only []
        exact ih m _ _ _ s2 hm
      | error code msg =>
        by_cases hc : code = 11000
        · simp only [hc, if_true]
          exact ih m _ _ _ s2 hm
        · simp only [hc, if_false]
          exact callerRun_finished S type opts m _ _ _ _ s2

theorem set_of_getElem? {α : Type} (l : List α) (i : Nat) (a : α) (h : l[i]? = some a) :
    l.set i a = l := by
  induction l generalizing i with
  | nil => rfl
  | cons x xs ih =>
    cases i with
    | zero =>
      simp only [List.getElem?_cons_zero, Option.some.injEq] at h
      subst h
      rfl
    | succ j =>
      simp only [List.getElem?_cons_succ] at h
      simp only [List.set_cons_succ, ih j h]

theorem filterMap_cons_toList {α β : Type} (f : α → Option β) (x : α) (xs : List α) :
    (x :: xs).filterMap f = (f x).toList ++ xs.filterMap f := by
  rw [List.filterMap_cons]
  cases f x <;> rfl

/-- Replacing an element that counts for nothing replaces nothing and adds what
the new element counts for. -/
theorem filterMap_set_perm {α β : Type} (f : α → Option β) (l : List α) (i : Nat) (a b : α)
    (h : l[i]? = some a) (ha : f a = none) :
    ((l.set i b).filterMap f).Perm (l.filterMap f ++ (f b).toList) := by
  induction l generalizing i with
  | nil => simp at h
  | cons x xs ih =>
    cases i with
    | zero =>
      simp only [List.getElem?_cons_zero, Option.some.injEq] at h
      subst h
      rw [List.set_cons_zero, filterMap_cons_toList, filterMap_cons_toList, ha]
      exact List.perm_append_comm
    | succ j =>
      simp only [List.getElem?_cons_succ] at h
      rw [List.set_cons_succ, filterMap_cons_toList, filterMap_cons_toList, List.append_assoc]
      exact List.Perm.append_left _ (ih j h)

/-- One move of an unfinished caller on a counter: either it is handed the
document with the counter plus one, which is then the counter, or it is handed
nothing and the counter is as it was. -/
theorem callerStep_counts {σ : Type} {S : SequenceStore σ} {type : String} {opts : GetNextOpts}
    {counter : σ → Nat} (hS : countsAtomically S type opts counter) (st : CallerState) (s : σ)
    (hst : isFinished st = false) :
    (∃ d, issuedBy (callerStep S type opts st s).1 = some d ∧ d.current = counter s + 1 ∧
        counter (callerStep S type opts st s).2 = counter s + 1) ∨
      (issuedBy (callerStep S type opts st s).1 = none ∧
        counter (callerStep S type opts st s).2 = counter s) := by
  obtain ⟨h1, h2⟩ := hS s
  cases st with
  | finished r i a w => simp [isFinished] at hst
  | first remaining attempt lastError waits =>
    cases remaining with
    | zero => exact Or.inr ⟨rfl, rfl⟩
    | succ remaining =>
      simp only [callerStep]
      rcases hr : S.incExisting type opts.year s with ⟨r, s1⟩
      rw [hr] at h1
      cases r with
      | doc d => exact Or.inl ⟨d, rfl, h1.1, h1.2⟩
      | null => exact Or.inr ⟨rfl, h1⟩
      | error code msg =>
        by_cases hc : code = 11000
        · simp only [hc, if_true]
          exact Or.inr ⟨rfl, h1⟩
        · simp only [hc, if_false]
          exact Or.inr ⟨rfl, h1⟩
  | upsert remaining attempt lastError waits =>
    simp only [callerStep]
    rcases hr : S.incUpsert type opts.year opts.pfx opts.padding s with ⟨r, s1⟩
    rw [hr] at h2
    cases r with
    | doc d => exact Or.inl ⟨d, rfl, h2.1, h2.2⟩
    | null => exact Or.inr ⟨rfl, h2⟩
    | error code msg =>
      by_cases hc : code = 11000
      · simp only [hc, if_true]
        exact Or.inr ⟨rfl, h2⟩
      · simp only [hc, if_false]
        exact Or.inr ⟨rfl, h2⟩

theorem issuedBy_of_not_finished (st : CallerState) (h : isFinished st = false) :
    issuedBy st = none := by
  cases st with
  | finished r i a w => simp [isFinished] at h
  | first _ _ _ _ => rfl
  | upsert _ _ _ _ => rfl

theorem callerStep_of_finished {σ : Type} (S : SequenceStore σ) (type : String)
    (opts : GetNextOpts) (st : CallerState) (s : σ) (h : isFinished st = true) :
    callerStep S type opts st s = (st, s) := by
  cases st with
  | finished r i a w => rfl
  | first _ _ _ _ => simp [isFinished] at h
  | upsert _ _ _ _ => simp [isFinished] at h

/-- One move of the schedule on a counter keeps the record in step with the
counter: the numbers issued so far are `base + 1`, `base + 2`, ... in the order
of issue, the counter is `base` plus their number, and the documents the
finished callers hold are the documents issued. -/
theorem scheduleStep_counts {σ : Type} {S : SequenceStore σ} {type : String}
    {opts : GetNextOpts} {counter : σ → Nat} (hS : countsAtomically S type opts counter)
    (base : Nat) (c : Contention σ) (i : Nat)
    (h1 : c.issued.map (fun d => d.current) = List.range' (base + 1) c.issued.length)
    (h2 : counter c.store = base + c.issued.length)
    (h3 : (c.callers.filterMap issuedBy).Perm c.issued) :
    (scheduleStep S type opts c i).issued.map (fun d => d.current)
        = List.range' (base + 1) (scheduleStep S type opts c i).issued.length ∧
      counter (scheduleStep S type opts c i).store
        = base + (scheduleStep S type opts c i).issued.length ∧
      ((scheduleStep S type opts c i).callers.filterMap issuedBy).Perm
        (scheduleStep S type opts c i).issued ∧
      (scheduleStep S type opts c i).callers.length = c.callers.length := by
  unfold scheduleStep
  cases hi : c.callers[i]? with
  | none => exact ⟨h1, h2, h3, rfl⟩
  | some st =>
    simp only []
    cases hfin : isFinished st with
    | true =>
      rw [callerStep_of_finished S type opts st c.store hfin]
      simp only [if_true, List.append_nil, set_of_getElem? c.callers i st hi]
      exact ⟨h1, h2, h3, trivial⟩
    | false =>
      simp only [Bool.false_eq_true, if_false, List.length_set]
      have hperm := filterMap_set_perm issuedBy c.callers i st
        (callerStep S type opts st c.store).1 hi (issuedBy_of_not_finished st hfin)
      rcases callerStep_counts hS st c.store hfin with ⟨d, hd, hcur, hcount⟩ | ⟨hd, hcount⟩
      · rw [hd] at hperm ⊢
        simp only [Option.toList, List.map_append, List.map_cons, List.map_nil,
          List.length_append, List.length_singleton]
        refine ⟨?_, ?_, ?_, trivial⟩
        · rw [List.range'_concat, h1, hcur, h2]
          simp only [one_mul, Nat.add_assoc, Nat.add_comm 1]
        · rw [hcount, h2]
          omega
        · exact hperm.trans (List.Perm.append_right _ h3)
      · rw [hd] at hperm ⊢
        simp only [Option.toList, List.append_nil] at hperm ⊢
        exact ⟨h1, by rw [hcount, h2], hperm.trans h3, trivial⟩

/-- Safety under contention on any store that counts atomically: whatever the
schedule, the numbers issued are `base + 1`, `base + 2`, ... in the order of
issue, without a gap or a repetition, the counter is `base` plus their number,
and the documents the finished callers hold are the documents issued. -/
theorem runSchedule_counts {σ : Type} {S : SequenceStore σ} {type : String}
    {opts : GetNextOpts} {counter : σ → Nat} (hS : countsAtomically S type opts counter)
    (base : Nat) (schedule : List Nat) (c : Contention σ)
    (h1 : c.issued.map (fun d => d.current) = List.range' (base + 1) c.issued.length)
    (h2 : counter c.store = base + c.issued.length)
    (h3 : (c.callers.filterMap issuedBy).Perm c.issued) :
    (runSchedule S type opts schedule c).issued.map (fun d => d.current)
        = List.range' (base + 1) (runSchedule S type opts schedule c).issued.length ∧
      counter (runSchedule S type opts schedule c).store
        = base + (runSchedule S type opts schedule c).issued.length ∧
      ((runSchedule S type opts schedule c).callers.filterMap issuedBy).Perm
        (runSchedule S type opts schedule c).issued ∧
      (runSchedule S type opts schedule c).callers.length = c.callers.length := by
  induction schedule generalizing c with
  | nil => exact ⟨h1, h2, h3, rfl⟩
  | cons i rest ih =>
    obtain ⟨g1, g2, g3, g4⟩ := scheduleStep_counts hS base c i h1 h2 h3
    obtain ⟨k1, k2, k3, k4⟩ := ih (scheduleStep S type opts c i) g1 g2 g3
    exact ⟨k1, k2, k3, k4.trans g4⟩

/-- The first call on the in-memory collection answers with the row, counter
raised, when there is one, and with `null` on the same rows when there is
none. -/
theorem memStore_incExisting (type : String) (year : Option String) (rows : List SequenceDoc) :
    (∃ d rows1, memStore.incExisting type year rows = (.doc d, rows1) ∧
        d.current = storedCounter type year rows + 1 ∧
        storedCounter type year rows1 = storedCounter type year rows + 1) ∨
      (memStore.incExisting type year rows = (.null, rows) ∧ findOne type year rows = none) := by
  cases h : findOne type year rows with
  | none =>
    refine Or.inr ⟨?_, rfl⟩
    simp [memStore, findOneAndInc_of_findOne_none h]
  | some d0 =>
    obtain ⟨rows1, e1, e2, _⟩ := findOneAndInc_of_findOne_some h
    refine Or.inl ⟨{ d0 with current := d0.current + 1 }, rows1, ?_, ?_, ?_⟩
    · simp [memStore, e1]
    · simp [storedCounter, h]
    · simp [storedCounter, h, e2]

/-- The upsert on the in-memory collection always answers with a document,
whose counter is the stored counter plus one. -/
theorem memStore_incUpsert (type : String) (year : Option String) (pfx : String)
    (padding : Nat) (rows : List SequenceDoc) :
    ∃ d rows1, memStore.incUpsert type year pfx padding rows = (.doc d, rows1) ∧
      d.current = storedCounter type year rows + 1 ∧
      storedCounter type year rows1 = storedCounter type year rows + 1 := by
  cases h : findOne type year rows with
  | none =>
    refine ⟨insertedRow type year pfx padding, rows ++ [insertedRow type year pfx padding],
      ?_, ?_, ?_⟩
    · simp [memStore, findOneAndInc_of_findOne_none h]
    · simp [storedCounter, h, insertedRow]
    · have hins := (findOne_append_inserted pfx padding h).1
      simp only [storedCounter, h, hins]
      rfl
  | some d0 =>
    obtain ⟨rows1, e1, e2, _⟩ := findOneAndInc_of_findOne_some h
    refine ⟨{ d0 with current := d0.current + 1 }, rows1, ?_, ?_, ?_⟩
    · simp [memStore, e1]
    · simp [storedCounter, h]
    · simp [storedCounter, h, e2]

/-- The in-memory collection counts atomically, with the stored counter of the
bucket as its counter. -/
theorem memStore_countsAtomically (type : String) (opts : GetNextOpts) :
    countsAtomically memStore type opts (storedCounter type opts.year) := by
  intro rows
  refine ⟨?_, ?_⟩
  · rcases memStore_incExisting type opts.year rows with ⟨d, rows1, h, hc, hs⟩ | ⟨h, _⟩
    · rw [h]
      exact ⟨hc, hs⟩
    · rw [h]
  · obtain ⟨d, rows1, h, hc, hs⟩ := memStore_incUpsert type opts.year opts.pfx opts.padding rows
    rw [h]
    exact ⟨hc, hs⟩

/-- One more move of a caller on the in-memory collection. -/
theorem callerStep_memStore_after (type : String) (opts : GetNextOpts) (n : Nat)
    (st : CallerState) (rows : List SequenceDoc) (h : callerAfter opts n st) :
    callerAfter opts (n + 1) (callerStep memStore type opts st rows).1 := by
  rcases h with ⟨hn, rfl⟩ | ⟨hn, rfl⟩ | ⟨hn, d, rfl⟩
  · subst hn
    rcases memStore_incExisting type opts.year rows with ⟨d, rows1, h, _, _⟩ | ⟨h, _⟩
    · refine Or.inr (Or.inr ⟨by omega, d, ?_⟩)
      simp only [callerStart, maxRetries, callerStep, h]
    · refine Or.inr (Or.inl ⟨rfl, ?_⟩)
      simp only [callerStart, maxRetries, callerStep, h]
  · subst hn
    obtain ⟨d, rows1, h, _, _⟩ := memStore_incUpsert type opts.year opts.pfx opts.padding rows
    refine Or.inr (Or.inr ⟨by omega, d, ?_⟩)
    simp only [callerStep, h]
  · exact Or.inr (Or.inr ⟨by omega, d, rfl⟩)

theorem runSchedule_concat {σ : Type} (S : SequenceStore σ) (type : String) (opts : GetNextOpts)
    (schedule : List Nat) (j : Nat) (c : Contention σ) :
    runSchedule S type opts (schedule ++ [j]) c
      = scheduleStep S type opts (runSchedule S type opts schedule c) j := by
  simp [runSchedule, List.foldl_append]

/-- Progress on the in-memory collection: after any schedule every caller
stands where the number of its moves puts it. -/
theorem runSchedule_memStore_callers (type : String) (opts : GetNextOpts)
    (rows : List SequenceDoc) (k : Nat) (schedule : List Nat) :
    (runSchedule memStore type opts schedule (contentionStart k rows)).callers.length = k ∧
      ∀ i, i < k → ∃ st,
        (runSchedule memStore type opts schedule (contentionStart k rows)).callers[i]? = some st ∧
        callerAfter opts (schedule.count i) st := by
  induction schedule using List.reverseRecOn with
  | nil =>
    refine ⟨by simp [runSchedule, contentionStart], ?_⟩
    intro i hi
    refine ⟨callerStart, ?_, Or.inl ⟨rfl, rfl⟩⟩
    simp [runSchedule, contentionStart, List.getElem?_replicate, hi]
  | append_singleton schedule j ih =>
    obtain ⟨hlen, hall⟩ := ih
    rw [runSchedule_concat]
    unfold scheduleStep
    cases hj : (runSchedule memStore type opts schedule (contentionStart k rows)).callers[j]? with
    | none =>
      refine ⟨hlen, ?_⟩
      intro i hi
      obtain ⟨st, hst, hafter⟩ := hall i hi
      have hne : j ≠ i := by
        intro h
        rw [h, hst] at hj
        cases hj
      refine ⟨st, hst, ?_⟩
      have hc : (schedule ++ [j]).count i = schedule.count i := by
        simp [List.count_append, List.count_singleton, hne]
      rw [hc]
      exact hafter
    | some stj =>
      simp only [List.length_set]
      refine ⟨hlen, ?_⟩
      intro i hi
      obtain ⟨st, hst, hafter⟩ := hall i hi
      by_cases hji : j = i
      · subst hji
        rw [hj] at hst
        cases hst
        refine ⟨_, List.getElem?_set_self (by rw [hlen]; exact hi), ?_⟩
        have hc : (schedule ++ [j]).count j = schedule.count j + 1 := by
          simp [List.count_append, List.count_singleton]
        rw [hc]
        exact callerStep_memStore_after type opts _ stj _ hafter
      · refine ⟨st, ?_, ?_⟩
        · rw [List.getElem?_set_ne hji]
          exact hst
        · have hc : (schedule ++ [j]).count i = schedule.count i := by
            simp [List.count_append, List.count_singleton, hji]
          rw [hc]
          exact hafter

theorem mem_map_filterMap_of_getElem? {α β γ : Type} (f : α → Option β) (g : β → γ)
    (l : List α) (j : Nat) (b : α) (e : β) (hj : l[j]? = some b) (he : f b = some e) :
    g e ∈ (l.filterMap f).map g := by
  have hb : b ∈ l := List.mem_iff_getElem?.mpr ⟨j, hj⟩
  exact List.mem_map.mpr ⟨e, List.mem_filterMap.mpr ⟨b, hb, he⟩, rfl⟩

/-- What two different places of a list count for differs when nothing is
counted twice. -/
theorem distinct_of_nodup_filterMap {α β γ : Type} (f : α → Option β) (g : β → γ)
    (l : List α) (h : ((l.filterMap f).map g).Nodup) :
    ∀ (i j : Nat) (a b : α) (d e : β), i ≠ j → l[i]? = some a → l[j]? = some b →
      f a = some d → f b = some e → g d ≠ g e := by
  induction l with
  | nil =>
    intro i j a b d e _ ha
    simp at ha
  | cons x xs ih =>
    intro i j a b d e hij ha hb hd he
    rw [filterMap_cons_toList, List.map_append] at h
    have htail : ((xs.filterMap f).map g).Nodup := (List.nodup_append.mp h).2.1
    cases i with
    | zero =>
      cases j with
      | zero => exact absurd rfl hij
      | succ j =>
        simp only [List.getElem?_cons_zero, Option.some.injEq] at ha
        simp only [List.getElem?_cons_succ] at hb
        subst ha
        rw [hd] at h
        have hdis := (List.nodup_append.mp h).2.2
        have hmem := mem_map_filterMap_of_getElem? f g xs j b e hb he
        intro hge
        exact hdis (by simp) (hge ▸ hmem)
    | succ i =>
      cases j with
      | zero =>
        simp only [List.getElem?_cons_zero, Option.some.injEq] at hb
        simp only [List.getElem?_cons_succ] at ha
        subst hb
        rw [he] at h
        have hdis := (List.nodup_append.mp h).2.2
        have hmem := mem_map_filterMap_of_getElem? f g xs i a d ha hd
        intro hge
        exact hdis (by simp) (hge ▸ hmem)
      | succ j =>
        simp only [List.getElem?_cons_succ] at ha hb
        exact ih htail i j a b d e (fun h => hij (by rw [h])) ha hb hd he

theorem length_filterMap_of_all_some {α β : Type} (f : α → Option β) (l : List α)
    (h : ∀ a ∈ l, ∃ b, f a = some b) : (l.filterMap f).length = l.length := by
  induction l with
  | nil => rfl
  | cons x xs ih =>
    obtain ⟨b, hb⟩ := h x (by simp)
    rw [filterMap_cons_toList, hb]
    simp only [Option.toList, List.singleton_append, List.length_cons]
    rw [ih (fun a ha => h a (by simp [ha]))]

/-- C3: callers of `getNext` for the same (type, year) that run at the same
time on the in-memory collection, each store call being answered atomically
and the calls of the callers interleaved by an arbitrary schedule.  With c the
stored counter of the bucket before (0 without a row), after the schedule:
the numbers issued are c+1, c+2, ... in the order of issue, so strictly
increasing, without a repetition and without a gap; the stored counter is c
plus the number of numbers issued; the documents the finished callers hold are
exactly the documents issued, so every number issued went to one caller and no
two callers hold the same number; no caller has thrown: each one is at its
start, at its upsert, or has returned the formatted number of the document it
was handed, which lies between c+1 and the stored counter; and when every one
of the k callers has made two moves, all k callers have returned and the
numbers issued are c+1, ..., c+k.  A caller on its own makes the moves of the
loop of `getNext`: on every store, `2 * maxRetries + 1` moves or more end in
the run of `getNext`. -/
theorem getNext_concurrent_callers (type : String) (opts : GetNextOpts)
    (rows : List SequenceDoc) (k : Nat) (schedule : List Nat)
    (final : Contention (List SequenceDoc))
    (hfinal : runSchedule memStore type opts schedule (contentionStart k rows) = final) :
    final.callers.length = k ∧
    final.issued.map (fun d => d.current)
      = List.range' (storedCounter type opts.year rows + 1) final.issued.length ∧
    (final.issued.map (fun d => d.current)).Nodup ∧
    (final.issued.map (fun d => d.current)).Sorted (fun a b => a < b) ∧
    storedCounter type opts.year final.store
      = storedCounter type opts.year rows + final.issued.length ∧
    (final.callers.filterMap issuedBy).Perm final.issued ∧
    final.issued.length ≤ k ∧
    (∀ (i j : Nat) (a b : CallerState) (d e : SequenceDoc), i ≠ j →
      final.callers[i]? = some a → final.callers[j]? = some b →
      issuedBy a = some d → issuedBy b = some e → d.current ≠ e.current) ∧
    (∀ i, i < k → ∃ st, final.callers[i]? = some st ∧
      (st = callerStart ∨ st = .upsert (maxRetries - 1) 0 none [] ∨
        ∃ d, st = .finished (.ok (formatNumber d opts)) (some d) 1 [] ∧
          storedCounter type opts.year rows + 1 ≤ d.current ∧
          d.current ≤ storedCounter type opts.year final.store)) ∧
    ((∀ i, i < k → 2 ≤ schedule.count i) →
      final.issued.length = k ∧
      final.issued.map (fun d => d.current)
        = List.range' (storedCounter type opts.year rows + 1) k ∧
      ∀ st ∈ final.callers, ∃ d, st = .finished (.ok (formatNumber d opts)) (some d) 1 []) ∧
    (∀ (σ : Type) (S : SequenceStore σ) (s : σ) (n : Nat), 2 * maxRetries + 1 ≤ n →
      callerRun S type opts n callerStart s
        = (.finished (getNext S type opts s).result (getNext S type opts s).issued
            (getNext S type opts s).attempts (getNext S type opts s).waits,
          (getNext S type opts s).store)) := by
  subst hfinal
  obtain ⟨h1, h2, h3, _⟩ := @runSchedule_counts _ memStore type opts
    (storedCounter type opts.year) (memStore_countsAtomically type opts)
    (storedCounter type opts.year rows) schedule (contentionStart k rows) rfl rfl
    (by simp [contentionStart, callerStart, issuedBy, List.filterMap_replicate])
  obtain ⟨hlen, hall⟩ := runSchedule_memStore_callers type opts rows k schedule
  have hnodup : ((runSchedule memStore type opts schedule (contentionStart k rows)).issued.map
      (fun d => d.current)).Nodup := by
    rw [h1]
    exact List.nodup_range' _ _
  have hsorted : ((runSchedule memStore type opts schedule (contentionStart k rows)).issued.map
      (fun d => d.current)).Sorted (fun a b => a < b) := by
    rw [h1]
    exact List.pairwise_lt_range' _ _
  have hnodup2 : (((runSchedule memStore type opts schedule
      (contentionStart k rows)).callers.filterMap issuedBy).map (fun d => d.current)).Nodup :=
    ((h3.map (fun d => d.current)).nodup_iff).mpr hnodup
  have hrange : ∀ d ∈ (runSchedule memStore type opts schedule (contentionStart k rows)).issued,
      storedCounter type opts.year rows + 1 ≤ d.current ∧
      d.current ≤ storedCounter type opts.year
        (runSchedule memStore type opts schedule (contentionStart k rows)).store := by
    intro d hd
    have hm : d.current ∈ List.range' (storedCounter type opts.year rows + 1)
        (runSchedule memStore type opts schedule (contentionStart k rows)).issued.length := by
      rw [← h1]
      exact List.mem_map_of_mem _ hd
    rw [List.mem_range'_1] at hm
    rw [h2]
    omega
  refine ⟨hlen, h1, hnodup, hsorted, h2, h3, ?_, ?_, ?_, ?_, ?_⟩
  · have ha := List.length_filterMap_le issuedBy
      (runSchedule memStore type opts schedule (contentionStart k rows)).callers
    have hb := h3.length_eq
    omega
  · exact distinct_of_nodup_filterMap issuedBy (fun d => d.current) _ hnodup2
  · intro i hi
    obtain ⟨st, hst, hafter⟩ := hall i hi
    refine ⟨st, hst, ?_⟩
    rcases hafter with ⟨_, h⟩ | ⟨_, h⟩ | ⟨_, d, h⟩
    · exact Or.inl h
    · exact Or.inr (Or.inl h)
    · refine Or.inr (Or.inr ⟨d, h, ?_⟩)
      have hmem : d ∈ (runSchedule memStore type opts schedule
          (contentionStart k rows)).callers.filterMap issuedBy :=
        List.mem_filterMap.mpr ⟨st, List.mem_iff_getElem?.mpr ⟨i, hst⟩, by rw [h]; rfl⟩
      exact hrange d (h3.subset hmem)
  · intro htwice
    have hfin : ∀ st ∈ (runSchedule memStore type opts schedule
        (contentionStart k rows)).callers,
        ∃ d, st = .finished (.ok (formatNumber d opts)) (some d) 1 [] := by
      intro st hst
      obtain ⟨i, hi⟩ := List.mem_iff_getElem?.mp hst
      have hik : i < k := by
        obtain ⟨hlt, _⟩ := List.getElem?_eq_some.mp hi
        rw [hlen] at hlt
        exact hlt
      obtain ⟨st2, hst2, hafter⟩ := hall i hik
      rw [hi] at hst2
      cases hst2
      have h2le := htwice i hik
      rcases hafter with ⟨h0, _⟩ | ⟨h1, _⟩ | ⟨_, d, h⟩
      · omega
      · omega
      · exact ⟨d, h⟩
    have hk : (runSchedule memStore type opts schedule (contentionStart k rows)).issued.length
        = k := by
      rw [← h3.length_eq, length_filterMap_of_all_some issuedBy _ ?_, hlen]
      intro st hst
      obtain ⟨d, hd⟩ := hfin st hst
      exact ⟨d, by rw [hd]; rfl⟩
    refine ⟨hk, ?_, hfin⟩
    rw [h1, hk]
  · intro σ S s n hn
    exact callerRun_eq_getNextLoop S type opts maxRetries n 0 none [] s hn

/-- Witness for C3: three callers for sales orders of 2025 on an empty
collection.  Callers 0 and 1 both find no row; caller 1 then inserts it and is
handed 1, caller 0 is handed 2 by its upsert, and caller 2 is handed 3 by its
first call.  The numbers issued are 1, 2, 3 in that order and the callers
return `SO00002`, `SO00001` and `SO00003`. -/
theorem getNext_concurrent_callers_witness :
    (runSchedule memStore "sales_order" { year := some "2025", pfx := "SO", padding := 5 }
        [0, 1, 1, 0, 2, 2] (contentionStart 3 [])).issued.map (fun d => d.current)
      = List.range' (storedCounter "sales_order" (some "2025") [] + 1) 3 ∧
    List.range' (storedCounter "sales_order" (some "2025") [] + 1) 3 = [1, 2, 3] ∧
    (runSchedule memStore "sales_order" { year := some "2025", pfx := "SO", padding := 5 }
        [0, 1, 1, 0, 2, 2] (contentionStart 3 [])).callers
      = [.finished (.ok "SO00002") (some ⟨some "2025", "sales_order", "SO", 2, 5⟩) 1 [],
          .finished (.ok "SO00001") (some ⟨some "2025", "sales_order", "SO", 1, 5⟩) 1 [],
          .finished (.ok "SO00003") (some ⟨some "2025", "sales_order", "SO", 3, 5⟩) 1 []] :=
  ⟨((getNext_concurrent_callers "sales_order" { year := some "2025", pfx := "SO", padding := 5 }
      [] 3 [0, 1, 1, 0, 2, 2] _ rfl).2.2.2.2.2.2.2.2.2.1 (by decide)).2.1,
    by decide, by with_unfolding_all rfl⟩

end TradeErp
